import Mathlib

/-! # Dolphin: guest address translation (`Memmap.cpp`) and the DSP interface (`DSP.cpp`)

A shallow embedding of `Memory::GetPointer`, `Memory::IsRAMAddress` and of the
DSP interface's register handlers and DMA engines, followed by theorems about
them.

Conventions.
* A guest address (`u32`) is a `Nat`; theorems about "every 32-bit address"
  carry the bound `a < 2 ^ 32`.
* A host pointer is a base buffer plus a byte offset; `NULL` is `none`.
* A C `switch` is the chain of comparisons of its selector with the `case`
  labels, in order. Fall-through is made explicit: every `case` label is a
  function that ends by calling the function of the label control falls into.
-/

namespace Memory

/-! ## Constants of `Memmap.h` -/

/-- Modelled from the spec: `REALRAM_SIZE` of `Memmap.h`, a header outside the translated
files: the 24 MiB of main RAM reported to emulated software. -/
def REALRAM_SIZE : Nat := 0x1800000

/-- Modelled from the spec: `RAM_SIZE` of `Memmap.h`, the amount of main RAM the
emulator allocates and maps: `REALRAM_SIZE` rounded up to a power of two. -/
def RAM_SIZE : Nat := 0x2000000

/-- Modelled from the spec: `RAM_MASK` of `Memmap.h`, `RAM_SIZE - 1`. -/
def RAM_MASK : Nat := RAM_SIZE - 1

/-- Modelled from the spec: `FAKEVMEM_SIZE` of `Memmap.h`. -/
def FAKEVMEM_SIZE : Nat := 0x2000000

/-- Modelled from the spec: `FAKEVMEM_MASK` of `Memmap.h`, `FAKEVMEM_SIZE - 1`. -/
def FAKEVMEM_MASK : Nat := FAKEVMEM_SIZE - 1

/-- Modelled from the spec: `L1_CACHE_SIZE` of `Memmap.h` (256 KiB locked cache). -/
def L1_CACHE_SIZE : Nat := 0x40000

/-- Modelled from the spec: `L1_CACHE_MASK` of `Memmap.h`, `L1_CACHE_SIZE - 1`. -/
def L1_CACHE_MASK : Nat := L1_CACHE_SIZE - 1

/-- Modelled from the spec: `EXRAM_SIZE` of `Memmap.h` (64 MiB extended RAM). -/
def EXRAM_SIZE : Nat := 0x4000000

/-- Modelled from the spec: `EXRAM_MASK` of `Memmap.h`, `EXRAM_SIZE - 1`. -/
def EXRAM_MASK : Nat := EXRAM_SIZE - 1

/-! ## Host pointers and platform mode -/

/-- The host base pointers `GetPointer` adds an offset to. -/
inductive HostBuffer where
  /-- The buffer behind `m_pPhysicalRAM`. -/
  | m_pPhysicalRAM
  /-- The buffer behind `m_pPhysicalEXRAM` (Wii only). -/
  | m_pPhysicalEXRAM
  /-- The buffer `GetCachePtr()` returns (locked L1 cache). -/
  | GetCachePtr
  /-- The buffer behind `m_pVirtualFakeVMEM`. -/
  | m_pVirtualFakeVMEM
  deriving DecidableEq, Repr

/-- A non-null host pointer `base + offset`. -/
structure HostPtr where
  base : HostBuffer
  offset : Nat
  deriving DecidableEq, Repr

/-- The two configuration values the translation reads:
`SConfig::GetInstance().m_LocalCoreStartupParameter.bWii` and `Memory::bFakeVMEM`. -/
structure Platform where
  bWii : Bool
  bFakeVMEM : Bool
  deriving DecidableEq, Repr

/-! ## `GetPointer` -/

/-- The `default:` label of the outer switch of `GetPointer`. Leaving the switch
reaches `ERROR_LOG` and `return NULL`. -/
def GetPointer_default (p : Platform) (_Address : Nat) : Option HostPtr :=
  if p.bFakeVMEM then
    some ⟨HostBuffer.m_pVirtualFakeVMEM, _Address &&& FAKEVMEM_MASK⟩
  else
    none

/-- The `case 0xe:` label of `GetPointer`; its `else` branch is `break`. -/
def GetPointer_case_e (_Address : Nat) : Option HostPtr :=
  if _Address < 0xE0000000 + L1_CACHE_SIZE then
    some ⟨HostBuffer.GetCachePtr, _Address &&& L1_CACHE_MASK⟩
  else
    none

/-- The `case 0x1: case 0x9: case 0xd:` label of `GetPointer`. In Wii mode an
out-of-range offset leaves the `if` without `break` and falls into `case 0xe:`;
outside Wii mode the `else` is `break`. -/
def GetPointer_case_1_9_d (p : Platform) (_Address : Nat) : Option HostPtr :=
  if p.bWii then
    if (_Address &&& 0xfffffff) < EXRAM_SIZE then
      some ⟨HostBuffer.m_pPhysicalEXRAM, _Address &&& EXRAM_MASK⟩
    else
      GetPointer_case_e _Address
  else
    none

/-- The `case 0xc:` label of `GetPointer`: the inner switch on the top byte.
`0xcc` and `0xcd` fall into `0xc8`, whose `break` leaves the inner switch only;
the `default:` returns on an in-range offset. Control then falls into
`case 0x1:`. -/
def GetPointer_case_c (p : Platform) (_Address : Nat) : Option HostPtr :=
  if _Address >>> 24 = 0xcc ∨ _Address >>> 24 = 0xcd ∨ _Address >>> 24 = 0xc8 then
    GetPointer_case_1_9_d p _Address
  else if (_Address &&& 0xfffffff) < REALRAM_SIZE then
    some ⟨HostBuffer.m_pPhysicalRAM, _Address &&& RAM_MASK⟩
  else
    GetPointer_case_1_9_d p _Address

/-- The `case 0x0: case 0x8:` label of `GetPointer`; falls into `case 0xc:`. -/
def GetPointer_case_0_8 (p : Platform) (_Address : Nat) : Option HostPtr :=
  if (_Address &&& 0xfffffff) < REALRAM_SIZE then
    some ⟨HostBuffer.m_pPhysicalRAM, _Address &&& RAM_MASK⟩
  else
    GetPointer_case_c p _Address

/-- `u8 *GetPointer(const u32 _Address)`: `none` is `NULL`. -/
def GetPointer (p : Platform) (_Address : Nat) : Option HostPtr :=
  if _Address >>> 28 = 0x0 ∨ _Address >>> 28 = 0x8 then
    GetPointer_case_0_8 p _Address
  else if _Address >>> 28 = 0xc then
    GetPointer_case_c p _Address
  else if _Address >>> 28 = 0x1 ∨ _Address >>> 28 = 0x9 ∨ _Address >>> 28 = 0xd then
    GetPointer_case_1_9_d p _Address
  else if _Address >>> 28 = 0xe then
    GetPointer_case_e _Address
  else
    GetPointer_default p _Address

/-! ## `IsRAMAddress` -/

/-- `bool IsRAMAddress(const u32 addr, bool allow_locked_cache, bool allow_fake_vmem)`.
`addr - 0xE0000000` is a `u32` subtraction. -/
def IsRAMAddress (p : Platform) (addr : Nat) (allow_locked_cache allow_fake_vmem : Bool) :
    Bool :=
  let sel := (addr >>> 24) &&& 0xFC
  if sel = 0x00 ∨ sel = 0x80 ∨ sel = 0xC0 then
    if (addr &&& 0x1FFFFFFF) < RAM_SIZE then true else false
  else if sel = 0x10 ∨ sel = 0x90 ∨ sel = 0xD0 then
    if p.bWii = true ∧ (addr &&& 0x0FFFFFFF) < EXRAM_SIZE then true else false
  else if sel = 0xE0 then
    if allow_locked_cache = true ∧ (addr + 2 ^ 32 - 0xE0000000) % 2 ^ 32 < L1_CACHE_SIZE then
      true
    else
      false
  else if sel = 0x7C then
    if allow_fake_vmem = true ∧ p.bFakeVMEM = true ∧ addr ≥ 0x7E000000 then true else false
  else
    false

end Memory


/-! # The DSP interface (`DSP.cpp`)

Conventions.
* A bit-field union (`UDSPControl`, `UAudioDMAControl`, `UARAMCount`) is laid
  out with the first declared field in the least significant bits, as the
  register documentation of the source assumes (`AID` is bit 3 of `DSP_CONTROL`,
  `Enable` is bit 15 of the Audio-DMA control word, `dir` is bit 31 of the ARAM
  count).
* `u16` and `u32` values are `Nat`; a handler reduces what it stores modulo
  `2 ^ 16` or `2 ^ 32`. `int` values are `Int`.
* Calls that leave the DSP interface (DSP emulator, processor interface, core
  timing, guest memory writes, alerts) are appended, in program order, to the
  `trace` of the state. A value the outside returns is an argument of the
  handler that asks for it.
-/

namespace Common

/-- Byte `i` of a value, byte `0` the least significant. -/
def byteAt (v i : Nat) : Nat := v / 256 ^ i % 256

/-- Modelled from the spec: `Common::swap64`, defined outside the translated files: the
reversal of the eight bytes of a 64-bit value. -/
def swap64 (v : Nat) : Nat :=
  byteAt v 0 * 256 ^ 7 + byteAt v 1 * 256 ^ 6 + byteAt v 2 * 256 ^ 5 + byteAt v 3 * 256 ^ 4 +
  byteAt v 4 * 256 ^ 3 + byteAt v 5 * 256 ^ 2 + byteAt v 6 * 256 + byteAt v 7

end Common

namespace Memory

/-- Modelled from the spec: the guest's main memory as `Memory::Read_U64` and
`Memory::Write_U64` see it (both are defined outside the translated files): a
byte store indexed by 32-bit guest address. -/
abbrev GuestMemory := Nat → Nat

/-- Modelled from the spec: `Memory::Read_U64(addr)`, the big-endian 64-bit value of
the eight bytes at `addr`. -/
def Read_U64 (m : GuestMemory) (addr : Nat) : Nat :=
  m (addr % 2 ^ 32) % 256 * 256 ^ 7 + m ((addr + 1) % 2 ^ 32) % 256 * 256 ^ 6 +
  m ((addr + 2) % 2 ^ 32) % 256 * 256 ^ 5 + m ((addr + 3) % 2 ^ 32) % 256 * 256 ^ 4 +
  m ((addr + 4) % 2 ^ 32) % 256 * 256 ^ 3 + m ((addr + 5) % 2 ^ 32) % 256 * 256 ^ 2 +
  m ((addr + 6) % 2 ^ 32) % 256 * 256 + m ((addr + 7) % 2 ^ 32) % 256

/-- Modelled from the spec: `Memory::Write_U64(var, addr)`, which stores the eight
bytes of `var` at `addr`, most significant byte first. -/
def Write_U64 (var addr : Nat) (m : GuestMemory) : GuestMemory :=
  fun j =>
    let d := (j + 2 ^ 32 - addr % 2 ^ 32) % 2 ^ 32
    if j < 2 ^ 32 ∧ d < 8 then Common.byteAt var (7 - d) else m j

/-- Modelled from the spec: `Memory::Write_U64_Swap(var, addr)`, `Write_U64` of the
byte-swapped value: the bytes of `var` land at `addr` least significant first. -/
def Write_U64_Swap (var addr : Nat) (m : GuestMemory) : GuestMemory :=
  Write_U64 (Common.swap64 var) addr m

end Memory

namespace DSP

/-! ## Constants of `DSP.h` -/

/-- Modelled from the spec: `INT_DSP` of `enum DSPInterruptType` in `DSP.h`. -/
def INT_DSP : Nat := 0

/-- Modelled from the spec: `INT_ARAM` of `enum DSPInterruptType` in `DSP.h`. -/
def INT_ARAM : Nat := 1

/-- Modelled from the spec: `INT_AID` of `enum DSPInterruptType` in `DSP.h`. -/
def INT_AID : Nat := 2

/-- Modelled from the spec: `ARAM_SIZE` of `DSP.h`, the 16 MiB of GameCube ARAM. -/
def ARAM_SIZE : Nat := 0x01000000

/-- Modelled from the spec: `ARAM_MASK` of `DSP.h`, `ARAM_SIZE - 1`. -/
def ARAM_MASK : Nat := 0x00FFFFFF

/-- `#define DSP_CONTROL_MASK 0x0C07`. -/
def DSP_CONTROL_MASK : Nat := 0x0C07

/-- `~DSP_CONTROL_MASK` within the 16 bits of the register. -/
def DSP_CONTROL_MASK_compl : Nat := 0xF3F8

/-! ## Data model -/

/-- `union UARAMCount`: `count` is bits 0..30 of `Hex`, `dir` is bit 31. -/
structure UARAMCount where
  Hex : Nat
  deriving DecidableEq, Repr

/-- `u32 count : 31`. -/
def UARAMCount.count (c : UARAMCount) : Nat := c.Hex % 2 ^ 31

/-- `u32 dir : 1`; 0: MRAM -> ARAM, 1: ARAM -> MRAM. -/
def UARAMCount.dir (c : UARAMCount) : Nat := c.Hex / 2 ^ 31 % 2

/-- Assignment to the bit-field `count`: the value is truncated to 31 bits and
`dir` keeps its value. -/
def UARAMCount.setCount (c : UARAMCount) (v : Nat) : UARAMCount :=
  ⟨c.dir * 2 ^ 31 + v % 2 ^ 31⟩

/-- `union UDSPControl`, field by field (`pad` is the 4-bit field of bits 12..15). -/
structure UDSPControl where
  DSPReset : Bool
  DSPAssertInt : Bool
  DSPHalt : Bool
  AID : Bool
  AID_mask : Bool
  ARAM : Bool
  ARAM_mask : Bool
  DSP : Bool
  DSP_mask : Bool
  DMAState : Bool
  unk3 : Bool
  DSPInit : Bool
  pad : Nat
  deriving DecidableEq, Repr

/-- Reading the bit-fields of a `UDSPControl` whose `Hex` is `h`. -/
def UDSPControl.ofHex (h : Nat) : UDSPControl where
  DSPReset := h.testBit 0
  DSPAssertInt := h.testBit 1
  DSPHalt := h.testBit 2
  AID := h.testBit 3
  AID_mask := h.testBit 4
  ARAM := h.testBit 5
  ARAM_mask := h.testBit 6
  DSP := h.testBit 7
  DSP_mask := h.testBit 8
  DMAState := h.testBit 9
  unk3 := h.testBit 10
  DSPInit := h.testBit 11
  pad := h / 2 ^ 12 % 16

/-- The member `Hex` of a `UDSPControl`. -/
def UDSPControl.Hex (c : UDSPControl) : Nat :=
  c.DSPReset.toNat + 2 * c.DSPAssertInt.toNat + 4 * c.DSPHalt.toNat + 8 * c.AID.toNat +
  16 * c.AID_mask.toNat + 32 * c.ARAM.toNat + 64 * c.ARAM_mask.toNat + 128 * c.DSP.toNat +
  256 * c.DSP_mask.toNat + 512 * c.DMAState.toNat + 1024 * c.unk3.toNat +
  2048 * c.DSPInit.toNat + 4096 * (c.pad % 16)

/-- `union UAudioDMAControl`: `NumBlocks` is bits 0..14 of `Hex`, `Enable` is bit 15. -/
structure UAudioDMAControl where
  Hex : Nat
  deriving DecidableEq, Repr

/-- `u16 NumBlocks : 15`. -/
def UAudioDMAControl.NumBlocks (c : UAudioDMAControl) : Nat := c.Hex % 2 ^ 15

/-- `u16 Enable : 1`. -/
def UAudioDMAControl.Enable (c : UAudioDMAControl) : Nat := c.Hex / 2 ^ 15 % 2

/-- `struct AudioDMA`. -/
structure AudioDMA where
  SourceAddress : Nat
  ReadAddress : Nat
  AudioDMAControl : UAudioDMAControl
  BlocksLeft : Int
  deriving DecidableEq, Repr

/-- The Audio-DMA invariant of the specification: `0 ≤ BlocksLeft ≤ NumBlocks`. -/
def AudioDMA.Invariant (a : AudioDMA) : Prop :=
  0 ≤ a.BlocksLeft ∧ a.BlocksLeft ≤ (a.AudioDMAControl.NumBlocks : Int)

instance (a : AudioDMA) : Decidable a.Invariant := by
  unfold AudioDMA.Invariant
  exact inferInstance

/-- `struct ARAM_DMA`. -/
structure ARAM_DMA where
  MMAddr : Nat
  ARAddr : Nat
  Cnt : UARAMCount
  deriving DecidableEq, Repr

/-- `struct ARAMInfo`; `ptr` is the content of the buffer the pointer designates,
byte by byte. -/
structure ARAMInfo where
  wii_mode : Bool
  size : Nat
  mask : Nat
  ptr : Nat → Nat

/-- Calls that leave the DSP interface. -/
inductive Event where
  /-- `dsp_emulator->DSP_SendAIBuffer(address, num_samples)`. -/
  | DSP_SendAIBuffer (address num_samples : Nat)
  /-- `dsp_emulator->DSP_WriteControlRegister(val)`. -/
  | DSP_WriteControlRegister (val : Nat)
  /-- `dsp_emulator->DSP_ReadControlRegister()`. -/
  | DSP_ReadControlRegister
  /-- `ProcessorInterface::SetInterrupt(ProcessorInterface::INT_CAUSE_DSP, set)`. -/
  | SetInterrupt_INT_CAUSE_DSP (set : Bool)
  /-- `CoreTiming::ForceExceptionCheck(cycles)`. -/
  | ForceExceptionCheck (cycles : Nat)
  /-- `CoreTiming::ScheduleEvent_Threadsafe(cyclesIntoFuture, et_GenerateDSPInterrupt, userdata)`. -/
  | ScheduleEvent_Threadsafe (cyclesIntoFuture userdata : Nat)
  /-- `PanicAlert` of the control-register write, with the written value. -/
  | PanicAlert (val : Nat)
  /-- `Memory::Write_U64_Swap(var, addr)`. -/
  | Write_U64_Swap (var addr : Nat)
  /-- `Memory::Write_U64(var, addr)`. -/
  | Write_U64 (var addr : Nat)
  deriving DecidableEq, Repr

/-- The state of the DSP interface (the `STATE_TO_SAVE` globals, `dsp_slice`,
`dsp_is_lle`), the guest's main memory, and the trace of outgoing calls. -/
structure DSPSystem where
  g_ARAM : ARAMInfo
  /-- `g_dspState.DSPControl`. -/
  g_dspState : UDSPControl
  g_audioDMA : AudioDMA
  g_arDMA : ARAM_DMA
  /-- `g_ARAM_Info.Hex`. -/
  g_ARAM_Info : Nat
  g_AR_MODE : Nat
  g_AR_REFRESH : Nat
  dsp_slice : Int
  dsp_is_lle : Bool
  /-- The guest's main memory. -/
  ram : Memory.GuestMemory
  trace : List Event

/-- Record an outgoing call. -/
def DSPSystem.emit (s : DSPSystem) (e : Event) : DSPSystem :=
  { s with trace := s.trace ++ [e] }

/-! ## Initial state -/

/-- `DSP::Init(hle)` together with the static initialisers of the file: the state
the interface starts in. `wii` is the configuration flag `bWii`, `lle` is what
`dsp_emulator->IsLLE()` answers, `aram` is the content of the buffer `g_ARAM.ptr`
is bound to, `ram` is the guest's main memory. -/
def Init (wii lle : Bool) (aram : Nat → Nat) (ram : Memory.GuestMemory) : DSPSystem where
  g_ARAM :=
    if wii then
      { wii_mode := true, size := Memory.EXRAM_SIZE, mask := Memory.EXRAM_MASK, ptr := aram }
    else
      { wii_mode := false, size := ARAM_SIZE, mask := ARAM_MASK, ptr := aram }
  g_dspState := { UDSPControl.ofHex 0 with DSPHalt := true }
  g_audioDMA := { SourceAddress := 0, ReadAddress := 0, AudioDMAControl := ⟨0⟩, BlocksLeft := 0 }
  g_arDMA := { MMAddr := 0, ARAddr := 0, Cnt := ⟨0⟩ }
  g_ARAM_Info := 0
  g_AR_MODE := 1
  g_AR_REFRESH := 156
  dsp_slice := 0
  dsp_is_lle := lle
  ram := ram
  trace := []

/-! ## Interrupts -/

/-- `void UpdateInterrupts()`. -/
def UpdateInterrupts (s : DSPSystem) : DSPSystem :=
  if (s.g_dspState.AID && s.g_dspState.AID_mask) ||
     (s.g_dspState.ARAM && s.g_dspState.ARAM_mask) ||
     (s.g_dspState.DSP && s.g_dspState.DSP_mask) then
    s.emit (Event.SetInterrupt_INT_CAUSE_DSP true)
  else
    s.emit (Event.SetInterrupt_INT_CAUSE_DSP false)

/-- `void GenerateDSPInterrupt(DSPInterruptType type, bool _bSet)`. The switch has
no `default:`; a value that is none of the three enumerators changes no latch. -/
def GenerateDSPInterrupt (type : Nat) (_bSet : Bool) (s : DSPSystem) : DSPSystem :=
  let s1 : DSPSystem :=
    if type = INT_DSP then
      { s with g_dspState := { s.g_dspState with DSP := _bSet } }
    else if type = INT_ARAM then
      let s0 : DSPSystem := { s with g_dspState := { s.g_dspState with ARAM := _bSet } }
      if _bSet then { s0 with g_dspState := { s0.g_dspState with DMAState := false } } else s0
    else if type = INT_AID then
      { s with g_dspState := { s.g_dspState with AID := _bSet } }
    else
      s
  UpdateInterrupts s1

/-- `void GenerateDSPInterrupt_Wrapper(u64 userdata, int cyclesLate)`. -/
def GenerateDSPInterrupt_Wrapper (userdata : Nat) (s : DSPSystem) : DSPSystem :=
  GenerateDSPInterrupt (userdata &&& 0xFFFF) (decide ((userdata >>> 16) &&& 1 ≠ 0)) s

/-- `void GenerateDSPInterruptFromDSPEmu(DSPInterruptType type, bool _bSet)`. -/
def GenerateDSPInterruptFromDSPEmu (type : Nat) (_bSet : Bool) (s : DSPSystem) : DSPSystem :=
  (s.emit (Event.ScheduleEvent_Threadsafe 0 (type ||| (_bSet.toNat <<< 16)))).emit
    (Event.ForceExceptionCheck 100)

/-! ## Register handlers -/

/-- The registers of `directly_mapped_vars`. -/
inductive DirectReg where
  | AR_INFO
  | AR_MODE
  | AR_REFRESH
  | AR_DMA_MMADDR_H
  | AR_DMA_MMADDR_L
  | AR_DMA_ARADDR_H
  | AR_DMA_ARADDR_L
  | AR_DMA_CNT_H
  | AUDIO_DMA_START_HI
  | AUDIO_DMA_START_LO
  deriving DecidableEq, Repr

/-- `align_writes_on_32_bytes` of a `directly_mapped_vars` entry. -/
def DirectReg.align_writes_on_32_bytes : DirectReg → Bool
  | .AR_DMA_MMADDR_L => true
  | .AR_DMA_ARADDR_L => true
  | _ => false

/-- `u16 write_mask = mapped_var.align_writes_on_32_bytes ? 0xFFE0 : 0xFFFF`. -/
def DirectReg.write_mask (r : DirectReg) : Nat :=
  if r.align_writes_on_32_bytes then 0xFFE0 else 0xFFFF

/-- Storing a `u16` through `MMIO::Utils::HighPart(&x)`: bits 16..31 of `x`. -/
def setHighPart (x v : Nat) : Nat := (v % 2 ^ 16) * 2 ^ 16 + x % 2 ^ 16

/-- Storing a `u16` through `MMIO::Utils::LowPart(&x)`: bits 0..15 of `x`. -/
def setLowPart (x v : Nat) : Nat := (x / 2 ^ 16 % 2 ^ 16) * 2 ^ 16 + v % 2 ^ 16

/-- Modelled from the spec: the write handler `MMIO::DirectWrite<u16>(ptr, write_mask)`
registered for a `directly_mapped_vars` entry (the MMIO helpers are defined
outside the translated files): it stores the written value, masked, into the variable. -/
def DirectWrite (r : DirectReg) (val : Nat) (s : DSPSystem) : DSPSystem :=
  let v := (val % 2 ^ 16) &&& r.write_mask
  match r with
  | .AR_INFO => { s with g_ARAM_Info := v }
  | .AR_MODE => { s with g_AR_MODE := v }
  | .AR_REFRESH => { s with g_AR_REFRESH := v }
  | .AR_DMA_MMADDR_H => { s with g_arDMA := { s.g_arDMA with MMAddr := setHighPart s.g_arDMA.MMAddr v } }
  | .AR_DMA_MMADDR_L => { s with g_arDMA := { s.g_arDMA with MMAddr := setLowPart s.g_arDMA.MMAddr v } }
  | .AR_DMA_ARADDR_H => { s with g_arDMA := { s.g_arDMA with ARAddr := setHighPart s.g_arDMA.ARAddr v } }
  | .AR_DMA_ARADDR_L => { s with g_arDMA := { s.g_arDMA with ARAddr := setLowPart s.g_arDMA.ARAddr v } }
  | .AR_DMA_CNT_H =>
    { s with g_arDMA := { s.g_arDMA with Cnt := ⟨setHighPart s.g_arDMA.Cnt.Hex v⟩ } }
  | .AUDIO_DMA_START_HI =>
    { s with g_audioDMA :=
        { s.g_audioDMA with SourceAddress := setHighPart s.g_audioDMA.SourceAddress v } }
  | .AUDIO_DMA_START_LO =>
    { s with g_audioDMA :=
        { s.g_audioDMA with SourceAddress := setLowPart s.g_audioDMA.SourceAddress v } }

/-- The read handler of `DSP_CONTROL`. `dspRead` is what
`dsp_emulator->DSP_ReadControlRegister()` returns. The result is the value read
and the state after the read. -/
def DSP_CONTROL_read (dspRead : Nat) (s : DSPSystem) : Nat × DSPSystem :=
  ((s.g_dspState.Hex &&& DSP_CONTROL_MASK_compl) ||| ((dspRead % 2 ^ 16) &&& DSP_CONTROL_MASK),
   s.emit Event.DSP_ReadControlRegister)

/-- The write handler of `DSP_CONTROL`. `dspWrite` is what
`dsp_emulator->DSP_WriteControlRegister(val)` returns. -/
def DSP_CONTROL_write (dspWrite : Nat) (val : Nat) (s : DSPSystem) : DSPSystem :=
  let val := val % 2 ^ 16
  let s0 := s.emit (Event.DSP_WriteControlRegister val)
  let tmpControl := UDSPControl.ofHex
    ((val &&& DSP_CONTROL_MASK_compl) ||| ((dspWrite % 2 ^ 16) &&& DSP_CONTROL_MASK))
  -- if (val & 1 /*DSPReset*/) g_audioDMA.AudioDMAControl.Hex = 0;
  let s1 : DSPSystem :=
    if val &&& 1 ≠ 0 then
      { s0 with g_audioDMA := { s0.g_audioDMA with AudioDMAControl := ⟨0⟩ } }
    else
      s0
  let c := s1.g_dspState
  -- Update DSP related flags, interrupt masks
  let c : UDSPControl :=
    { c with
      DSPReset := tmpControl.DSPReset
      DSPAssertInt := tmpControl.DSPAssertInt
      DSPHalt := tmpControl.DSPHalt
      DSPInit := tmpControl.DSPInit
      AID_mask := tmpControl.AID_mask
      ARAM_mask := tmpControl.ARAM_mask
      DSP_mask := tmpControl.DSP_mask }
  -- Interrupt
  let c : UDSPControl := if tmpControl.AID then { c with AID := false } else c
  let c : UDSPControl := if tmpControl.ARAM then { c with ARAM := false } else c
  let c : UDSPControl := if tmpControl.DSP then { c with DSP := false } else c
  -- unknown
  let c : UDSPControl := { c with unk3 := tmpControl.unk3, pad := tmpControl.pad }
  let s2 : DSPSystem := { s1 with g_dspState := c }
  let s3 := if c.pad ≠ 0 then s2.emit (Event.PanicAlert val) else s2
  UpdateInterrupts s3

/-- The write handler of `AUDIO_DMA_CONTROL_LEN`. -/
def AUDIO_DMA_CONTROL_LEN_write (val : Nat) (s : DSPSystem) : DSPSystem :=
  let ctl : UAudioDMAControl := ⟨val % 2 ^ 16⟩
  { s with g_audioDMA :=
      { s.g_audioDMA with
        AudioDMAControl := ctl
        ReadAddress := s.g_audioDMA.SourceAddress
        BlocksLeft := (ctl.NumBlocks : Int) } }

/-- The read handler of `AUDIO_DMA_BLOCKS_LEFT`, registered as a `u16` read: the
`int` the lambda computes is converted to `u16`. The result is the value read and
the state after the read. -/
def AUDIO_DMA_BLOCKS_LEFT_read (s : DSPSystem) : Nat × DSPSystem :=
  (((if s.g_audioDMA.BlocksLeft > 0 then s.g_audioDMA.BlocksLeft - 1 else 0) % 2 ^ 16).toNat, s)

/-! ## Audio DMA -/

/-- `void UpdateAudioDMA()`. `GetAIDSampleRate` is what
`AudioInterface::GetAIDSampleRate()` returns. `GenerateDSPInterrupt(DSP::INT_AID)`
takes the default `_bSet = true` of its declaration. `ReadAddress` is a `u32`. -/
def UpdateAudioDMA (GetAIDSampleRate : Nat) (s : DSPSystem) : DSPSystem :=
  if s.g_audioDMA.AudioDMAControl.Enable ≠ 0 ∧ s.g_audioDMA.BlocksLeft ≠ 0 then
    let s1 : DSPSystem :=
      { s with g_audioDMA :=
          { s.g_audioDMA with
            BlocksLeft := s.g_audioDMA.BlocksLeft - 1
            ReadAddress := (s.g_audioDMA.ReadAddress + 32) % 2 ^ 32 } }
    if s1.g_audioDMA.BlocksLeft = 0 then
      let s2 := s1.emit (Event.DSP_SendAIBuffer s1.g_audioDMA.SourceAddress
        (8 * s1.g_audioDMA.AudioDMAControl.NumBlocks))
      let s3 := GenerateDSPInterrupt INT_AID true s2
      { s3 with g_audioDMA :=
          { s3.g_audioDMA with
            BlocksLeft := (s3.g_audioDMA.AudioDMAControl.NumBlocks : Int)
            ReadAddress := s3.g_audioDMA.SourceAddress } }
    else
      s1
  else
    s.emit (Event.DSP_SendAIBuffer 0 GetAIDSampleRate)

/-! ## ARAM DMA -/

/-- The read `*(u64*)&g_ARAM.ptr[off]` on the little-endian host: the eight bytes
from `off`, the first the least significant. -/
def ARAMInfo.load_u64 (a : ARAMInfo) (off : Nat) : Nat :=
  a.ptr off % 256 + a.ptr (off + 1) % 256 * 256 + a.ptr (off + 2) % 256 * 256 ^ 2 +
  a.ptr (off + 3) % 256 * 256 ^ 3 + a.ptr (off + 4) % 256 * 256 ^ 4 +
  a.ptr (off + 5) % 256 * 256 ^ 5 + a.ptr (off + 6) % 256 * 256 ^ 6 +
  a.ptr (off + 7) % 256 * 256 ^ 7

/-- The store `*(u64*)&g_ARAM.ptr[off] = v` on the little-endian host. -/
def ARAMInfo.store_u64 (a : ARAMInfo) (off v : Nat) : ARAMInfo :=
  { a with ptr := fun j => if off ≤ j ∧ j < off + 8 then Common.byteAt v (j - off) else a.ptr j }

/-- The call `Memory::Write_U64_Swap(var, addr)`: recorded, and applied to the
guest's main memory. -/
def call_Write_U64_Swap (var addr : Nat) (s : DSPSystem) : DSPSystem :=
  { s with ram := Memory.Write_U64_Swap var addr s.ram }.emit (Event.Write_U64_Swap var addr)

/-- The call `Memory::Write_U64(var, addr)`: recorded, and applied to the guest's
main memory. -/
def call_Write_U64 (var addr : Nat) (s : DSPSystem) : DSPSystem :=
  { s with ram := Memory.Write_U64 var addr s.ram }.emit (Event.Write_U64 var addr)

/-- The three statements that end every transfer loop body:
`g_arDMA.MMAddr += 8; g_arDMA.ARAddr += 8; g_arDMA.Cnt.count -= 8;`
(`u32` additions, and a subtraction truncated to the 31 bits of `count`). -/
def advance8 (s : DSPSystem) : DSPSystem :=
  { s with g_arDMA :=
      { MMAddr := (s.g_arDMA.MMAddr + 8) % 2 ^ 32
        ARAddr := (s.g_arDMA.ARAddr + 8) % 2 ^ 32
        Cnt := s.g_arDMA.Cnt.setCount (s.g_arDMA.Cnt.count + 2 ^ 31 - 8) } }

/-- Body of the loop "ARAM -> MRAM", ARAM address in bounds. The three branches on
`g_ARAM_Info.Hex & 0xf` hold the same statement. -/
def ARAM_to_MRAM_body (s : DSPSystem) : DSPSystem :=
  let var := s.g_ARAM.load_u64 (s.g_arDMA.ARAddr &&& s.g_ARAM.mask)
  let s1 :=
    if s.g_ARAM_Info &&& 0xf = 3 then
      call_Write_U64_Swap var s.g_arDMA.MMAddr s
    else if s.g_ARAM_Info &&& 0xf = 4 then
      call_Write_U64_Swap var s.g_arDMA.MMAddr s
    else
      call_Write_U64_Swap var s.g_arDMA.MMAddr s
  advance8 s1

/-- Body of the loop "ARAM -> MRAM", ARAM address out of bounds: zeroes. -/
def ARAM_to_MRAM_zero_body (s : DSPSystem) : DSPSystem :=
  advance8 (call_Write_U64 0 s.g_arDMA.MMAddr s)

/-- Body of the loop "MRAM -> ARAM", ARAM address in bounds. -/
def MRAM_to_ARAM_body (s : DSPSystem) : DSPSystem :=
  let var := Common.swap64 (Memory.Read_U64 s.ram s.g_arDMA.MMAddr)
  let s1 : DSPSystem :=
    if s.g_ARAM_Info &&& 0xf = 3 then
      { s with g_ARAM := s.g_ARAM.store_u64 (s.g_arDMA.ARAddr &&& s.g_ARAM.mask) var }
    else if s.g_ARAM_Info &&& 0xf = 4 then
      let s0 : DSPSystem :=
        if s.g_arDMA.ARAddr < 0x400000 then
          { s with g_ARAM :=
              s.g_ARAM.store_u64 (((s.g_arDMA.ARAddr + 0x400000) % 2 ^ 32) &&& s.g_ARAM.mask) var }
        else
          s
      { s0 with g_ARAM := s0.g_ARAM.store_u64 (s0.g_arDMA.ARAddr &&& s0.g_ARAM.mask) var }
    else
      { s with g_ARAM := s.g_ARAM.store_u64 (s.g_arDMA.ARAddr &&& s.g_ARAM.mask) var }
  advance8 s1

/-- The loop `while (g_arDMA.Cnt.count) { body }`, run for at most `fuel` rounds of
the body; `none` when the count is still nonzero after `fuel` rounds. -/
def whileCount (body : DSPSystem → DSPSystem) : Nat → DSPSystem → Option DSPSystem
  | 0, s => if s.g_arDMA.Cnt.count = 0 then some s else none
  | fuel + 1, s =>
    if s.g_arDMA.Cnt.count = 0 then some s else whileCount body fuel (body s)

/-- The two statements `g_arDMA.ARAddr &= 0x3ffffff; g_arDMA.MMAddr &= 0x3ffffff;`. -/
def maskAddresses (s : DSPSystem) : DSPSystem :=
  { s with g_arDMA :=
      { s.g_arDMA with
        ARAddr := s.g_arDMA.ARAddr &&& 0x3ffffff
        MMAddr := s.g_arDMA.MMAddr &&& 0x3ffffff } }

/-- First statement of `Do_ARAM_DMA`: the interrupt policy, decided on the count
at trigger time. `GenerateDSPInterrupt(INT_ARAM)` takes the default
`_bSet = true` of its declaration. -/
def Do_ARAM_DMA_interrupt (s : DSPSystem) : DSPSystem :=
  if s.g_arDMA.Cnt.count = 32 then
    (GenerateDSPInterrupt INT_ARAM true s).emit (Event.ForceExceptionCheck 100)
  else
    let s0 : DSPSystem :=
      ({ s with g_dspState := { s.g_dspState with DMAState := true } }).emit
        (Event.ScheduleEvent_Threadsafe 0 (INT_ARAM ||| (1 <<< 16)))
    if s0.g_arDMA.Cnt.count > 2048 ∧ s0.g_arDMA.Cnt.count ≤ 6144 then
      s0.emit (Event.ForceExceptionCheck 100)
    else
      s0

/-- Second statement of `Do_ARAM_DMA`: the transfer, `if (g_arDMA.Cnt.dir) ... else ...`,
its loops run for at most `fuel` rounds. -/
def Do_ARAM_DMA_transfer (fuel : Nat) (s1 : DSPSystem) : Option DSPSystem :=
  if s1.g_arDMA.Cnt.dir ≠ 0 then
    -- ARAM -> MRAM
    let s2 := maskAddresses s1
    if s2.g_arDMA.ARAddr < s2.g_ARAM.size then
      whileCount ARAM_to_MRAM_body fuel s2
    else
      whileCount ARAM_to_MRAM_zero_body fuel s2
  else
    -- MRAM -> ARAM
    let s2 := maskAddresses s1
    if s2.g_arDMA.ARAddr < s2.g_ARAM.size then
      whileCount MRAM_to_ARAM_body fuel s2
    else
      some { s2 with g_arDMA :=
        { MMAddr := (s2.g_arDMA.MMAddr + s2.g_arDMA.Cnt.count) % 2 ^ 32
          ARAddr := (s2.g_arDMA.ARAddr + s2.g_arDMA.Cnt.count) % 2 ^ 32
          Cnt := s2.g_arDMA.Cnt.setCount 0 } }

/-- `void Do_ARAM_DMA()`, its loops run for at most `fuel` rounds; `none` when a
loop has not finished by then. -/
def Do_ARAM_DMA (fuel : Nat) (s : DSPSystem) : Option DSPSystem :=
  Do_ARAM_DMA_transfer fuel (Do_ARAM_DMA_interrupt s)

/-- The write handler of `AR_DMA_CNT_L`; the loops of the transfer run for at most
`fuel` rounds. `val & ~31` on the 16-bit `val` is `val & 0xFFE0`. -/
def AR_DMA_CNT_L_write (fuel : Nat) (val : Nat) (s : DSPSystem) : Option DSPSystem :=
  Do_ARAM_DMA fuel
    { s with g_arDMA :=
        { s.g_arDMA with
          Cnt := ⟨(s.g_arDMA.Cnt.Hex &&& 0xFFFF0000) ||| ((val % 2 ^ 16) &&& 0xFFE0)⟩ } }

/-! ## Operations of the interface -/

/-- The operations on the DSP interface that change its state: register writes,
the Audio-DMA tick, interrupt requests, and the ARAM DMA trigger. -/
inductive Op where
  /-- A write to one of the `directly_mapped_vars` registers. -/
  | directWrite (r : DirectReg) (val : Nat)
  /-- A write to `DSP_CONTROL`; `dspWrite` is the DSP emulator's answer. -/
  | controlWrite (dspWrite val : Nat)
  /-- A write to `AR_DMA_CNT_L`, which runs `Do_ARAM_DMA`. -/
  | aramCountLowWrite (val : Nat)
  /-- A write to `AUDIO_DMA_CONTROL_LEN`. -/
  | audioControlLenWrite (val : Nat)
  /-- A call of `UpdateAudioDMA`; `rate` is `AudioInterface::GetAIDSampleRate()`. -/
  | updateAudioDMA (rate : Nat)
  /-- A call of `GenerateDSPInterrupt(type, set)`. -/
  | generateDSPInterrupt (type : Nat) (set : Bool)
  /-- Delivery of a scheduled event to `GenerateDSPInterrupt_Wrapper`. -/
  | generateDSPInterruptWrapper (userdata : Nat)
  /-- A call of `GenerateDSPInterruptFromDSPEmu(type, set)`. -/
  | generateDSPInterruptFromDSPEmu (type : Nat) (set : Bool)

/-- One operation; `none` when a transfer loop has not finished within `fuel`
rounds. -/
def step (fuel : Nat) (s : DSPSystem) : Op → Option DSPSystem
  | .directWrite r val => some (DirectWrite r val s)
  | .controlWrite dspWrite val => some (DSP_CONTROL_write dspWrite val s)
  | .aramCountLowWrite val => AR_DMA_CNT_L_write fuel val s
  | .audioControlLenWrite val => some (AUDIO_DMA_CONTROL_LEN_write val s)
  | .updateAudioDMA rate => some (UpdateAudioDMA rate s)
  | .generateDSPInterrupt type set => some (GenerateDSPInterrupt type set s)
  | .generateDSPInterruptWrapper userdata => some (GenerateDSPInterrupt_Wrapper userdata s)
  | .generateDSPInterruptFromDSPEmu type set => some (GenerateDSPInterruptFromDSPEmu type set s)

/-! ## The ARAM offsets a transfer touches -/

/-- The offsets `o` of the accesses `*(u64*)&g_ARAM.ptr[o]` made by one round of
the loop "ARAM -> MRAM" with the ARAM address in bounds: the read at
`ARAddr & mask`, in each of the three branches. -/
def ARAM_to_MRAM_body_offsets (s : DSPSystem) : List Nat :=
  if s.g_ARAM_Info &&& 0xf = 3 then
    [s.g_arDMA.ARAddr &&& s.g_ARAM.mask]
  else if s.g_ARAM_Info &&& 0xf = 4 then
    [s.g_arDMA.ARAddr &&& s.g_ARAM.mask]
  else
    [s.g_arDMA.ARAddr &&& s.g_ARAM.mask]

/-- The offsets `o` of the accesses `*(u64*)&g_ARAM.ptr[o]` made by one round of
the loop "MRAM -> ARAM" with the ARAM address in bounds, in the order the round
makes them: the store at `ARAddr & mask`, preceded in mode 4 and for
`ARAddr < 0x400000` by the store at `(ARAddr + 0x400000) & mask`. -/
def MRAM_to_ARAM_body_offsets (s : DSPSystem) : List Nat :=
  if s.g_ARAM_Info &&& 0xf = 3 then
    [s.g_arDMA.ARAddr &&& s.g_ARAM.mask]
  else if s.g_ARAM_Info &&& 0xf = 4 then
    (if s.g_arDMA.ARAddr < 0x400000 then
      [((s.g_arDMA.ARAddr + 0x400000) % 2 ^ 32) &&& s.g_ARAM.mask]
    else
      []) ++ [s.g_arDMA.ARAddr &&& s.g_ARAM.mask]
  else
    [s.g_arDMA.ARAddr &&& s.g_ARAM.mask]

/-- The ARAM offsets touched by the loop `while (g_arDMA.Cnt.count) { body }`, run
for at most `fuel` rounds, round after round; `offsets` gives those of one round.
`none` when the count is still nonzero after `fuel` rounds. -/
def whileCount_offsets (offsets : DSPSystem → List Nat) (body : DSPSystem → DSPSystem) :
    Nat → DSPSystem → Option (List Nat)
  | 0, s => if s.g_arDMA.Cnt.count = 0 then some [] else none
  | fuel + 1, s =>
    if s.g_arDMA.Cnt.count = 0 then some []
    else (whileCount_offsets offsets body fuel (body s)).map (fun l => offsets s ++ l)

/-- The ARAM offsets touched by the transfer of `Do_ARAM_DMA`, path by path as in
`Do_ARAM_DMA_transfer`: the two out-of-bounds paths touch none. -/
def Do_ARAM_DMA_transfer_offsets (fuel : Nat) (s1 : DSPSystem) : Option (List Nat) :=
  if s1.g_arDMA.Cnt.dir ≠ 0 then
    let s2 := maskAddresses s1
    if s2.g_arDMA.ARAddr < s2.g_ARAM.size then
      whileCount_offsets ARAM_to_MRAM_body_offsets ARAM_to_MRAM_body fuel s2
    else
      whileCount_offsets (fun _ => []) ARAM_to_MRAM_zero_body fuel s2
  else
    let s2 := maskAddresses s1
    if s2.g_arDMA.ARAddr < s2.g_ARAM.size then
      whileCount_offsets MRAM_to_ARAM_body_offsets MRAM_to_ARAM_body fuel s2
    else
      some []

/-- The ARAM offsets touched by `Do_ARAM_DMA()`. -/
def Do_ARAM_DMA_offsets (fuel : Nat) (s : DSPSystem) : Option (List Nat) :=
  Do_ARAM_DMA_transfer_offsets fuel (Do_ARAM_DMA_interrupt s)

/-! ## Snapshot -/

/-- Modelled from the spec: the two directions of the snapshot visitor
(`PointerWrap::Mode` of `ChunkFile.h`, which is not among the sources): restoring
(`MODE_READ`) and persisting (`MODE_WRITE`). -/
inductive Mode where
  | MODE_READ
  | MODE_WRITE
  deriving DecidableEq, Repr

/-- Modelled from the spec: the snapshot visitor `PointerWrap` of `ChunkFile.h`, a
visitor of a byte stream. When persisting, `stream` holds the bytes written so
far; when restoring, the bytes not read yet. -/
structure PointerWrap where
  mode : Mode
  stream : List Nat
  deriving DecidableEq, Repr

/-- Modelled from the spec: the visit of one object (`PointerWrap::DoVoid` behind
`Do`, `DoPOD` and `DoArray`). `bytes x` is the object as raw bytes and `ofBytes`
reads an object back from as many bytes. Persisting appends the bytes to the
stream and leaves the object alone; restoring takes the next bytes of the stream
as the object. Returns the object after the visit and the visitor. -/
def PointerWrap.DoVoid {α : Type} (bytes : α → List Nat) (ofBytes : List Nat → α)
    (p : PointerWrap) (x : α) : α × PointerWrap :=
  match p.mode with
  | Mode.MODE_WRITE => (x, { p with stream := p.stream ++ bytes x })
  | Mode.MODE_READ =>
    (ofBytes (p.stream.take (bytes x).length),
     { p with stream := p.stream.drop (bytes x).length })

/-- The `n` bytes of an unsigned value on the little-endian host, the least
significant first. -/
def toBytes : Nat → Nat → List Nat
  | 0, _ => []
  | n + 1, v => v % 256 :: toBytes n (v / 256)

/-- The unsigned value of little-endian bytes. -/
def ofBytes : List Nat → Nat
  | [] => 0
  | b :: bs => b % 256 + 256 * ofBytes bs

/-- The 4 bytes of an `int` (two's complement). -/
def int_toBytes (i : Int) : List Nat := toBytes 4 (i % 2 ^ 32).toNat

/-- The `int` of 4 bytes (two's complement). -/
def int_ofBytes (bs : List Nat) : Int :=
  if ofBytes bs < 2 ^ 31 then (ofBytes bs : Int) else (ofBytes bs : Int) - 2 ^ 32

/-- The bytes of a `DSPState` (`sizeof` 2): its `DSPControl.Hex`. -/
def UDSPControl.toBytes (c : UDSPControl) : List Nat := DSP.toBytes 2 c.Hex

/-- A `DSPState` read from 2 bytes. -/
def UDSPControl.ofBytes (bs : List Nat) : UDSPControl := UDSPControl.ofHex (DSP.ofBytes bs)

/-- The bytes of an `AudioDMA` (`sizeof` 16): the two `u32`, the `u16` control
word, two bytes of padding (written as 0 here, not read back), the `int`. -/
def AudioDMA.toBytes (a : AudioDMA) : List Nat :=
  DSP.toBytes 4 a.SourceAddress ++ (DSP.toBytes 4 a.ReadAddress ++
    (DSP.toBytes 2 a.AudioDMAControl.Hex ++ ([0, 0] ++ int_toBytes a.BlocksLeft)))

/-- An `AudioDMA` read from 16 bytes. -/
def AudioDMA.ofBytes (bs : List Nat) : AudioDMA where
  SourceAddress := DSP.ofBytes (bs.take 4)
  ReadAddress := DSP.ofBytes ((bs.drop 4).take 4)
  AudioDMAControl := ⟨DSP.ofBytes ((bs.drop 8).take 2)⟩
  BlocksLeft := int_ofBytes ((bs.drop 12).take 4)

/-- The bytes of an `ARAM_DMA` (`sizeof` 12): three `u32`. -/
def ARAM_DMA.toBytes (d : ARAM_DMA) : List Nat :=
  DSP.toBytes 4 d.MMAddr ++ (DSP.toBytes 4 d.ARAddr ++ DSP.toBytes 4 d.Cnt.Hex)

/-- An `ARAM_DMA` read from 12 bytes. -/
def ARAM_DMA.ofBytes (bs : List Nat) : ARAM_DMA where
  MMAddr := DSP.ofBytes (bs.take 4)
  ARAddr := DSP.ofBytes ((bs.drop 4).take 4)
  Cnt := ⟨DSP.ofBytes ((bs.drop 8).take 4)⟩

/-- The `size` bytes of the buffer `g_ARAM.ptr` designates. -/
def ARAM_toBytes (size : Nat) (ptr : Nat → Nat) : List Nat :=
  (List.range size).map (fun i => ptr i % 256)

/-- The buffer after its first `size` bytes have been read from `bs`; the bytes
beyond are those of `ptr`. -/
def ARAM_ofBytes (size : Nat) (ptr : Nat → Nat) (bs : List Nat) : Nat → Nat :=
  fun i => if i < size then bs.getD i 0 else ptr i

/-- `void DoState(PointerWrap &p)`, statement by statement. `emu` stands for the
state the external DSP emulator visits in `dsp_emulator->DoState(p)`, an opaque
block of bytes; what the emulator restores is not part of this state. -/
def DoState (emu : List Nat) (p : PointerWrap) (s : DSPSystem) : PointerWrap × DSPSystem :=
  -- if (!g_ARAM.wii_mode) p.DoArray(g_ARAM.ptr, g_ARAM.size);
  let r0 :=
    if ¬ s.g_ARAM.wii_mode then
      p.DoVoid (ARAM_toBytes s.g_ARAM.size) (ARAM_ofBytes s.g_ARAM.size s.g_ARAM.ptr)
        s.g_ARAM.ptr
    else
      (s.g_ARAM.ptr, p)
  -- p.DoPOD(g_dspState);
  let r1 := r0.2.DoVoid UDSPControl.toBytes UDSPControl.ofBytes s.g_dspState
  -- p.DoPOD(g_audioDMA);
  let r2 := r1.2.DoVoid AudioDMA.toBytes AudioDMA.ofBytes s.g_audioDMA
  -- p.DoPOD(g_arDMA);
  let r3 := r2.2.DoVoid ARAM_DMA.toBytes ARAM_DMA.ofBytes s.g_arDMA
  -- p.Do(g_ARAM_Info);
  let r4 := r3.2.DoVoid (toBytes 2) ofBytes s.g_ARAM_Info
  -- p.Do(g_AR_MODE);
  let r5 := r4.2.DoVoid (toBytes 2) ofBytes s.g_AR_MODE
  -- p.Do(g_AR_REFRESH);
  let r6 := r5.2.DoVoid (toBytes 2) ofBytes s.g_AR_REFRESH
  -- p.Do(dsp_slice);
  let r7 := r6.2.DoVoid int_toBytes int_ofBytes s.dsp_slice
  -- dsp_emulator->DoState(p);
  let r8 := r7.2.DoVoid (fun e : List Nat => e) (fun e => e) emu
  (r8.2,
   { s with
     g_ARAM := { s.g_ARAM with ptr := r0.1 }
     g_dspState := r1.1
     g_audioDMA := r2.1
     g_arDMA := r3.1
     g_ARAM_Info := r4.1
     g_AR_MODE := r5.1
     g_AR_REFRESH := r6.1
     dsp_slice := r7.1 })

/-- The values of the saved globals lie in their C types: the padding of the
control register in 4 bits, `u32` and `u16` fields in 32 and 16 bits, the `int`
fields in 32 bits, the bytes of the ARAM buffer in 8 bits. -/
def DSPSystem.WellTyped (s : DSPSystem) : Prop :=
  s.g_dspState.pad < 16 ∧
  s.g_audioDMA.SourceAddress < 2 ^ 32 ∧ s.g_audioDMA.ReadAddress < 2 ^ 32 ∧
  s.g_audioDMA.AudioDMAControl.Hex < 2 ^ 16 ∧
  -2 ^ 31 ≤ s.g_audioDMA.BlocksLeft ∧ s.g_audioDMA.BlocksLeft < 2 ^ 31 ∧
  s.g_arDMA.MMAddr < 2 ^ 32 ∧ s.g_arDMA.ARAddr < 2 ^ 32 ∧ s.g_arDMA.Cnt.Hex < 2 ^ 32 ∧
  s.g_ARAM_Info < 2 ^ 16 ∧ s.g_AR_MODE < 2 ^ 16 ∧ s.g_AR_REFRESH < 2 ^ 16 ∧
  -2 ^ 31 ≤ s.dsp_slice ∧ s.dsp_slice < 2 ^ 31 ∧
  ∀ i, i < s.g_ARAM.size → s.g_ARAM.ptr i < 256

instance (s : DSPSystem) : Decidable s.WellTyped := by
  unfold DSPSystem.WellTyped
  exact inferInstance

end DSP

/-! # Theorems: address translation -/

namespace Memory

/-! ## Shifts and masks as division and remainder -/

theorem shiftRight_28 (a : Nat) : a >>> 28 = a / 0x10000000 := by
  rw [Nat.shiftRight_eq_div_pow]

theorem shiftRight_24 (a : Nat) : a >>> 24 = a / 0x1000000 := by
  rw [Nat.shiftRight_eq_div_pow]

theorem and_0xfffffff (a : Nat) : a &&& 0xfffffff = a % 0x10000000 :=
  Nat.and_pow_two_sub_one_eq_mod a 28

theorem and_0x1FFFFFFF (a : Nat) : a &&& 0x1FFFFFFF = a % 0x20000000 :=
  Nat.and_pow_two_sub_one_eq_mod a 29

theorem and_RAM_MASK (a : Nat) : a &&& RAM_MASK = a % 0x2000000 :=
  Nat.and_pow_two_sub_one_eq_mod a 25

theorem and_EXRAM_MASK (a : Nat) : a &&& EXRAM_MASK = a % 0x4000000 :=
  Nat.and_pow_two_sub_one_eq_mod a 26

theorem and_L1_CACHE_MASK (a : Nat) : a &&& L1_CACHE_MASK = a % 0x40000 :=
  Nat.and_pow_two_sub_one_eq_mod a 18

theorem and_FAKEVMEM_MASK (a : Nat) : a &&& FAKEVMEM_MASK = a % 0x2000000 :=
  Nat.and_pow_two_sub_one_eq_mod a 25

set_option maxRecDepth 100000 in
theorem and_0xFC_of_lt : ∀ x, x < 256 → x &&& 0xFC = x / 4 * 4 := by
  decide

/-- The selector of `IsRAMAddress` for a 32-bit address. -/
theorem selector_eq (a : Nat) (ha : a < 2 ^ 32) :
    (a >>> 24) &&& 0xFC = a / 0x1000000 / 4 * 4 := by
  rw [shiftRight_24]
  exact and_0xFC_of_lt _ (by omega)

/-! ## C1: the three main-RAM mirrors -/

/-- C1. For every offset `o < REALRAM_SIZE` and every platform mode (Wii flag and
fake-VMEM flag arbitrary), `GetPointer(o)`, `GetPointer(0x80000000 + o)` and
`GetPointer(0xC0000000 + o)` all return the non-null pointer `m_pPhysicalRAM + o`. -/
theorem GetPointer_main_ram_mirrors (p : Platform) (o : Nat) (h : o < REALRAM_SIZE) :
    GetPointer p o = some ⟨HostBuffer.m_pPhysicalRAM, o⟩ ∧
    GetPointer p (0x80000000 + o) = some ⟨HostBuffer.m_pPhysicalRAM, o⟩ ∧
    GetPointer p (0xC0000000 + o) = some ⟨HostBuffer.m_pPhysicalRAM, o⟩ := by
  simp only [GetPointer, GetPointer_case_0_8, GetPointer_case_c, shiftRight_28, shiftRight_24,
    and_0xfffffff, and_RAM_MASK, REALRAM_SIZE] at *
  refine ⟨?_, ?_, ?_⟩ <;> split_ifs <;>
    first
      | omega
      | (simp only [Option.some.injEq, HostPtr.mk.injEq, true_and]; omega)

/-- Witness for C1: the last byte of real RAM, in Wii mode with fake-VMEM on. -/
theorem GetPointer_main_ram_mirrors_witness :
    GetPointer ⟨true, true⟩ 0x17FFFFF = some ⟨HostBuffer.m_pPhysicalRAM, 0x17FFFFF⟩ ∧
    GetPointer ⟨true, true⟩ (0x80000000 + 0x17FFFFF) =
      some ⟨HostBuffer.m_pPhysicalRAM, 0x17FFFFF⟩ ∧
    GetPointer ⟨true, true⟩ (0xC0000000 + 0x17FFFFF) =
      some ⟨HostBuffer.m_pPhysicalRAM, 0x17FFFFF⟩ :=
  GetPointer_main_ram_mirrors ⟨true, true⟩ 0x17FFFFF (by decide)

/-! ## What `GetPointer` returns outside the in-range windows -/

/-- In GameCube mode an address in a main-RAM alias range whose offset is beyond
`REALRAM_SIZE` translates to `NULL` (the `else break;` of `case 0x1:`). -/
theorem GetPointer_gamecube_beyond_ram (fake : Bool) (a : Nat)
    (hn : a >>> 28 = 0x0 ∨ a >>> 28 = 0x8 ∨ a >>> 28 = 0xc)
    (ho : REALRAM_SIZE ≤ a &&& 0xfffffff) :
    GetPointer ⟨false, fake⟩ a = none := by
  simp only [GetPointer, GetPointer_case_0_8, GetPointer_case_c, GetPointer_case_1_9_d,
    shiftRight_28, shiftRight_24, and_0xfffffff, REALRAM_SIZE] at *
  split_ifs <;> first | rfl | omega | simp_all

/-- In Wii mode every address with top nibble `0x0`, `0x1`, `0x8`, `0x9`, `0xC` or
`0xD` translates to a non-null pointer: whatever does not return earlier falls
through to `case 0xe:`, whose bound `0xE0000000 + L1_CACHE_SIZE` it satisfies. -/
theorem GetPointer_wii_low_nibbles_ne_none (fake : Bool) (a : Nat)
    (hn : a >>> 28 = 0x0 ∨ a >>> 28 = 0x8 ∨ a >>> 28 = 0xc ∨
      a >>> 28 = 0x1 ∨ a >>> 28 = 0x9 ∨ a >>> 28 = 0xd) :
    GetPointer ⟨true, fake⟩ a ≠ none := by
  simp only [GetPointer, GetPointer_case_0_8, GetPointer_case_c, GetPointer_case_1_9_d,
    GetPointer_case_e, shiftRight_28, shiftRight_24, and_0xfffffff, L1_CACHE_SIZE] at *
  split_ifs <;> first | omega | simp

/-- In Wii mode an extended-RAM alias with an in-range offset translates into the
EXRAM buffer at `a & EXRAM_MASK`; in GameCube mode every extended-RAM alias
translates to `NULL`, with or without fake-VMEM. -/
theorem GetPointer_exram_alias (fake : Bool) (a : Nat)
    (hn : a >>> 28 = 0x1 ∨ a >>> 28 = 0x9 ∨ a >>> 28 = 0xd) :
    ((a &&& 0xfffffff) < EXRAM_SIZE →
      GetPointer ⟨true, fake⟩ a = some ⟨HostBuffer.m_pPhysicalEXRAM, a &&& EXRAM_MASK⟩) ∧
    GetPointer ⟨false, fake⟩ a = none := by
  simp only [GetPointer, GetPointer_case_1_9_d, shiftRight_28, and_0xfffffff,
    EXRAM_SIZE] at *
  refine ⟨fun h => ?_, ?_⟩ <;> split_ifs <;> first | rfl | omega | simp_all

/-! ## `IsRAMAddress` and `GetPointer`, range by range -/

/-- On a main-RAM alias `IsRAMAddress` tests the offset against `RAM_SIZE`. -/
theorem IsRAMAddress_alias_iff (p : Platform) (a : Nat) (lc fv : Bool)
    (ha : a < 2 ^ 32) (hn : a >>> 28 = 0x0 ∨ a >>> 28 = 0x8 ∨ a >>> 28 = 0xc) :
    IsRAMAddress p a lc fv = true ↔ (a &&& 0xfffffff) < RAM_SIZE := by
  simp only [IsRAMAddress, selector_eq a ha, shiftRight_28, and_0xfffffff, and_0x1FFFFFFF,
    RAM_SIZE] at *
  split_ifs <;> first | omega | (simp; omega)

/-- On a main-RAM alias with an offset below `REALRAM_SIZE`, `GetPointer` returns
the main-RAM pointer at `a & RAM_MASK`, in every platform mode. -/
theorem GetPointer_alias_in_range (p : Platform) (a : Nat)
    (hn : a >>> 28 = 0x0 ∨ a >>> 28 = 0x8 ∨ a >>> 28 = 0xc)
    (ho : (a &&& 0xfffffff) < REALRAM_SIZE) :
    GetPointer p a = some ⟨HostBuffer.m_pPhysicalRAM, a &&& RAM_MASK⟩ := by
  simp only [GetPointer, GetPointer_case_0_8, GetPointer_case_c, shiftRight_28, shiftRight_24,
    and_0xfffffff, REALRAM_SIZE] at *
  split_ifs <;> first | rfl | omega

/-- On the extended-RAM aliases, in GameCube mode or with an in-range offset,
both functions answer "Wii mode". -/
theorem IsRAMAddress_iff_GetPointer_exram (p : Platform) (a : Nat) (ha : a < 2 ^ 32)
    (hn : a >>> 28 = 0x1 ∨ a >>> 28 = 0x9 ∨ a >>> 28 = 0xd)
    (ho : p.bWii = false ∨ (a &&& 0xfffffff) < EXRAM_SIZE) :
    IsRAMAddress p a true true = true ↔ GetPointer p a ≠ none := by
  obtain ⟨wii, fake⟩ := p
  simp only [IsRAMAddress, selector_eq a ha, GetPointer, GetPointer_case_1_9_d,
    shiftRight_28, and_0xfffffff, EXRAM_SIZE] at *
  cases wii
  · simp only [Bool.false_eq_true, false_and, if_false]
    split_ifs <;> first | omega | simp
  · simp only [Bool.true_eq_false, false_or] at ho
    simp only [true_and, if_true, if_pos ho]
    split_ifs <;> first | omega | simp

/-- With top nibble `0xE` both functions test `a < 0xE0000000 + L1_CACHE_SIZE`. -/
theorem IsRAMAddress_iff_GetPointer_locked_cache (p : Platform) (a : Nat) (ha : a < 2 ^ 32)
    (hn : a >>> 28 = 0xe) :
    IsRAMAddress p a true true = true ↔ GetPointer p a ≠ none := by
  simp only [IsRAMAddress, selector_eq a ha, GetPointer, GetPointer_case_e,
    shiftRight_28, L1_CACHE_SIZE, true_and] at *
  split_ifs <;> first | omega | simp

/-- With any other top nibble, `GetPointer` answers "fake-VMEM enabled" and
`IsRAMAddress` answers "fake-VMEM enabled and `a` at or above `0x7E000000`". -/
theorem IsRAMAddress_iff_GetPointer_other (p : Platform) (a : Nat) (ha : a < 2 ^ 32)
    (hn : ¬ (a >>> 28 = 0x0 ∨ a >>> 28 = 0x8 ∨ a >>> 28 = 0xc ∨ a >>> 28 = 0x1 ∨
          a >>> 28 = 0x9 ∨ a >>> 28 = 0xd ∨ a >>> 28 = 0xe))
    (ho : p.bFakeVMEM = false ∨ (0x7E000000 ≤ a ∧ a < 0x80000000)) :
    IsRAMAddress p a true true = true ↔ GetPointer p a ≠ none := by
  obtain ⟨wii, fake⟩ := p
  simp only [IsRAMAddress, selector_eq a ha, GetPointer, GetPointer_default,
    shiftRight_28, true_and] at *
  cases fake
  · simp only [Bool.false_eq_true, false_and, if_false]
    split_ifs <;> first | omega | simp
  · simp only [Bool.true_eq_false, false_or] at ho
    simp only [true_and, if_true]
    split_ifs <;> first | omega | simp

/-! ## C2, C4, C6: the fall-through out of `case 0xc:` and `case 0x1:` in Wii mode -/

/-- C2, evaluated at the failing inputs. `0x01800000` and `0x04000000` have top
nibble `0x0` and an offset at or beyond `REALRAM_SIZE`. In Wii mode `GetPointer`
does not return `NULL` for them: control falls out of the inner switch of
`case 0xc:` into `case 0x1:`, which returns the EXRAM pointer at offset
`0x1800000` for the first, and for the second (offset not below `EXRAM_SIZE`)
falls on into `case 0xe:`, which returns the locked-cache pointer. In GameCube
mode both translate to `NULL`. -/
theorem GetPointer_beyond_ram_wii_eval :
    (0x01800000 >>> 28 = 0x0 ∧ REALRAM_SIZE ≤ 0x01800000 &&& 0xfffffff) ∧
    (0x04000000 >>> 28 = 0x0 ∧ REALRAM_SIZE ≤ 0x04000000 &&& 0xfffffff) ∧
    GetPointer ⟨true, false⟩ 0x01800000 = some ⟨HostBuffer.m_pPhysicalEXRAM, 0x1800000⟩ ∧
    GetPointer ⟨true, false⟩ 0x04000000 = some ⟨HostBuffer.GetCachePtr, 0⟩ ∧
    GetPointer ⟨false, false⟩ 0x01800000 = none ∧
    GetPointer ⟨false, false⟩ 0x04000000 = none := by
  decide

/-- C4, evaluated at the failing inputs. `0xCC000000` and `0xCD006C00` lie in the
I/O range (top byte `0xCC`, `0xCD`). In Wii mode `GetPointer` returns the
locked-cache pointer for them (offsets `0` and `0x6C00`): the `break` under
`case 0xc8:` leaves the inner switch only, control falls into `case 0x1:` and
from there into `case 0xe:`. In GameCube mode both translate to `NULL`. -/
theorem GetPointer_io_range_wii_eval :
    (0xCC000000 >>> 24 = 0xcc ∧ 0xCD006C00 >>> 24 = 0xcd) ∧
    GetPointer ⟨true, false⟩ 0xCC000000 = some ⟨HostBuffer.GetCachePtr, 0⟩ ∧
    GetPointer ⟨true, true⟩ 0xCD006C00 = some ⟨HostBuffer.GetCachePtr, 0x6C00⟩ ∧
    GetPointer ⟨false, false⟩ 0xCC000000 = none ∧
    GetPointer ⟨false, true⟩ 0xCD006C00 = none := by
  decide

/-- C6, evaluated at the failing input. `0x14000000` has top nibble `0x1` and
offset `0x4000000 = EXRAM_SIZE`, out of range. In Wii mode `GetPointer` returns
the locked-cache pointer `GetCachePtr() + 0` instead of `NULL`: the inner `if`
of `case 0x1:` has no `break` and control falls into `case 0xe:`. In GameCube
mode the address translates to `NULL`. -/
theorem GetPointer_exram_out_of_range_wii_eval :
    (0x14000000 >>> 28 = 0x1 ∧ ¬ (0x14000000 &&& 0x0fffffff) < EXRAM_SIZE) ∧
    GetPointer ⟨true, false⟩ 0x14000000 = some ⟨HostBuffer.GetCachePtr, 0⟩ ∧
    GetPointer ⟨true, true⟩ 0x14000000 = some ⟨HostBuffer.GetCachePtr, 0⟩ ∧
    GetPointer ⟨false, false⟩ 0x14000000 = none := by
  decide

/-! ## C3: `IsRAMAddress` beyond the real RAM size -/

/-- C3 as stated fails: `0x01800000` is in the direct main-RAM alias range with
offset `REALRAM_SIZE`, and `IsRAMAddress` returns true for it (the test is against
`RAM_SIZE`). -/
theorem IsRAMAddress_beyond_realram_counterexample :
    ¬ (∀ (p : Platform) (a : Nat) (lc fv : Bool), a < 2 ^ 32 →
        (a >>> 28 = 0x0 ∨ a >>> 28 = 0x8 ∨ a >>> 28 = 0xc) →
        REALRAM_SIZE ≤ a &&& 0xfffffff → IsRAMAddress p a lc fv = false) := by
  intro h
  have h1 := h ⟨false, false⟩ 0x01800000 false false (by decide) (by decide) (by decide)
  revert h1
  decide

/-- C3, amended. For every 32-bit address `a` in a main-RAM alias range (top
nibble `0x0`, `0x8` or `0xC`), every value of the two flags and every platform
mode, `IsRAMAddress` returns true exactly when the low 28 bits of `a` are below
`RAM_SIZE`, the mapped size: it returns false for every offset at or beyond
`RAM_SIZE` and true for the offsets from `REALRAM_SIZE` up to `RAM_SIZE`. -/
theorem IsRAMAddress_main_ram_alias (p : Platform) (a : Nat) (lc fv : Bool)
    (ha : a < 2 ^ 32) (hn : a >>> 28 = 0x0 ∨ a >>> 28 = 0x8 ∨ a >>> 28 = 0xc) :
    IsRAMAddress p a lc fv = true ↔ (a &&& 0xfffffff) < RAM_SIZE :=
  IsRAMAddress_alias_iff p a lc fv ha hn

/-- Witness for the amended C3: `0x81FFFFFF` (accepted) and `0xC2000000` (refused). -/
theorem IsRAMAddress_main_ram_alias_witness :
    (IsRAMAddress ⟨true, false⟩ 0x81FFFFFF false false = true ↔
      (0x81FFFFFF &&& 0xfffffff) < RAM_SIZE) ∧
    (IsRAMAddress ⟨false, true⟩ 0xC2000000 true true = true ↔
      (0xC2000000 &&& 0xfffffff) < RAM_SIZE) :=
  ⟨IsRAMAddress_main_ram_alias ⟨true, false⟩ 0x81FFFFFF false false (by decide) (by decide),
   IsRAMAddress_main_ram_alias ⟨false, true⟩ 0xC2000000 true true (by decide) (by decide)⟩

/-! ## C5: `IsRAMAddress` against `GetPointer` -/

/-- C5 as stated fails: in GameCube mode without fake-VMEM,
`IsRAMAddress(0x01800000, true, true)` is true while `GetPointer(0x01800000)` is
`NULL`; with fake-VMEM enabled, `GetPointer(0x20000000)` is non-null while
`IsRAMAddress(0x20000000, true, true)` is false. -/
theorem IsRAMAddress_iff_GetPointer_counterexample :
    ¬ (∀ (p : Platform) (a : Nat), a < 2 ^ 32 →
        (IsRAMAddress p a true true = true ↔ GetPointer p a ≠ none)) ∧
    (IsRAMAddress ⟨false, false⟩ 0x01800000 true true = true ∧
      GetPointer ⟨false, false⟩ 0x01800000 = none) ∧
    (IsRAMAddress ⟨false, true⟩ 0x20000000 true true = false ∧
      GetPointer ⟨false, true⟩ 0x20000000 = some ⟨HostBuffer.m_pVirtualFakeVMEM, 0⟩) := by
  refine ⟨fun h => ?_, by decide, by decide⟩
  have h1 := h ⟨false, false⟩ 0x01800000 (by decide)
  revert h1
  decide

/-- C5, amended. For every 32-bit address `a` and every platform mode,
`IsRAMAddress(a, true, true)` is true if and only if `GetPointer(a)` is non-null,
provided `a` is in one of these cases:
* a main-RAM alias (top nibble `0x0`, `0x8`, `0xC`) with offset below
  `REALRAM_SIZE`, or, in GameCube mode, with offset at or beyond `RAM_SIZE`;
* an extended-RAM alias (top nibble `0x1`, `0x9`, `0xD`) in GameCube mode, or
  with offset below `EXRAM_SIZE`;
* top nibble `0xE`;
* any other top nibble, with fake-VMEM disabled or `a` in the window
  `0x7E000000 .. 0x7FFFFFFF`. -/
theorem IsRAMAddress_iff_GetPointer_on_agreement (p : Platform) (a : Nat) (ha : a < 2 ^ 32)
    (hdom :
      ((a >>> 28 = 0x0 ∨ a >>> 28 = 0x8 ∨ a >>> 28 = 0xc) ∧
        ((a &&& 0xfffffff) < REALRAM_SIZE ∨
          (p.bWii = false ∧ RAM_SIZE ≤ a &&& 0xfffffff))) ∨
      ((a >>> 28 = 0x1 ∨ a >>> 28 = 0x9 ∨ a >>> 28 = 0xd) ∧
        (p.bWii = false ∨ (a &&& 0xfffffff) < EXRAM_SIZE)) ∨
      a >>> 28 = 0xe ∨
      (¬ (a >>> 28 = 0x0 ∨ a >>> 28 = 0x8 ∨ a >>> 28 = 0xc ∨ a >>> 28 = 0x1 ∨
          a >>> 28 = 0x9 ∨ a >>> 28 = 0xd ∨ a >>> 28 = 0xe) ∧
        (p.bFakeVMEM = false ∨ (0x7E000000 ≤ a ∧ a < 0x80000000)))) :
    IsRAMAddress p a true true = true ↔ GetPointer p a ≠ none := by
  rcases hdom with ⟨hn, ho⟩ | ⟨hn, ho⟩ | hn | ⟨hn, ho⟩
  · rw [IsRAMAddress_alias_iff p a true true ha hn]
    rcases ho with ho | ⟨hw, ho⟩
    · rw [GetPointer_alias_in_range p a hn ho]
      simp only [REALRAM_SIZE, RAM_SIZE] at *
      simp only [ne_eq, reduceCtorEq, not_false_eq_true, iff_true]
      omega
    · obtain ⟨wii, fake⟩ := p
      simp only at hw
      subst hw
      rw [GetPointer_gamecube_beyond_ram fake a hn
        (by simp only [REALRAM_SIZE, RAM_SIZE] at *; omega)]
      simp only [RAM_SIZE] at *
      simp only [ne_eq, not_true_eq_false, iff_false]
      omega
  · exact IsRAMAddress_iff_GetPointer_exram p a ha hn ho
  · exact IsRAMAddress_iff_GetPointer_locked_cache p a ha hn
  · exact IsRAMAddress_iff_GetPointer_other p a ha hn ho

/-- Witness for the amended C5: the cached extended-RAM alias `0x90001234` in Wii
mode with fake-VMEM enabled. -/
theorem IsRAMAddress_iff_GetPointer_on_agreement_witness :
    IsRAMAddress ⟨true, true⟩ 0x90001234 true true = true ↔
      GetPointer ⟨true, true⟩ 0x90001234 ≠ none :=
  IsRAMAddress_iff_GetPointer_on_agreement ⟨true, true⟩ 0x90001234 (by decide)
    (Or.inr (Or.inl ⟨by decide, Or.inr (by decide)⟩))

end Memory

/-! # Theorems: the DSP interface -/

namespace DSP

/-! ## Interrupt aggregation, in one expression -/

/-- The value `UpdateInterrupts` passes to `SetInterrupt`. -/
theorem UpdateInterrupts_eq (s : DSPSystem) :
    UpdateInterrupts s = s.emit (Event.SetInterrupt_INT_CAUSE_DSP
      ((s.g_dspState.AID && s.g_dspState.AID_mask) ||
       (s.g_dspState.ARAM && s.g_dspState.ARAM_mask) ||
       (s.g_dspState.DSP && s.g_dspState.DSP_mask))) := by
  unfold UpdateInterrupts
  split_ifs with h
  · rw [h]
  · rw [Bool.not_eq_true] at h
    rw [h]

/-! ## C8: the disarmed or exhausted tick -/

/-- C8. For every state with `Enable = 0` or `BlocksLeft = 0` and every sample
rate `AudioInterface::GetAIDSampleRate()` returns, `UpdateAudioDMA` is the state
with exactly one call appended to the trace, `DSP_SendAIBuffer(0, rate)`: no
drained-buffer call with the source address, no `SetInterrupt` call, and the
Audio-DMA state, the control register (AID latch included) and everything else
unchanged. -/
theorem UpdateAudioDMA_silence (rate : Nat) (s : DSPSystem)
    (h : s.g_audioDMA.AudioDMAControl.Enable = 0 ∨ s.g_audioDMA.BlocksLeft = 0) :
    UpdateAudioDMA rate s =
      { s with trace := s.trace ++ [Event.DSP_SendAIBuffer 0 rate] } := by
  unfold UpdateAudioDMA
  rw [if_neg (by rcases h with h | h <;> simp [h])]
  rfl

/-- Witness for C8: the initial state (GameCube), where Audio DMA is disarmed. -/
theorem UpdateAudioDMA_silence_witness :
    UpdateAudioDMA 32000 (Init false false (fun _ => 0) (fun _ => 0)) =
      { Init false false (fun _ => 0) (fun _ => 0) with
        trace := (Init false false (fun _ => 0) (fun _ => 0)).trace ++
          [Event.DSP_SendAIBuffer 0 32000] } :=
  UpdateAudioDMA_silence 32000 (Init false false (fun _ => 0) (fun _ => 0)) (Or.inl (by decide))

/-! ## C10: the blocks-remaining register -/

/-- C10. For every state, the read handler of `AUDIO_DMA_BLOCKS_LEFT` changes no
state and returns `max(BlocksLeft - 1, 0)` as a 16-bit register value: the value
modulo `2 ^ 16`, which is `max(BlocksLeft - 1, 0)` itself whenever
`BlocksLeft ≤ 0x10000`. Right after a control-length write of a 16-bit value `v`
it returns `max((v & 0x7FFF) - 1, 0)`, with `Enable` = bit 15 of `v`,
`NumBlocks = v & 0x7FFF`, `ReadAddress = SourceAddress` and `SourceAddress`
unchanged. -/
theorem AUDIO_DMA_BLOCKS_LEFT_read_spec (s : DSPSystem) :
    (AUDIO_DMA_BLOCKS_LEFT_read s).2 = s ∧
    ((AUDIO_DMA_BLOCKS_LEFT_read s).1 : Int) = max (s.g_audioDMA.BlocksLeft - 1) 0 % 2 ^ 16 ∧
    (s.g_audioDMA.BlocksLeft ≤ 0x10000 →
      ((AUDIO_DMA_BLOCKS_LEFT_read s).1 : Int) = max (s.g_audioDMA.BlocksLeft - 1) 0) ∧
    ∀ v : Nat, v < 2 ^ 16 →
      (AUDIO_DMA_BLOCKS_LEFT_read (AUDIO_DMA_CONTROL_LEN_write v s)).1 = (v &&& 0x7FFF) - 1 ∧
      ((AUDIO_DMA_CONTROL_LEN_write v s).g_audioDMA.AudioDMAControl.Enable = 1 ↔
        v.testBit 15 = true) ∧
      ((AUDIO_DMA_CONTROL_LEN_write v s).g_audioDMA.AudioDMAControl.Enable = 0 ↔
        v.testBit 15 = false) ∧
      (AUDIO_DMA_CONTROL_LEN_write v s).g_audioDMA.AudioDMAControl.NumBlocks = v &&& 0x7FFF ∧
      (AUDIO_DMA_CONTROL_LEN_write v s).g_audioDMA.BlocksLeft = ((v &&& 0x7FFF : Nat) : Int) ∧
      (AUDIO_DMA_CONTROL_LEN_write v s).g_audioDMA.ReadAddress = s.g_audioDMA.SourceAddress ∧
      (AUDIO_DMA_CONTROL_LEN_write v s).g_audioDMA.SourceAddress = s.g_audioDMA.SourceAddress := by
  have hmask : ∀ v : Nat, v &&& 0x7FFF = v % 2 ^ 15 := fun v =>
    Nat.and_pow_two_sub_one_eq_mod v 15
  refine ⟨rfl, ?_, ?_, ?_⟩
  · simp only [AUDIO_DMA_BLOCKS_LEFT_read]
    split_ifs with h
    · rw [Int.toNat_of_nonneg (by omega), max_eq_left (by omega)]
    · rw [Int.toNat_of_nonneg (by omega), max_eq_right (by omega)]
  · intro hb
    simp only [AUDIO_DMA_BLOCKS_LEFT_read]
    split_ifs with h
    · rw [Int.toNat_of_nonneg (by omega), max_eq_left (by omega)]
      omega
    · rw [Int.toNat_of_nonneg (by omega), max_eq_right (by omega)]
      omega
  · intro v hv
    refine ⟨?_, ?_, ?_, ?_, ?_, rfl, rfl⟩ <;>
      simp only [AUDIO_DMA_BLOCKS_LEFT_read, AUDIO_DMA_CONTROL_LEN_write,
        UAudioDMAControl.NumBlocks, UAudioDMAControl.Enable, hmask, Nat.testBit_to_div_mod]
    · split_ifs with h <;> omega
    · simp only [decide_eq_true_eq]
      omega
    · simp only [decide_eq_false_iff_not]
      omega
    · omega
    · omega

/-- Witness for C10: a state with `BlocksLeft = 5`, and the written value `0x8005`. -/
theorem AUDIO_DMA_BLOCKS_LEFT_read_spec_witness :
    ((AUDIO_DMA_BLOCKS_LEFT_read
        (AUDIO_DMA_CONTROL_LEN_write 0x8005 (Init false false (fun _ => 0) (fun _ => 0)))).1 : Int)
      = max ((AUDIO_DMA_CONTROL_LEN_write 0x8005
          (Init false false (fun _ => 0) (fun _ => 0))).g_audioDMA.BlocksLeft - 1) 0 ∧
    (AUDIO_DMA_BLOCKS_LEFT_read
        (AUDIO_DMA_CONTROL_LEN_write 0x8005 (Init false false (fun _ => 0) (fun _ => 0)))).1
      = (0x8005 &&& 0x7FFF) - 1 :=
  ⟨(AUDIO_DMA_BLOCKS_LEFT_read_spec
      (AUDIO_DMA_CONTROL_LEN_write 0x8005 (Init false false (fun _ => 0) (fun _ => 0)))).2.2.1
      (by decide),
   ((AUDIO_DMA_BLOCKS_LEFT_read_spec (Init false false (fun _ => 0) (fun _ => 0))).2.2.2
      0x8005 (by decide)).1⟩

/-! ## C7: the streaming cycle -/

/-- An armed engine with more than `k` blocks left: `k` ticks make no call and
change only `BlocksLeft` and `ReadAddress`. -/
theorem UpdateAudioDMA_iterate_lt (rate : Nat) (t : DSPSystem)
    (hE : t.g_audioDMA.AudioDMAControl.Enable ≠ 0) (hR : t.g_audioDMA.ReadAddress < 2 ^ 32)
    (k : Nat) (hk : (k : Int) < t.g_audioDMA.BlocksLeft) :
    (UpdateAudioDMA rate)^[k] t =
      { t with g_audioDMA :=
          { t.g_audioDMA with
            BlocksLeft := t.g_audioDMA.BlocksLeft - k
            ReadAddress := (t.g_audioDMA.ReadAddress + 32 * k) % 2 ^ 32 } } := by
  induction k with
  | zero =>
    simp only [Function.iterate_zero, id_eq, Nat.cast_zero, sub_zero, Nat.mul_zero,
      Nat.add_zero, Nat.mod_eq_of_lt hR]
  | succ k ih =>
    rw [Function.iterate_succ_apply', ih (by omega)]
    unfold UpdateAudioDMA
    simp only []
    rw [if_pos ⟨hE, by omega⟩, if_neg (by omega)]
    have h1 : t.g_audioDMA.BlocksLeft - (k : Int) - 1 = t.g_audioDMA.BlocksLeft - ((k + 1 : Nat) : Int) := by
      omega
    have h2 : ((t.g_audioDMA.ReadAddress + 32 * k) % 2 ^ 32 + 32) % 2 ^ 32 =
        (t.g_audioDMA.ReadAddress + 32 * (k + 1)) % 2 ^ 32 := by
      omega
    rw [h1, h2]

/-- `GenerateDSPInterrupt(INT_AID, true)` sets the AID latch and recomputes the
interrupt line. -/
theorem GenerateDSPInterrupt_INT_AID_true (s : DSPSystem) :
    GenerateDSPInterrupt INT_AID true s =
      UpdateInterrupts { s with g_dspState := { s.g_dspState with AID := true } } :=
  rfl

/-- An armed engine at the start of a buffer of `N ≥ 1` blocks: `N` ticks make the
drained-buffer call and the interrupt call once, set the AID latch, and leave the
Audio-DMA state as it was. -/
theorem UpdateAudioDMA_iterate_cycle (rate : Nat) (t : DSPSystem) (N : Nat) (hN : 1 ≤ N)
    (hE : t.g_audioDMA.AudioDMAControl.Enable ≠ 0)
    (hNum : t.g_audioDMA.AudioDMAControl.NumBlocks = N)
    (hB : t.g_audioDMA.BlocksLeft = (N : Int))
    (hRS : t.g_audioDMA.ReadAddress = t.g_audioDMA.SourceAddress)
    (hR : t.g_audioDMA.SourceAddress < 2 ^ 32) :
    (UpdateAudioDMA rate)^[N] t =
      { t with
        g_dspState := { t.g_dspState with AID := true }
        trace := t.trace ++
          [Event.DSP_SendAIBuffer t.g_audioDMA.SourceAddress (8 * N),
           Event.SetInterrupt_INT_CAUSE_DSP
             (t.g_dspState.AID_mask || (t.g_dspState.ARAM && t.g_dspState.ARAM_mask) ||
               (t.g_dspState.DSP && t.g_dspState.DSP_mask))] } := by
  obtain ⟨n, rfl⟩ : ∃ n, N = n + 1 := ⟨N - 1, by omega⟩
  rw [Function.iterate_succ_apply',
    UpdateAudioDMA_iterate_lt rate t hE (by omega) n (by omega)]
  obtain ⟨g1, g2, ga, g4, g5, g6, g7, g8, g9, g10, g11⟩ := t
  obtain ⟨a1, a2, a3, a4⟩ := ga
  simp only at hB hRS hNum hE hR
  subst hB hRS
  unfold UpdateAudioDMA
  simp only []
  rw [if_pos ⟨hE, by omega⟩, if_pos (by omega)]
  simp only [GenerateDSPInterrupt_INT_AID_true, UpdateInterrupts_eq, DSPSystem.emit, hNum,
    Bool.true_and, List.append_assoc, List.singleton_append, List.cons_append, List.nil_append]

/-- The control-length write of `0x8000 + N` arms the engine with `NumBlocks = N`. -/
theorem AUDIO_DMA_CONTROL_LEN_write_armed (s : DSPSystem) (N : Nat) (hN2 : N ≤ 0x7FFF) :
    AUDIO_DMA_CONTROL_LEN_write (0x8000 + N) s =
      { s with g_audioDMA :=
          { SourceAddress := s.g_audioDMA.SourceAddress
            ReadAddress := s.g_audioDMA.SourceAddress
            AudioDMAControl := ⟨0x8000 + N⟩
            BlocksLeft := (N : Int) } } ∧
    (⟨0x8000 + N⟩ : UAudioDMAControl).Enable = 1 ∧
    (⟨0x8000 + N⟩ : UAudioDMAControl).NumBlocks = N := by
  have h1 : (0x8000 + N) % 2 ^ 16 = 0x8000 + N := by omega
  have h2 : (0x8000 + N) % 2 ^ 15 = N := by omega
  have h3 : (0x8000 + N) / 2 ^ 15 % 2 = 1 := by omega
  simp only [AUDIO_DMA_CONTROL_LEN_write, UAudioDMAControl.NumBlocks, UAudioDMAControl.Enable,
    h1, h2, h3, and_self]

/-- C7. For every source address `S` (the 32-bit `SourceAddress` of the state) and
every `N` with `1 ≤ N ≤ 0x7FFF`: writing `0x8000 + N` (`Enable` set,
`NumBlocks = N`) to the control-length register, then ticking `UpdateAudioDMA`
with no register write in between,
* after `k < N` ticks the state is the armed state with `BlocksLeft = N - k` and
  `ReadAddress = S + 32 k` (a `u32`, so modulo `2 ^ 32`): no call was made;
* after `N` ticks the state is the armed state with the AID latch set and
  exactly two calls appended, `DSP_SendAIBuffer(S, 8 * N)` and the `SetInterrupt`
  of the recomputed line; in particular the Audio-DMA state is the one right
  after arming (`BlocksLeft = N`, `ReadAddress = S`);
* another `N` ticks leave that state unchanged but for the same two calls,
  appended again. -/
theorem audio_dma_streaming_cycle (rate : Nat) (s : DSPSystem) (N : Nat)
    (hN1 : 1 ≤ N) (hN2 : N ≤ 0x7FFF) (hS : s.g_audioDMA.SourceAddress < 2 ^ 32) :
    (∀ k, k < N →
      (UpdateAudioDMA rate)^[k] (AUDIO_DMA_CONTROL_LEN_write (0x8000 + N) s) =
        { s with g_audioDMA :=
            { SourceAddress := s.g_audioDMA.SourceAddress
              ReadAddress := (s.g_audioDMA.SourceAddress + 32 * k) % 2 ^ 32
              AudioDMAControl := ⟨0x8000 + N⟩
              BlocksLeft := (N : Int) - k } }) ∧
    (UpdateAudioDMA rate)^[N] (AUDIO_DMA_CONTROL_LEN_write (0x8000 + N) s) =
      { AUDIO_DMA_CONTROL_LEN_write (0x8000 + N) s with
        g_dspState := { s.g_dspState with AID := true }
        trace := s.trace ++
          [Event.DSP_SendAIBuffer s.g_audioDMA.SourceAddress (8 * N),
           Event.SetInterrupt_INT_CAUSE_DSP
             (s.g_dspState.AID_mask || (s.g_dspState.ARAM && s.g_dspState.ARAM_mask) ||
               (s.g_dspState.DSP && s.g_dspState.DSP_mask))] } ∧
    ((UpdateAudioDMA rate)^[N] (AUDIO_DMA_CONTROL_LEN_write (0x8000 + N) s)).g_audioDMA =
      { SourceAddress := s.g_audioDMA.SourceAddress
        ReadAddress := s.g_audioDMA.SourceAddress
        AudioDMAControl := ⟨0x8000 + N⟩
        BlocksLeft := (N : Int) } ∧
    (UpdateAudioDMA rate)^[N]
        ((UpdateAudioDMA rate)^[N] (AUDIO_DMA_CONTROL_LEN_write (0x8000 + N) s)) =
      { (UpdateAudioDMA rate)^[N] (AUDIO_DMA_CONTROL_LEN_write (0x8000 + N) s) with
        trace := ((UpdateAudioDMA rate)^[N] (AUDIO_DMA_CONTROL_LEN_write (0x8000 + N) s)).trace ++
          [Event.DSP_SendAIBuffer s.g_audioDMA.SourceAddress (8 * N),
           Event.SetInterrupt_INT_CAUSE_DSP
             (s.g_dspState.AID_mask || (s.g_dspState.ARAM && s.g_dspState.ARAM_mask) ||
               (s.g_dspState.DSP && s.g_dspState.DSP_mask))] } := by
  obtain ⟨harm, hEn, hNum⟩ := AUDIO_DMA_CONTROL_LEN_write_armed s N hN2
  have hE : (⟨0x8000 + N⟩ : UAudioDMAControl).Enable ≠ 0 := by omega
  have hcycle := UpdateAudioDMA_iterate_cycle rate
    (AUDIO_DMA_CONTROL_LEN_write (0x8000 + N) s) N hN1
    (by rw [harm]; exact hE) (by rw [harm]; exact hNum) (by rw [harm]) (by rw [harm])
    (by rw [harm]; exact hS)
  refine ⟨fun k hk => ?_, ?_, ?_, ?_⟩
  · rw [UpdateAudioDMA_iterate_lt rate _ (by rw [harm]; exact hE)
      (by rw [harm]; exact hS) k (by rw [harm]; simp only; omega), harm]
  · rw [hcycle, harm]
  · rw [hcycle, harm]
  · rw [hcycle]
    rw [UpdateAudioDMA_iterate_cycle rate _ N hN1
      (by rw [harm]; exact hE) (by rw [harm]; exact hNum) (by rw [harm]) (by rw [harm])
      (by rw [harm]; exact hS)]
    rw [harm]

/-- Witness for C7: `N = 3` blocks at source address `0xFFFFFFE0`, where the
read address wraps. -/
theorem audio_dma_streaming_cycle_witness :
    ((UpdateAudioDMA 32000)^[3] (AUDIO_DMA_CONTROL_LEN_write (0x8000 + 3)
        (DirectWrite .AUDIO_DMA_START_LO 0xFFE0 (DirectWrite .AUDIO_DMA_START_HI 0xFFFF
          (Init false false (fun _ => 0) (fun _ => 0)))))).g_audioDMA =
      { SourceAddress := 0xFFFFFFE0
        ReadAddress := 0xFFFFFFE0
        AudioDMAControl := ⟨0x8000 + 3⟩
        BlocksLeft := 3 } :=
  (audio_dma_streaming_cycle 32000
    (DirectWrite .AUDIO_DMA_START_LO 0xFFE0 (DirectWrite .AUDIO_DMA_START_HI 0xFFFF
      (Init false false (fun _ => 0) (fun _ => 0)))) 3 (by decide) (by decide) (by decide)).2.2.1

/-! ## Frame lemmas: what leaves the Audio-DMA state alone -/

theorem UpdateInterrupts_g_audioDMA (s : DSPSystem) :
    (UpdateInterrupts s).g_audioDMA = s.g_audioDMA := by
  rw [UpdateInterrupts_eq]
  rfl

theorem GenerateDSPInterrupt_g_audioDMA (type : Nat) (set : Bool) (s : DSPSystem) :
    (GenerateDSPInterrupt type set s).g_audioDMA = s.g_audioDMA := by
  unfold GenerateDSPInterrupt
  simp only [UpdateInterrupts_g_audioDMA]
  split_ifs <;> rfl

theorem DirectWrite_audio (r : DirectReg) (val : Nat) (s : DSPSystem) :
    (DirectWrite r val s).g_audioDMA.BlocksLeft = s.g_audioDMA.BlocksLeft ∧
    (DirectWrite r val s).g_audioDMA.AudioDMAControl = s.g_audioDMA.AudioDMAControl := by
  cases r <;> exact ⟨rfl, rfl⟩

/-- The control-register write touches the Audio-DMA state through the reset strobe
only, and then only the control word. -/
theorem DSP_CONTROL_write_g_audioDMA (dspWrite val : Nat) (s : DSPSystem) :
    (DSP_CONTROL_write dspWrite val s).g_audioDMA =
      if (val % 2 ^ 16) &&& 1 ≠ 0 then { s.g_audioDMA with AudioDMAControl := ⟨0⟩ }
      else s.g_audioDMA := by
  unfold DSP_CONTROL_write
  simp only [UpdateInterrupts_g_audioDMA]
  split_ifs <;> rfl

theorem advance8_g_audioDMA (s : DSPSystem) : (advance8 s).g_audioDMA = s.g_audioDMA := rfl

theorem ARAM_to_MRAM_body_g_audioDMA (s : DSPSystem) :
    (ARAM_to_MRAM_body s).g_audioDMA = s.g_audioDMA := by
  unfold ARAM_to_MRAM_body
  simp only [advance8_g_audioDMA]
  split_ifs <;> rfl

theorem ARAM_to_MRAM_zero_body_g_audioDMA (s : DSPSystem) :
    (ARAM_to_MRAM_zero_body s).g_audioDMA = s.g_audioDMA := rfl

theorem MRAM_to_ARAM_body_g_audioDMA (s : DSPSystem) :
    (MRAM_to_ARAM_body s).g_audioDMA = s.g_audioDMA := by
  unfold MRAM_to_ARAM_body
  simp only [advance8_g_audioDMA]
  split_ifs <;> rfl

/-! ## The transfer loop -/

/-- Whatever every round of the body preserves holds when the loop returns, and
the count is then zero. -/
theorem whileCount_some (body : DSPSystem → DSPSystem) (P : DSPSystem → Prop)
    (hbody : ∀ s, P s → P (body s)) :
    ∀ (fuel : Nat) (s s' : DSPSystem), P s → whileCount body fuel s = some s' →
      P s' ∧ s'.g_arDMA.Cnt.count = 0 := by
  intro fuel
  induction fuel with
  | zero =>
    intro s s' hP h
    simp only [whileCount] at h
    split_ifs at h with hc
    cases h
    exact ⟨hP, hc⟩
  | succ fuel ih =>
    intro s s' hP h
    simp only [whileCount] at h
    split_ifs at h with hc
    · cases h
      exact ⟨hP, hc⟩
    · exact ih (body s) s' (hbody s hP) h

/-- A loop whose body takes 8 off the count (within its 31 bits) returns after
`n` rounds when the count is `8 * n`. -/
theorem whileCount_terminates (body : DSPSystem → DSPSystem)
    (hbody : ∀ s, (body s).g_arDMA.Cnt.count = (s.g_arDMA.Cnt.count + 2 ^ 31 - 8) % 2 ^ 31) :
    ∀ (n : Nat) (s : DSPSystem), s.g_arDMA.Cnt.count = 8 * n →
      ∃ s', whileCount body n s = some s' := by
  intro n
  induction n with
  | zero =>
    intro s h
    exact ⟨s, by simp only [whileCount]; rw [if_pos (by omega)]⟩
  | succ n ih =>
    intro s h
    have hlt : s.g_arDMA.Cnt.count < 2 ^ 31 := Nat.mod_lt _ (by norm_num)
    obtain ⟨s', hs'⟩ := ih (body s) (by rw [hbody]; omega)
    exact ⟨s', by simp only [whileCount]; rw [if_neg (by omega)]; exact hs'⟩

theorem setCount_count (c : UARAMCount) (v : Nat) : (c.setCount v).count = v % 2 ^ 31 := by
  simp only [UARAMCount.setCount, UARAMCount.count]
  omega

theorem setCount_dir (c : UARAMCount) (v : Nat) : (c.setCount v).dir = c.dir := by
  simp only [UARAMCount.setCount, UARAMCount.dir]
  omega

theorem advance8_count (s : DSPSystem) :
    (advance8 s).g_arDMA.Cnt.count = (s.g_arDMA.Cnt.count + 2 ^ 31 - 8) % 2 ^ 31 :=
  setCount_count _ _

theorem ARAM_to_MRAM_body_count (s : DSPSystem) :
    (ARAM_to_MRAM_body s).g_arDMA.Cnt.count = (s.g_arDMA.Cnt.count + 2 ^ 31 - 8) % 2 ^ 31 := by
  unfold ARAM_to_MRAM_body
  simp only [advance8_count]
  split_ifs <;> rfl

theorem ARAM_to_MRAM_zero_body_count (s : DSPSystem) :
    (ARAM_to_MRAM_zero_body s).g_arDMA.Cnt.count =
      (s.g_arDMA.Cnt.count + 2 ^ 31 - 8) % 2 ^ 31 := by
  unfold ARAM_to_MRAM_zero_body
  simp only [advance8_count]
  rfl

theorem MRAM_to_ARAM_body_count (s : DSPSystem) :
    (MRAM_to_ARAM_body s).g_arDMA.Cnt.count = (s.g_arDMA.Cnt.count + 2 ^ 31 - 8) % 2 ^ 31 := by
  unfold MRAM_to_ARAM_body
  simp only [advance8_count]
  split_ifs <;> rfl

/-! ## `Do_ARAM_DMA`: frame and termination -/

theorem Do_ARAM_DMA_interrupt_frame (s : DSPSystem) :
    (Do_ARAM_DMA_interrupt s).g_audioDMA = s.g_audioDMA ∧
    (Do_ARAM_DMA_interrupt s).g_arDMA = s.g_arDMA := by
  unfold Do_ARAM_DMA_interrupt
  simp only [DSPSystem.emit]
  split_ifs
  · refine ⟨GenerateDSPInterrupt_g_audioDMA _ _ _, ?_⟩
    simp only [GenerateDSPInterrupt, UpdateInterrupts_eq, DSPSystem.emit]
    split_ifs <;> rfl
  · exact ⟨rfl, rfl⟩
  · exact ⟨rfl, rfl⟩

/-- A transfer that returns leaves the Audio-DMA state alone and the count zero. -/
theorem Do_ARAM_DMA_transfer_some (fuel : Nat) (s s' : DSPSystem)
    (h : Do_ARAM_DMA_transfer fuel s = some s') :
    s'.g_audioDMA = s.g_audioDMA ∧ s'.g_arDMA.Cnt.count = 0 := by
  unfold Do_ARAM_DMA_transfer at h
  simp only [] at h
  split_ifs at h
  · exact whileCount_some ARAM_to_MRAM_body (fun t => t.g_audioDMA = s.g_audioDMA)
      (fun t ht => (ARAM_to_MRAM_body_g_audioDMA t).trans ht) fuel (maskAddresses s) s' rfl h
  · exact whileCount_some ARAM_to_MRAM_zero_body (fun t => t.g_audioDMA = s.g_audioDMA)
      (fun t ht => (ARAM_to_MRAM_zero_body_g_audioDMA t).trans ht) fuel (maskAddresses s) s' rfl h
  · exact whileCount_some MRAM_to_ARAM_body (fun t => t.g_audioDMA = s.g_audioDMA)
      (fun t ht => (MRAM_to_ARAM_body_g_audioDMA t).trans ht) fuel (maskAddresses s) s' rfl h
  · cases h
    exact ⟨rfl, setCount_count _ _⟩

/-- A transfer whose count is `8 * n` returns within `n` rounds. -/
theorem Do_ARAM_DMA_transfer_terminates (n : Nat) (s : DSPSystem)
    (h : s.g_arDMA.Cnt.count = 8 * n) : ∃ s', Do_ARAM_DMA_transfer n s = some s' := by
  unfold Do_ARAM_DMA_transfer
  simp only []
  split_ifs
  · exact whileCount_terminates _ ARAM_to_MRAM_body_count n _ h
  · exact whileCount_terminates _ ARAM_to_MRAM_zero_body_count n _ h
  · exact whileCount_terminates _ MRAM_to_ARAM_body_count n _ h
  · exact ⟨_, rfl⟩

theorem Do_ARAM_DMA_some (fuel : Nat) (s s' : DSPSystem) (h : Do_ARAM_DMA fuel s = some s') :
    s'.g_audioDMA = s.g_audioDMA ∧ s'.g_arDMA.Cnt.count = 0 := by
  obtain ⟨h1, h2⟩ := Do_ARAM_DMA_transfer_some fuel _ s' h
  exact ⟨h1.trans (Do_ARAM_DMA_interrupt_frame s).1, h2⟩

theorem Do_ARAM_DMA_terminates (n : Nat) (s : DSPSystem) (h : s.g_arDMA.Cnt.count = 8 * n) :
    ∃ s', Do_ARAM_DMA n s = some s' :=
  Do_ARAM_DMA_transfer_terminates n _ (by rw [(Do_ARAM_DMA_interrupt_frame s).2]; exact h)

/-- The count-low write leaves a count that is a multiple of 32. -/
theorem count_low_write_mod_32 (H val : Nat) :
    ((H &&& 0xFFFF0000) ||| ((val % 2 ^ 16) &&& 0xFFE0)) % 32 = 0 := by
  have h : ((H &&& 0xFFFF0000) ||| ((val % 2 ^ 16) &&& 0xFFE0)) % 2 ^ 5 = 0 := by
    apply Nat.eq_of_testBit_eq
    intro i
    simp only [Nat.testBit_mod_two_pow, Nat.testBit_or, Nat.testBit_and, Nat.zero_testBit]
    by_cases hi : i < 5
    · have h1 : Nat.testBit 0xFFFF0000 i = false := by
        interval_cases i <;> decide
      have h2 : Nat.testBit 0xFFE0 i = false := by
        interval_cases i <;> decide
      simp only [h1, h2, Bool.and_false, Bool.or_false]
    · simp only [hi, decide_False, Bool.false_and]
  simpa using h

/-- The write handler of `AR_DMA_CNT_L` returns, for every written value. -/
theorem AR_DMA_CNT_L_write_terminates (val : Nat) (s : DSPSystem) :
    ∃ fuel s', AR_DMA_CNT_L_write fuel val s = some s' := by
  have h32 := count_low_write_mod_32 s.g_arDMA.Cnt.Hex val
  refine ⟨((s.g_arDMA.Cnt.Hex &&& 0xFFFF0000) ||| ((val % 2 ^ 16) &&& 0xFFE0)) % 2 ^ 31 / 8, ?_⟩
  exact Do_ARAM_DMA_terminates _ _ (by simp only [UARAMCount.count]; omega)

/-! ## C9: the Audio-DMA invariant -/

/-- The tick keeps `0 ≤ BlocksLeft ≤ NumBlocks`. -/
theorem UpdateAudioDMA_invariant (rate : Nat) (s : DSPSystem) (h : s.g_audioDMA.Invariant) :
    (UpdateAudioDMA rate s).g_audioDMA.Invariant := by
  unfold AudioDMA.Invariant at *
  unfold UpdateAudioDMA
  simp only [GenerateDSPInterrupt_g_audioDMA, DSPSystem.emit]
  split_ifs with h1 h2
  · simp only [le_refl, and_true]
    omega
  · simp only
    omega
  · exact h

/-- C9 as stated fails. From the initial state, the control-length write of
`0x8005` arms the engine (`BlocksLeft = NumBlocks = 5`, invariant holds); the
control-register write of `1` (reset strobe) then clears the control word and
leaves `BlocksLeft`, so that `BlocksLeft = 5 > 0 = NumBlocks`. -/
theorem audio_dma_invariant_counterexample :
    (AUDIO_DMA_CONTROL_LEN_write 0x8005
      (Init false false (fun _ => 0) (fun _ => 0))).g_audioDMA.Invariant ∧
    step 0 (AUDIO_DMA_CONTROL_LEN_write 0x8005 (Init false false (fun _ => 0) (fun _ => 0)))
      (Op.controlWrite 0 1) =
      some (DSP_CONTROL_write 0 1
        (AUDIO_DMA_CONTROL_LEN_write 0x8005 (Init false false (fun _ => 0) (fun _ => 0)))) ∧
    (DSP_CONTROL_write 0 1 (AUDIO_DMA_CONTROL_LEN_write 0x8005
      (Init false false (fun _ => 0) (fun _ => 0)))).g_audioDMA.BlocksLeft = 5 ∧
    (DSP_CONTROL_write 0 1 (AUDIO_DMA_CONTROL_LEN_write 0x8005
      (Init false false (fun _ => 0) (fun _ => 0)))).g_audioDMA.AudioDMAControl.NumBlocks = 0 ∧
    ¬ (DSP_CONTROL_write 0 1 (AUDIO_DMA_CONTROL_LEN_write 0x8005
      (Init false false (fun _ => 0) (fun _ => 0)))).g_audioDMA.Invariant := by
  refine ⟨by decide, rfl, ?_, ?_, ?_⟩
  · rw [DSP_CONTROL_write_g_audioDMA]
    decide
  · rw [DSP_CONTROL_write_g_audioDMA]
    decide
  · rw [DSP_CONTROL_write_g_audioDMA]
    decide

/-- C9, amended. `0 ≤ BlocksLeft ≤ NumBlocks` holds in the initial state and is
preserved by every operation of the DSP interface (direct register writes, source
address included; Audio-DMA tick; control-length write; interrupt requests; ARAM
DMA trigger, which returns; control-register write) except a control-register
write with the reset strobe (bit 0) set. That write sets the control word, hence
`NumBlocks`, to 0 and leaves `BlocksLeft` as it was. -/
theorem audio_dma_invariant_preserved :
    (∀ (wii lle : Bool) (aram : Nat → Nat) (ram : Memory.GuestMemory),
      (Init wii lle aram ram).g_audioDMA.Invariant) ∧
    (∀ (s : DSPSystem) (op : Op), s.g_audioDMA.Invariant →
      (∀ dspWrite val, op = Op.controlWrite dspWrite val → val.testBit 0 = false) →
      (∃ fuel s', step fuel s op = some s') ∧
      ∀ fuel s', step fuel s op = some s' → s'.g_audioDMA.Invariant) ∧
    (∀ (s : DSPSystem) (dspWrite val : Nat), val.testBit 0 = true →
      (DSP_CONTROL_write dspWrite val s).g_audioDMA.AudioDMAControl.Hex = 0 ∧
      (DSP_CONTROL_write dspWrite val s).g_audioDMA.AudioDMAControl.NumBlocks = 0 ∧
      (DSP_CONTROL_write dspWrite val s).g_audioDMA.BlocksLeft = s.g_audioDMA.BlocksLeft) := by
  have hbit : ∀ val : Nat, ((val % 2 ^ 16) &&& 1 ≠ 0) ↔ val.testBit 0 = true := by
    intro val
    rw [Nat.and_one_is_mod, Nat.testBit_zero, decide_eq_true_eq]
    omega
  refine ⟨fun wii lle aram ram => ?_, fun s op hinv hop => ?_, fun s dspWrite val hv => ?_⟩
  · simp only [Init, AudioDMA.Invariant, UAudioDMAControl.NumBlocks]
    decide
  · cases op with
    | directWrite r val =>
      refine ⟨⟨0, _, rfl⟩, fun fuel s' h => ?_⟩
      simp only [step, Option.some.injEq] at h
      subst h
      obtain ⟨h1, h2⟩ := DirectWrite_audio r val s
      unfold AudioDMA.Invariant at *
      rw [h1, h2]
      exact hinv
    | controlWrite dspWrite val =>
      refine ⟨⟨0, _, rfl⟩, fun fuel s' h => ?_⟩
      simp only [step, Option.some.injEq] at h
      subst h
      rw [DSP_CONTROL_write_g_audioDMA, if_neg]
      · exact hinv
      · rw [hbit, hop dspWrite val rfl]
        simp
    | aramCountLowWrite val =>
      refine ⟨AR_DMA_CNT_L_write_terminates val s, fun fuel s' h => ?_⟩
      simp only [step, AR_DMA_CNT_L_write] at h
      rw [(Do_ARAM_DMA_some fuel _ s' h).1]
      exact hinv
    | audioControlLenWrite val =>
      refine ⟨⟨0, _, rfl⟩, fun fuel s' h => ?_⟩
      simp only [step, Option.some.injEq] at h
      subst h
      simp only [AUDIO_DMA_CONTROL_LEN_write, AudioDMA.Invariant, le_refl, and_true]
      omega
    | updateAudioDMA rate =>
      refine ⟨⟨0, _, rfl⟩, fun fuel s' h => ?_⟩
      simp only [step, Option.some.injEq] at h
      subst h
      exact UpdateAudioDMA_invariant rate s hinv
    | generateDSPInterrupt type set =>
      refine ⟨⟨0, _, rfl⟩, fun fuel s' h => ?_⟩
      simp only [step, Option.some.injEq] at h
      subst h
      rw [GenerateDSPInterrupt_g_audioDMA]
      exact hinv
    | generateDSPInterruptWrapper userdata =>
      refine ⟨⟨0, _, rfl⟩, fun fuel s' h => ?_⟩
      simp only [step, Option.some.injEq] at h
      subst h
      unfold GenerateDSPInterrupt_Wrapper
      rw [GenerateDSPInterrupt_g_audioDMA]
      exact hinv
    | generateDSPInterruptFromDSPEmu type set =>
      refine ⟨⟨0, _, rfl⟩, fun fuel s' h => ?_⟩
      simp only [step, Option.some.injEq] at h
      subst h
      exact hinv
  · rw [DSP_CONTROL_write_g_audioDMA, if_pos ((hbit val).mpr hv)]
    exact ⟨rfl, rfl, rfl⟩

/-- Witness for the amended C9: the armed state of the counterexample and the
ARAM DMA trigger (a count-low write of `0x40`), which keeps the invariant. -/
theorem audio_dma_invariant_preserved_witness :
    (∃ fuel s', step fuel (AUDIO_DMA_CONTROL_LEN_write 0x8005
        (Init false false (fun _ => 0) (fun _ => 0))) (Op.aramCountLowWrite 0x40) = some s') ∧
    ∀ fuel s', step fuel (AUDIO_DMA_CONTROL_LEN_write 0x8005
        (Init false false (fun _ => 0) (fun _ => 0))) (Op.aramCountLowWrite 0x40) = some s' →
      s'.g_audioDMA.Invariant :=
  audio_dma_invariant_preserved.2.1
    (AUDIO_DMA_CONTROL_LEN_write 0x8005 (Init false false (fun _ => 0) (fun _ => 0)))
    (Op.aramCountLowWrite 0x40) (by decide) (fun _ _ h => by cases h)


/-! ## The control-register write, field by field -/

/-- The bits of `DSP_CONTROL_MASK` and of its complement, below bit 12. -/
theorem DSP_CONTROL_MASK_bits :
    (Nat.testBit 0xF3F8 0 = false ∧ Nat.testBit 0xF3F8 1 = false ∧ Nat.testBit 0xF3F8 2 = false ∧
     Nat.testBit 0xF3F8 3 = true ∧ Nat.testBit 0xF3F8 4 = true ∧ Nat.testBit 0xF3F8 5 = true ∧
     Nat.testBit 0xF3F8 6 = true ∧ Nat.testBit 0xF3F8 7 = true ∧ Nat.testBit 0xF3F8 8 = true ∧
     Nat.testBit 0xF3F8 9 = true ∧ Nat.testBit 0xF3F8 10 = false ∧
     Nat.testBit 0xF3F8 11 = false) ∧
    (Nat.testBit 0x0C07 0 = true ∧ Nat.testBit 0x0C07 1 = true ∧ Nat.testBit 0x0C07 2 = true ∧
     Nat.testBit 0x0C07 3 = false ∧ Nat.testBit 0x0C07 4 = false ∧ Nat.testBit 0x0C07 5 = false ∧
     Nat.testBit 0x0C07 6 = false ∧ Nat.testBit 0x0C07 7 = false ∧ Nat.testBit 0x0C07 8 = false ∧
     Nat.testBit 0x0C07 9 = false ∧ Nat.testBit 0x0C07 10 = true ∧
     Nat.testBit 0x0C07 11 = true) := by
  decide

/-- Bits 12..15 of a merge `(a & ~DSP_CONTROL_MASK) | (b & DSP_CONTROL_MASK)` of a
16-bit `a` are those of `a`. -/
theorem merge_pad (a b : Nat) (ha : a < 2 ^ 16) :
    ((a &&& DSP_CONTROL_MASK_compl) ||| (b &&& DSP_CONTROL_MASK)) / 2 ^ 12 % 16 = a / 2 ^ 12 := by
  have hlt : a / 2 ^ 12 < 16 := by omega
  have h : ((a &&& DSP_CONTROL_MASK_compl) ||| (b &&& DSP_CONTROL_MASK)) >>> 12 = a >>> 12 := by
    apply Nat.eq_of_testBit_eq
    intro j
    simp only [Nat.testBit_shiftRight, Nat.testBit_or, Nat.testBit_and]
    have h1 : DSP_CONTROL_MASK.testBit (12 + j) = false :=
      Nat.testBit_lt_two_pow (Nat.lt_of_lt_of_le (by decide : DSP_CONTROL_MASK < 2 ^ 12)
        (Nat.pow_le_pow_right (by decide) (by omega)))
    rw [h1, Bool.and_false, Bool.or_false]
    by_cases hj : j < 4
    · have h2 : DSP_CONTROL_MASK_compl.testBit (12 + j) = true := by
        interval_cases j <;> decide
      rw [h2, Bool.and_true]
    · have h3 : a.testBit (12 + j) = false :=
        Nat.testBit_lt_two_pow (Nat.lt_of_lt_of_le ha
          (Nat.pow_le_pow_right (by decide) (by omega)))
      rw [h3, Bool.false_and]
  rw [Nat.shiftRight_eq_div_pow, Nat.shiftRight_eq_div_pow] at h
  rw [h]
  omega

/-- The bits of the merged value `tmpControl.Hex` of the control-register write:
bits 0..2 and 10..11 come from the DSP emulator's answer, bits 3..9 and the
padding from the written value. -/
theorem tmpControl_bits (dspWrite val : Nat) :
    UDSPControl.ofHex
      ((val % 2 ^ 16 &&& DSP_CONTROL_MASK_compl) ||| ((dspWrite % 2 ^ 16) &&& DSP_CONTROL_MASK)) =
    { DSPReset := dspWrite.testBit 0
      DSPAssertInt := dspWrite.testBit 1
      DSPHalt := dspWrite.testBit 2
      AID := val.testBit 3
      AID_mask := val.testBit 4
      ARAM := val.testBit 5
      ARAM_mask := val.testBit 6
      DSP := val.testBit 7
      DSP_mask := val.testBit 8
      DMAState := val.testBit 9
      unk3 := dspWrite.testBit 10
      DSPInit := dspWrite.testBit 11
      pad := val % 2 ^ 16 / 2 ^ 12 } := by
  obtain ⟨⟨c0, c1, c2, c3, c4, c5, c6, c7, c8, c9, c10, c11⟩,
    ⟨m0, m1, m2, m3, m4, m5, m6, m7, m8, m9, m10, m11⟩⟩ := DSP_CONTROL_MASK_bits
  simp only [UDSPControl.ofHex, merge_pad _ _ (Nat.mod_lt val (by norm_num : 0 < 2 ^ 16)),
    Nat.testBit_or, Nat.testBit_and, Nat.testBit_mod_two_pow]
  simp only [DSP_CONTROL_MASK, DSP_CONTROL_MASK_compl, c0, c1, c2, c3, c4, c5, c6, c7, c8, c9,
    c10, c11, m0, m1, m2, m3, m4, m5, m6, m7, m8, m9, m10, m11, Bool.and_true, Bool.and_false,
    Bool.or_false, Bool.false_or, Nat.reduceLT, decide_True, Bool.true_and, Nat.ofNat_pos,
    Nat.lt_add_one, Nat.zero_lt_succ]

theorem UpdateInterrupts_g_dspState (s : DSPSystem) :
    (UpdateInterrupts s).g_dspState = s.g_dspState := by
  rw [UpdateInterrupts_eq]
  rfl

/-- The control register after a control-register write: the DSP flags from the DSP
emulator's answer, the masks, `unk3`... from the merged value, every latch cleared
where the written bit is 1 and kept otherwise, `DMAState` kept, the padding taken
from the written value. -/
theorem DSP_CONTROL_write_g_dspState (dspWrite val : Nat) (s : DSPSystem) :
    (DSP_CONTROL_write dspWrite val s).g_dspState =
      { DSPReset := dspWrite.testBit 0
        DSPAssertInt := dspWrite.testBit 1
        DSPHalt := dspWrite.testBit 2
        AID := s.g_dspState.AID && !val.testBit 3
        AID_mask := val.testBit 4
        ARAM := s.g_dspState.ARAM && !val.testBit 5
        ARAM_mask := val.testBit 6
        DSP := s.g_dspState.DSP && !val.testBit 7
        DSP_mask := val.testBit 8
        DMAState := s.g_dspState.DMAState
        unk3 := dspWrite.testBit 10
        DSPInit := dspWrite.testBit 11
        pad := val % 2 ^ 16 / 2 ^ 12 } := by
  unfold DSP_CONTROL_write
  simp only [UpdateInterrupts_g_dspState, tmpControl_bits, DSPSystem.emit,
    apply_ite DSPSystem.g_dspState]
  split_ifs <;> simp_all

/-- The calls a control-register write makes, in order: the DSP emulator's
`DSP_WriteControlRegister`, a `PanicAlert` when the written padding is nonzero,
and the `SetInterrupt` of the line recomputed on the resulting control register. -/
theorem DSP_CONTROL_write_trace (dspWrite val : Nat) (s : DSPSystem) :
    (DSP_CONTROL_write dspWrite val s).trace =
      s.trace ++ [Event.DSP_WriteControlRegister (val % 2 ^ 16)] ++
      (if val % 2 ^ 16 / 2 ^ 12 ≠ 0 then [Event.PanicAlert (val % 2 ^ 16)] else []) ++
      [Event.SetInterrupt_INT_CAUSE_DSP
        (((DSP_CONTROL_write dspWrite val s).g_dspState.AID &&
            (DSP_CONTROL_write dspWrite val s).g_dspState.AID_mask) ||
         ((DSP_CONTROL_write dspWrite val s).g_dspState.ARAM &&
            (DSP_CONTROL_write dspWrite val s).g_dspState.ARAM_mask) ||
         ((DSP_CONTROL_write dspWrite val s).g_dspState.DSP &&
            (DSP_CONTROL_write dspWrite val s).g_dspState.DSP_mask))] := by
  rw [DSP_CONTROL_write_g_dspState]
  unfold DSP_CONTROL_write
  simp only [UpdateInterrupts_eq, tmpControl_bits, DSPSystem.emit,
    apply_ite DSPSystem.g_dspState, apply_ite DSPSystem.trace]
  split_ifs <;> simp_all

/-- The test `val & 1` of the control-register write, on the 16-bit written value. -/
theorem reset_strobe_iff (val : Nat) : ((val % 2 ^ 16) &&& 1 ≠ 0) ↔ val.testBit 0 = true := by
  rw [Nat.and_one_is_mod, Nat.testBit_zero, decide_eq_true_eq]
  omega

/-- A tick with `Enable = 0` or `BlocksLeft = 0` only appends the silence call. -/
theorem UpdateAudioDMA_of_idle (rate : Nat) (s : DSPSystem)
    (h : s.g_audioDMA.AudioDMAControl.Enable = 0 ∨ s.g_audioDMA.BlocksLeft = 0) :
    UpdateAudioDMA rate s = s.emit (Event.DSP_SendAIBuffer 0 rate) := by
  unfold UpdateAudioDMA
  rw [if_neg (by rcases h with h | h <;> simp [h])]

/-! ## C11: write-1-to-clear latches -/

/-- C11. For every prior state, every written value `val` and every value
`dspWrite` returned by the DSP emulator's `DSP_WriteControlRegister`, after the
control-register write the latches AID, ARAM and DSP equal the old latch AND NOT
bit 3, bit 5, bit 7 of `val`; so no latch goes from 0 to 1. -/
theorem DSP_CONTROL_write_latches (dspWrite val : Nat) (s : DSPSystem) :
    (DSP_CONTROL_write dspWrite val s).g_dspState.AID =
      (s.g_dspState.AID && !val.testBit 3) ∧
    (DSP_CONTROL_write dspWrite val s).g_dspState.ARAM =
      (s.g_dspState.ARAM && !val.testBit 5) ∧
    (DSP_CONTROL_write dspWrite val s).g_dspState.DSP =
      (s.g_dspState.DSP && !val.testBit 7) ∧
    ¬ (s.g_dspState.AID = false ∧ (DSP_CONTROL_write dspWrite val s).g_dspState.AID = true) ∧
    ¬ (s.g_dspState.ARAM = false ∧ (DSP_CONTROL_write dspWrite val s).g_dspState.ARAM = true) ∧
    ¬ (s.g_dspState.DSP = false ∧ (DSP_CONTROL_write dspWrite val s).g_dspState.DSP = true) := by
  rw [DSP_CONTROL_write_g_dspState]
  refine ⟨rfl, rfl, rfl, ?_, ?_, ?_⟩ <;> rintro ⟨h0, h1⟩ <;> simp [h0] at h1

/-! ## C14: the interrupt line is recomputed last -/

/-- C14. After every control-register write and after every
`GenerateDSPInterrupt(type, set)` call (whatever `type` is), the last call made is
`SetInterrupt(INT_CAUSE_DSP, b)` with
`b = (AID ∧ AID_mask) ∨ (ARAM ∧ ARAM_mask) ∨ (DSP ∧ DSP_mask)` evaluated on the
resulting control register: `b` is a function of that register alone. -/
theorem interrupt_line_recomputed (dspWrite val type : Nat) (set : Bool) (s : DSPSystem) :
    (DSP_CONTROL_write dspWrite val s).trace.getLast? =
      some (Event.SetInterrupt_INT_CAUSE_DSP
        (((DSP_CONTROL_write dspWrite val s).g_dspState.AID &&
            (DSP_CONTROL_write dspWrite val s).g_dspState.AID_mask) ||
         ((DSP_CONTROL_write dspWrite val s).g_dspState.ARAM &&
            (DSP_CONTROL_write dspWrite val s).g_dspState.ARAM_mask) ||
         ((DSP_CONTROL_write dspWrite val s).g_dspState.DSP &&
            (DSP_CONTROL_write dspWrite val s).g_dspState.DSP_mask))) ∧
    (GenerateDSPInterrupt type set s).trace.getLast? =
      some (Event.SetInterrupt_INT_CAUSE_DSP
        (((GenerateDSPInterrupt type set s).g_dspState.AID &&
            (GenerateDSPInterrupt type set s).g_dspState.AID_mask) ||
         ((GenerateDSPInterrupt type set s).g_dspState.ARAM &&
            (GenerateDSPInterrupt type set s).g_dspState.ARAM_mask) ||
         ((GenerateDSPInterrupt type set s).g_dspState.DSP &&
            (GenerateDSPInterrupt type set s).g_dspState.DSP_mask))) := by
  constructor
  · rw [DSP_CONTROL_write_trace, List.getLast?_concat]
  · unfold GenerateDSPInterrupt
    simp only [UpdateInterrupts_g_dspState]
    simp only [UpdateInterrupts_eq, DSPSystem.emit, List.getLast?_concat]

/-! ## C15: the reset strobe -/

/-- C15. For every prior state, every answer `dspWrite` of the DSP emulator and
every written value `val`: with bit 0 of `val` set, the control-register write
leaves the Audio-DMA control word 0 (`Enable = 0`, `NumBlocks = 0`) and the next
`UpdateAudioDMA` tick only appends the silence call
`DSP_SendAIBuffer(0, rate)`; with bit 0 clear, it leaves the Audio-DMA state, the
control word included, unchanged. -/
theorem reset_strobe_disarms (dspWrite val rate : Nat) (s : DSPSystem) :
    (val.testBit 0 = true →
      (DSP_CONTROL_write dspWrite val s).g_audioDMA.AudioDMAControl.Hex = 0 ∧
      (DSP_CONTROL_write dspWrite val s).g_audioDMA.AudioDMAControl.Enable = 0 ∧
      (DSP_CONTROL_write dspWrite val s).g_audioDMA.AudioDMAControl.NumBlocks = 0 ∧
      UpdateAudioDMA rate (DSP_CONTROL_write dspWrite val s) =
        { DSP_CONTROL_write dspWrite val s with
          trace := (DSP_CONTROL_write dspWrite val s).trace ++
            [Event.DSP_SendAIBuffer 0 rate] }) ∧
    (val.testBit 0 = false →
      (DSP_CONTROL_write dspWrite val s).g_audioDMA = s.g_audioDMA) := by
  constructor
  · intro hv
    have h : (DSP_CONTROL_write dspWrite val s).g_audioDMA =
        { s.g_audioDMA with AudioDMAControl := ⟨0⟩ } := by
      rw [DSP_CONTROL_write_g_audioDMA, if_pos ((reset_strobe_iff val).mpr hv)]
    have hE : (DSP_CONTROL_write dspWrite val s).g_audioDMA.AudioDMAControl.Enable = 0 := by
      rw [h]
      simp [UAudioDMAControl.Enable]
    refine ⟨by rw [h], hE, by rw [h]; simp [UAudioDMAControl.NumBlocks], ?_⟩
    rw [UpdateAudioDMA_of_idle rate _ (Or.inl hE)]
    rfl
  · intro hv
    rw [DSP_CONTROL_write_g_audioDMA, if_neg]
    rw [reset_strobe_iff, hv]
    simp

/-- Witness for C15: the engine armed with `0x8005` in the initial state, then
the control-register writes `0x0001` (strobe) and `0x0010` (no strobe). -/
theorem reset_strobe_disarms_witness :
    ((DSP_CONTROL_write 0 0x0001 (AUDIO_DMA_CONTROL_LEN_write 0x8005
        (Init false false (fun _ => 0) (fun _ => 0)))).g_audioDMA.AudioDMAControl.Hex = 0 ∧
      (DSP_CONTROL_write 0 0x0001 (AUDIO_DMA_CONTROL_LEN_write 0x8005
        (Init false false (fun _ => 0) (fun _ => 0)))).g_audioDMA.AudioDMAControl.Enable = 0) ∧
    (DSP_CONTROL_write 0 0x0010 (AUDIO_DMA_CONTROL_LEN_write 0x8005
        (Init false false (fun _ => 0) (fun _ => 0)))).g_audioDMA =
      (AUDIO_DMA_CONTROL_LEN_write 0x8005
        (Init false false (fun _ => 0) (fun _ => 0))).g_audioDMA :=
  ⟨⟨((reset_strobe_disarms 0 0x0001 32000 (AUDIO_DMA_CONTROL_LEN_write 0x8005
        (Init false false (fun _ => 0) (fun _ => 0)))).1 (by decide)).1,
    ((reset_strobe_disarms 0 0x0001 32000 (AUDIO_DMA_CONTROL_LEN_write 0x8005
        (Init false false (fun _ => 0) (fun _ => 0)))).1 (by decide)).2.1⟩,
   (reset_strobe_disarms 0 0x0010 32000 (AUDIO_DMA_CONTROL_LEN_write 0x8005
        (Init false false (fun _ => 0) (fun _ => 0)))).2 (by decide)⟩

/-! ## C12: clearing the only asserted source -/

/-- The value of the interrupt line after a control-register write, in terms of
the prior latches and the written bits: a source is asserted when its latch was
set, its latch bit in `val` is 0, and its mask bit in `val` is 1. -/
theorem DSP_CONTROL_write_line (dspWrite val : Nat) (s : DSPSystem) :
    (DSP_CONTROL_write dspWrite val s).trace.getLast? =
      some (Event.SetInterrupt_INT_CAUSE_DSP
        ((s.g_dspState.AID && !val.testBit 3 && val.testBit 4) ||
         (s.g_dspState.ARAM && !val.testBit 5 && val.testBit 6) ||
         (s.g_dspState.DSP && !val.testBit 7 && val.testBit 8))) := by
  rw [DSP_CONTROL_write_trace, List.getLast?_concat, DSP_CONTROL_write_g_dspState]

/-- C12 as stated fails. From the initial state: enable the AID mask (write
`0x0010`), raise AID, raise ARAM (its mask is 0). Exactly one pair, AID, is
asserted and unmasked. The write of `0x0058` has the AID latch bit (bit 3) set
and clears AID, but it also sets the ARAM mask (bit 6) while the ARAM latch stays
set: the last `SetInterrupt` call of the write passes true. -/
theorem clear_only_source_counterexample :
    ((GenerateDSPInterrupt INT_ARAM true (GenerateDSPInterrupt INT_AID true
        (DSP_CONTROL_write 0 0x0010 (Init false false (fun _ => 0) (fun _ => 0))))).g_dspState
      = { UDSPControl.ofHex 0 with AID := true, AID_mask := true, ARAM := true }) ∧
    Nat.testBit 0x0058 3 = true ∧
    (DSP_CONTROL_write 0 0x0058 (GenerateDSPInterrupt INT_ARAM true
        (GenerateDSPInterrupt INT_AID true (DSP_CONTROL_write 0 0x0010
          (Init false false (fun _ => 0) (fun _ => 0)))))).g_dspState.AID = false ∧
    (DSP_CONTROL_write 0 0x0058 (GenerateDSPInterrupt INT_ARAM true
        (GenerateDSPInterrupt INT_AID true (DSP_CONTROL_write 0 0x0010
          (Init false false (fun _ => 0) (fun _ => 0)))))).trace.getLast? =
      some (Event.SetInterrupt_INT_CAUSE_DSP true) := by
  have h0 : (GenerateDSPInterrupt INT_ARAM true (GenerateDSPInterrupt INT_AID true
        (DSP_CONTROL_write 0 0x0010 (Init false false (fun _ => 0) (fun _ => 0))))).g_dspState
      = { UDSPControl.ofHex 0 with AID := true, AID_mask := true, ARAM := true } := by
    simp only [GenerateDSPInterrupt, UpdateInterrupts_g_dspState, INT_ARAM, INT_AID, INT_DSP,
      DSP_CONTROL_write_g_dspState, Init]
    decide
  refine ⟨h0, by decide, ?_, ?_⟩
  · rw [DSP_CONTROL_write_g_dspState, h0]
    decide
  · rw [DSP_CONTROL_write_line, h0]
    decide

/-- C12, amended. For every state in which exactly one of the three
(latch AND mask) pairs is true, and every control-register write whose value has
that latch's bit set (bit 3 for AID, 5 for ARAM, 7 for DSP), whatever the DSP
emulator answers: the write clears that latch, so that under the masks as they
were no pair is true any more; the last `SetInterrupt(INT_CAUSE_DSP, .)` call of
the write passes false exactly when the written mask bits (bits 4, 6, 8) enable no
latch that is still set after the write, in particular when the write puts the
masks back as they were. -/
theorem clear_only_source (dspWrite val : Nat) (s : DSPSystem)
    (hcase :
      (s.g_dspState.AID = true ∧ s.g_dspState.AID_mask = true ∧
        (s.g_dspState.ARAM && s.g_dspState.ARAM_mask) = false ∧
        (s.g_dspState.DSP && s.g_dspState.DSP_mask) = false ∧ val.testBit 3 = true) ∨
      (s.g_dspState.ARAM = true ∧ s.g_dspState.ARAM_mask = true ∧
        (s.g_dspState.AID && s.g_dspState.AID_mask) = false ∧
        (s.g_dspState.DSP && s.g_dspState.DSP_mask) = false ∧ val.testBit 5 = true) ∨
      (s.g_dspState.DSP = true ∧ s.g_dspState.DSP_mask = true ∧
        (s.g_dspState.AID && s.g_dspState.AID_mask) = false ∧
        (s.g_dspState.ARAM && s.g_dspState.ARAM_mask) = false ∧ val.testBit 7 = true)) :
    (((DSP_CONTROL_write dspWrite val s).g_dspState.AID && s.g_dspState.AID_mask) = false ∧
     ((DSP_CONTROL_write dspWrite val s).g_dspState.ARAM && s.g_dspState.ARAM_mask) = false ∧
     ((DSP_CONTROL_write dspWrite val s).g_dspState.DSP && s.g_dspState.DSP_mask) = false) ∧
    ((DSP_CONTROL_write dspWrite val s).trace.getLast? =
        some (Event.SetInterrupt_INT_CAUSE_DSP false) ↔
      ((DSP_CONTROL_write dspWrite val s).g_dspState.AID && val.testBit 4) = false ∧
      ((DSP_CONTROL_write dspWrite val s).g_dspState.ARAM && val.testBit 6) = false ∧
      ((DSP_CONTROL_write dspWrite val s).g_dspState.DSP && val.testBit 8) = false) ∧
    ((val.testBit 4 = s.g_dspState.AID_mask ∧ val.testBit 6 = s.g_dspState.ARAM_mask ∧
        val.testBit 8 = s.g_dspState.DSP_mask) →
      (DSP_CONTROL_write dspWrite val s).trace.getLast? =
        some (Event.SetInterrupt_INT_CAUSE_DSP false)) := by
  rw [DSP_CONTROL_write_line, DSP_CONTROL_write_g_dspState]
  simp only [Option.some.injEq, Event.SetInterrupt_INT_CAUSE_DSP.injEq]
  generalize s.g_dspState.AID = a at *
  generalize s.g_dspState.AID_mask = am at *
  generalize s.g_dspState.ARAM = r at *
  generalize s.g_dspState.ARAM_mask = rm at *
  generalize s.g_dspState.DSP = d at *
  generalize s.g_dspState.DSP_mask = dm at *
  generalize val.testBit 3 = b3 at *
  generalize val.testBit 4 = b4 at *
  generalize val.testBit 5 = b5 at *
  generalize val.testBit 6 = b6 at *
  generalize val.testBit 7 = b7 at *
  generalize val.testBit 8 = b8 at *
  rcases hcase with ⟨h1, h2, h3, h4, h5⟩ | ⟨h1, h2, h3, h4, h5⟩ | ⟨h1, h2, h3, h4, h5⟩
  · subst h1 h2 h5
    revert h3 h4
    revert r rm d dm b4 b5 b6 b7 b8
    decide
  · subst h1 h2 h5
    revert h3 h4
    revert a am d dm b3 b4 b6 b7 b8
    decide
  · subst h1 h2 h5
    revert h3 h4
    revert a am r rm b3 b4 b5 b6 b8
    decide

/-- Witness for the amended C12: the state of the counterexample, and the write
of `0x0018`, which clears AID and writes the masks back as they were. -/
theorem clear_only_source_witness :
    (DSP_CONTROL_write 0 0x0018 (GenerateDSPInterrupt INT_ARAM true
        (GenerateDSPInterrupt INT_AID true (DSP_CONTROL_write 0 0x0010
          (Init false false (fun _ => 0) (fun _ => 0)))))).trace.getLast? =
      some (Event.SetInterrupt_INT_CAUSE_DSP false) :=
  (clear_only_source 0 0x0018 (GenerateDSPInterrupt INT_ARAM true
      (GenerateDSPInterrupt INT_AID true (DSP_CONTROL_write 0 0x0010
        (Init false false (fun _ => 0) (fun _ => 0)))))
    (Or.inl (by decide))).2.2 (by decide)

/-! ## C13: the reserved bits 12..15 -/

theorem Bool_toNat_le_one (b : Bool) : b.toNat ≤ 1 := by
  cases b <;> decide

/-- `Hex` fits 16 bits and its bits 12..15 are the padding field. -/
theorem UDSPControl_Hex_pad (c : UDSPControl) : c.Hex < 2 ^ 16 ∧ c.Hex / 2 ^ 12 = c.pad % 16 := by
  have h0 := Bool_toNat_le_one c.DSPReset
  have h1 := Bool_toNat_le_one c.DSPAssertInt
  have h2 := Bool_toNat_le_one c.DSPHalt
  have h3 := Bool_toNat_le_one c.AID
  have h4 := Bool_toNat_le_one c.AID_mask
  have h5 := Bool_toNat_le_one c.ARAM
  have h6 := Bool_toNat_le_one c.ARAM_mask
  have h7 := Bool_toNat_le_one c.DSP
  have h8 := Bool_toNat_le_one c.DSP_mask
  have h9 := Bool_toNat_le_one c.DMAState
  have h10 := Bool_toNat_le_one c.unk3
  have h11 := Bool_toNat_le_one c.DSPInit
  unfold UDSPControl.Hex
  omega

/-- Bits 12..15 of what a read of `DSP_CONTROL` returns are the padding field of
the control register, whatever the DSP emulator reports. -/
theorem DSP_CONTROL_read_pad (dspRead : Nat) (s : DSPSystem) :
    (DSP_CONTROL_read dspRead s).1 / 2 ^ 12 % 16 = s.g_dspState.pad % 16 := by
  obtain ⟨hlt, hpad⟩ := UDSPControl_Hex_pad s.g_dspState
  simp only [DSP_CONTROL_read]
  rw [merge_pad _ _ hlt, hpad]

/-- C13 as stated fails: from the initial state (GameCube), the control-register
write of `0xF000` followed by a read returns a value whose bits 12..15 are
`0xF`, whatever the DSP emulator answers (here 0). -/
theorem reserved_bits_counterexample :
    (DSP_CONTROL_read 0 (DSP_CONTROL_write 0 0xF000
      (Init false false (fun _ => 0) (fun _ => 0)))).1 / 2 ^ 12 % 16 = 0xF ∧
    ¬ ((DSP_CONTROL_read 0 (DSP_CONTROL_write 0 0xF000
      (Init false false (fun _ => 0) (fun _ => 0)))).1 / 2 ^ 12 % 16 = 0) := by
  rw [DSP_CONTROL_read_pad, DSP_CONTROL_write_g_dspState]
  decide

/-- C13, amended. For every sequence `ws` of control-register writes (pairs of the
DSP emulator's answer and the written value), a further write of `val` and every
value the DSP emulator reports on the read, the read of the control register
returns in bits 12..15 the bits 12..15 of `val`, the value written last: zero
exactly when `val` has them zero. A write with a nonzero padding makes the
`PanicAlert` call and stores the padding all the same. In the initial state the
bits read back zero. -/
theorem reserved_bits_read_back (s : DSPSystem) (ws : List (Nat × Nat))
    (dspWrite val dspRead : Nat) (wii lle : Bool) (aram : Nat → Nat)
    (ram : Memory.GuestMemory) :
    (DSP_CONTROL_read dspRead (DSP_CONTROL_write dspWrite val
        (ws.foldl (fun t w => DSP_CONTROL_write w.1 w.2 t) s))).1 / 2 ^ 12 % 16 =
      val % 2 ^ 16 / 2 ^ 12 ∧
    ((DSP_CONTROL_read dspRead (DSP_CONTROL_write dspWrite val
        (ws.foldl (fun t w => DSP_CONTROL_write w.1 w.2 t) s))).1 / 2 ^ 12 % 16 = 0 ↔
      val % 2 ^ 16 / 2 ^ 12 = 0) ∧
    (Event.PanicAlert (val % 2 ^ 16) ∈
        ((DSP_CONTROL_write dspWrite val s).trace.drop s.trace.length) ↔
      val % 2 ^ 16 / 2 ^ 12 ≠ 0) ∧
    (DSP_CONTROL_read dspRead (Init wii lle aram ram)).1 / 2 ^ 12 % 16 = 0 := by
  have hlt : val % 2 ^ 16 / 2 ^ 12 < 16 := by omega
  have h1 : (DSP_CONTROL_read dspRead (DSP_CONTROL_write dspWrite val
        (ws.foldl (fun t w => DSP_CONTROL_write w.1 w.2 t) s))).1 / 2 ^ 12 % 16 =
      val % 2 ^ 16 / 2 ^ 12 := by
    rw [DSP_CONTROL_read_pad, DSP_CONTROL_write_g_dspState]
    exact Nat.mod_eq_of_lt hlt
  refine ⟨h1, by rw [h1], ?_, ?_⟩
  · rw [DSP_CONTROL_write_trace, List.append_assoc, List.append_assoc, List.drop_left]
    split_ifs with h
    · exact ⟨fun _ => h, fun _ => by simp⟩
    · refine ⟨fun hm => ?_, fun hn => absurd hn h⟩
      simp at hm
  · rw [DSP_CONTROL_read_pad]
    simp only [Init]
    decide

/-! ## Bytes of 64-bit values -/

theorem byteAt_lt (v i : Nat) : Common.byteAt v i < 256 :=
  Nat.mod_lt _ (by decide)

/-- Byte `j` of eight bytes put together least significant first. -/
theorem byteAt_of_bytes (b0 b1 b2 b3 b4 b5 b6 b7 : Nat)
    (h0 : b0 < 256) (h1 : b1 < 256) (h2 : b2 < 256) (h3 : b3 < 256)
    (h4 : b4 < 256) (h5 : b5 < 256) (h6 : b6 < 256) (h7 : b7 < 256) :
    let v := b0 + b1 * 256 + b2 * 256 ^ 2 + b3 * 256 ^ 3 + b4 * 256 ^ 4 + b5 * 256 ^ 5 +
      b6 * 256 ^ 6 + b7 * 256 ^ 7
    Common.byteAt v 0 = b0 ∧ Common.byteAt v 1 = b1 ∧ Common.byteAt v 2 = b2 ∧
    Common.byteAt v 3 = b3 ∧ Common.byteAt v 4 = b4 ∧ Common.byteAt v 5 = b5 ∧
    Common.byteAt v 6 = b6 ∧ Common.byteAt v 7 = b7 := by
  simp only [Common.byteAt]
  norm_num
  refine ⟨?_, ?_, ?_, ?_, ?_, ?_, ?_, ?_⟩ <;> omega

/-- Byte `j` of the host-order load is the byte at `off + j` of the ARAM buffer. -/
theorem byteAt_load_u64 (a : ARAMInfo) (off j : Nat) (hj : j < 8) :
    Common.byteAt (a.load_u64 off) j = a.ptr (off + j) % 256 := by
  have h := byteAt_of_bytes (a.ptr off % 256) (a.ptr (off + 1) % 256) (a.ptr (off + 2) % 256)
    (a.ptr (off + 3) % 256) (a.ptr (off + 4) % 256) (a.ptr (off + 5) % 256)
    (a.ptr (off + 6) % 256) (a.ptr (off + 7) % 256)
    (Nat.mod_lt _ (by decide)) (Nat.mod_lt _ (by decide)) (Nat.mod_lt _ (by decide))
    (Nat.mod_lt _ (by decide)) (Nat.mod_lt _ (by decide)) (Nat.mod_lt _ (by decide))
    (Nat.mod_lt _ (by decide)) (Nat.mod_lt _ (by decide))
  simp only at h
  obtain ⟨h0, h1, h2, h3, h4, h5, h6, h7⟩ := h
  unfold ARAMInfo.load_u64
  interval_cases j
  · exact h0
  · exact h1
  · exact h2
  · exact h3
  · exact h4
  · exact h5
  · exact h6
  · exact h7

/-- `swap64` reverses the eight bytes. -/
theorem byteAt_swap64 (v j : Nat) (hj : j < 8) :
    Common.byteAt (Common.swap64 v) j = Common.byteAt v (7 - j) := by
  have h := byteAt_of_bytes (Common.byteAt v 7) (Common.byteAt v 6) (Common.byteAt v 5)
    (Common.byteAt v 4) (Common.byteAt v 3) (Common.byteAt v 2) (Common.byteAt v 1)
    (Common.byteAt v 0) (byteAt_lt _ _) (byteAt_lt _ _) (byteAt_lt _ _) (byteAt_lt _ _)
    (byteAt_lt _ _) (byteAt_lt _ _) (byteAt_lt _ _) (byteAt_lt _ _)
  simp only at h
  have hs : Common.swap64 v = Common.byteAt v 7 + Common.byteAt v 6 * 256 +
      Common.byteAt v 5 * 256 ^ 2 + Common.byteAt v 4 * 256 ^ 3 + Common.byteAt v 3 * 256 ^ 4 +
      Common.byteAt v 2 * 256 ^ 5 + Common.byteAt v 1 * 256 ^ 6 + Common.byteAt v 0 * 256 ^ 7 := by
    unfold Common.swap64
    ring
  rw [hs]
  obtain ⟨h0, h1, h2, h3, h4, h5, h6, h7⟩ := h
  interval_cases j
  · exact h0
  · exact h1
  · exact h2
  · exact h3
  · exact h4
  · exact h5
  · exact h6
  · exact h7

/-- Byte `7 - j` of the big-endian read is the byte at `addr + j` of guest memory. -/
theorem byteAt_Read_U64 (m : Memory.GuestMemory) (addr j : Nat) (hj : j < 8) :
    Common.byteAt (Memory.Read_U64 m addr) (7 - j) = m ((addr + j) % 2 ^ 32) % 256 := by
  have h := byteAt_of_bytes (m ((addr + 7) % 2 ^ 32) % 256) (m ((addr + 6) % 2 ^ 32) % 256)
    (m ((addr + 5) % 2 ^ 32) % 256) (m ((addr + 4) % 2 ^ 32) % 256)
    (m ((addr + 3) % 2 ^ 32) % 256) (m ((addr + 2) % 2 ^ 32) % 256)
    (m ((addr + 1) % 2 ^ 32) % 256) (m (addr % 2 ^ 32) % 256)
    (Nat.mod_lt _ (by decide)) (Nat.mod_lt _ (by decide)) (Nat.mod_lt _ (by decide))
    (Nat.mod_lt _ (by decide)) (Nat.mod_lt _ (by decide)) (Nat.mod_lt _ (by decide))
    (Nat.mod_lt _ (by decide)) (Nat.mod_lt _ (by decide))
  simp only at h
  have hs : Memory.Read_U64 m addr = m ((addr + 7) % 2 ^ 32) % 256 +
      m ((addr + 6) % 2 ^ 32) % 256 * 256 + m ((addr + 5) % 2 ^ 32) % 256 * 256 ^ 2 +
      m ((addr + 4) % 2 ^ 32) % 256 * 256 ^ 3 + m ((addr + 3) % 2 ^ 32) % 256 * 256 ^ 4 +
      m ((addr + 2) % 2 ^ 32) % 256 * 256 ^ 5 + m ((addr + 1) % 2 ^ 32) % 256 * 256 ^ 6 +
      m (addr % 2 ^ 32) % 256 * 256 ^ 7 := by
    unfold Memory.Read_U64
    ring
  rw [hs]
  obtain ⟨h0, h1, h2, h3, h4, h5, h6, h7⟩ := h
  interval_cases j
  · exact h7
  · exact h6
  · exact h5
  · exact h4
  · exact h3
  · exact h2
  · exact h1
  · exact h0

/-- What `MRAM -> ARAM` stores: byte `j` of `swap64(Read_U64(addr))` is the byte at
`addr + j` of guest memory. -/
theorem byteAt_swap64_Read_U64 (m : Memory.GuestMemory) (addr j : Nat) (hj : j < 8) :
    Common.byteAt (Common.swap64 (Memory.Read_U64 m addr)) j = m ((addr + j) % 2 ^ 32) % 256 := by
  rw [byteAt_swap64 _ _ hj, byteAt_Read_U64 _ _ _ hj]

/-- `Write_U64_Swap(var, addr)` puts byte `j` of `var` at `addr + j`. -/
theorem Write_U64_Swap_byte (var addr j : Nat) (m : Memory.GuestMemory) (hj : j < 8) :
    Memory.Write_U64_Swap var addr m ((addr + j) % 2 ^ 32) = Common.byteAt var j := by
  have hd : ((addr + j) % 2 ^ 32 + 2 ^ 32 - addr % 2 ^ 32) % 2 ^ 32 = j := by omega
  simp only [Memory.Write_U64_Swap, Memory.Write_U64, hd]
  rw [if_pos ⟨Nat.mod_lt _ (by norm_num), hj⟩, byteAt_swap64 _ _ (by omega)]
  congr 1
  omega

/-- `Write_U64(0, addr)` puts zero at `addr + j`. -/
theorem Write_U64_zero_byte (addr j : Nat) (m : Memory.GuestMemory) (hj : j < 8) :
    Memory.Write_U64 0 addr m ((addr + j) % 2 ^ 32) = 0 := by
  have hd : ((addr + j) % 2 ^ 32 + 2 ^ 32 - addr % 2 ^ 32) % 2 ^ 32 = j := by omega
  simp only [Memory.Write_U64, hd]
  rw [if_pos ⟨Nat.mod_lt _ (by norm_num), hj⟩]
  simp [Common.byteAt]

/-! ## The transfer loop as an iteration of its body -/

/-- A loop whose body takes 8 off the count returns, with fuel `n` for a count of
`8 * n`, the `n`-fold iterate of its body. -/
theorem whileCount_iterate (body : DSPSystem → DSPSystem)
    (hbody : ∀ s, (body s).g_arDMA.Cnt.count = (s.g_arDMA.Cnt.count + 2 ^ 31 - 8) % 2 ^ 31) :
    ∀ (n : Nat) (s : DSPSystem), s.g_arDMA.Cnt.count = 8 * n →
      whileCount body n s = some (body^[n] s) := by
  intro n
  induction n with
  | zero =>
    intro s h
    simp only [whileCount, Function.iterate_zero, id_eq]
    rw [if_pos (by omega)]
  | succ n ih =>
    intro s h
    have hlt : s.g_arDMA.Cnt.count < 2 ^ 31 := Nat.mod_lt _ (by norm_num)
    simp only [whileCount, Function.iterate_succ_apply]
    rw [if_neg (by omega)]
    exact ih (body s) (by rw [hbody]; omega)

/-- Whatever the fuel, a loop that returns on a count of `8 * n` returns the
`n`-fold iterate of its body. -/
theorem whileCount_of_some (body : DSPSystem → DSPSystem)
    (hbody : ∀ s, (body s).g_arDMA.Cnt.count = (s.g_arDMA.Cnt.count + 2 ^ 31 - 8) % 2 ^ 31) :
    ∀ (fuel n : Nat) (s s' : DSPSystem), s.g_arDMA.Cnt.count = 8 * n →
      whileCount body fuel s = some s' → s' = body^[n] s := by
  intro fuel
  induction fuel with
  | zero =>
    intro n s s' hc h
    simp only [whileCount] at h
    split_ifs at h with h0
    cases h
    obtain rfl : n = 0 := by omega
    rfl
  | succ fuel ih =>
    intro n s s' hc h
    have hlt : s.g_arDMA.Cnt.count < 2 ^ 31 := Nat.mod_lt _ (by norm_num)
    simp only [whileCount] at h
    split_ifs at h with h0
    · cases h
      obtain rfl : n = 0 := by omega
      rfl
    · obtain ⟨m, rfl⟩ : ∃ m, n = m + 1 := ⟨n - 1, by omega⟩
      rw [Function.iterate_succ_apply]
      exact ih m (body s) s' (by rw [hbody]; omega) h

/-- The DMA registers after `k` rounds of a body that ends with the three advancing
statements: both addresses up by `8 * k` (as `u32`), the count down by `8 * k`,
the direction bit as it was. -/
theorem iterate_g_arDMA (body : DSPSystem → DSPSystem)
    (hbody : ∀ t, (body t).g_arDMA = (advance8 t).g_arDMA)
    (s : DSPSystem) (n : Nat) (hc : s.g_arDMA.Cnt.count = 8 * n)
    (hM : s.g_arDMA.MMAddr < 2 ^ 32) (hA : s.g_arDMA.ARAddr < 2 ^ 32) :
    ∀ k, k ≤ n →
      (body^[k] s).g_arDMA.MMAddr = (s.g_arDMA.MMAddr + 8 * k) % 2 ^ 32 ∧
      (body^[k] s).g_arDMA.ARAddr = (s.g_arDMA.ARAddr + 8 * k) % 2 ^ 32 ∧
      (body^[k] s).g_arDMA.Cnt.count = 8 * (n - k) ∧
      (body^[k] s).g_arDMA.Cnt.dir = s.g_arDMA.Cnt.dir := by
  have hlt : s.g_arDMA.Cnt.count < 2 ^ 31 := Nat.mod_lt _ (by norm_num)
  intro k
  induction k with
  | zero =>
    intro _
    simp only [Function.iterate_zero, id_eq, Nat.mul_zero, Nat.add_zero, Nat.sub_zero]
    exact ⟨(Nat.mod_eq_of_lt hM).symm, (Nat.mod_eq_of_lt hA).symm, hc, trivial⟩
  | succ k ih =>
    intro hk
    obtain ⟨h1, h2, h3, h4⟩ := ih (by omega)
    rw [Function.iterate_succ_apply', hbody]
    refine ⟨?_, ?_, ?_, ?_⟩
    · show ((body^[k] s).g_arDMA.MMAddr + 8) % 2 ^ 32 = _
      rw [h1]
      omega
    · show ((body^[k] s).g_arDMA.ARAddr + 8) % 2 ^ 32 = _
      rw [h2]
      omega
    · show ((body^[k] s).g_arDMA.Cnt.setCount _).count = _
      rw [setCount_count, h3]
      omega
    · show ((body^[k] s).g_arDMA.Cnt.setCount _).dir = _
      rw [setCount_dir, h4]

theorem advance8_g_arDMA_congr (t1 t2 : DSPSystem) (h : t1.g_arDMA = t2.g_arDMA) :
    (advance8 t1).g_arDMA = (advance8 t2).g_arDMA := by
  unfold advance8
  simp only [h]

theorem ARAM_to_MRAM_body_g_arDMA (t : DSPSystem) :
    (ARAM_to_MRAM_body t).g_arDMA = (advance8 t).g_arDMA := by
  unfold ARAM_to_MRAM_body
  apply advance8_g_arDMA_congr
  simp only [call_Write_U64_Swap, DSPSystem.emit, ite_self]

theorem ARAM_to_MRAM_zero_body_g_arDMA (t : DSPSystem) :
    (ARAM_to_MRAM_zero_body t).g_arDMA = (advance8 t).g_arDMA := by
  unfold ARAM_to_MRAM_zero_body
  apply advance8_g_arDMA_congr
  simp only [call_Write_U64, DSPSystem.emit]

theorem MRAM_to_ARAM_body_g_arDMA (t : DSPSystem) :
    (MRAM_to_ARAM_body t).g_arDMA = (advance8 t).g_arDMA := by
  unfold MRAM_to_ARAM_body
  apply advance8_g_arDMA_congr
  simp only []
  split_ifs <;> simp only []

/-! ## The three loops, round by round -/

/-- One round of "ARAM -> MRAM" in bounds: one `Write_U64_Swap` call of the
host-order value at `ARAddr & mask`, to `MMAddr`; ARAM and the control register
are left alone. -/
theorem ARAM_to_MRAM_body_effect (t : DSPSystem) :
    (ARAM_to_MRAM_body t).g_ARAM = t.g_ARAM ∧
    (ARAM_to_MRAM_body t).g_dspState = t.g_dspState ∧
    (ARAM_to_MRAM_body t).trace = t.trace ++
      [Event.Write_U64_Swap (t.g_ARAM.load_u64 (t.g_arDMA.ARAddr &&& t.g_ARAM.mask))
        t.g_arDMA.MMAddr] := by
  unfold ARAM_to_MRAM_body
  simp only [call_Write_U64_Swap, DSPSystem.emit, advance8, ite_self, and_self]

/-- One round of "ARAM -> MRAM" out of bounds: one `Write_U64(0, MMAddr)` call. -/
theorem ARAM_to_MRAM_zero_body_effect (t : DSPSystem) :
    (ARAM_to_MRAM_zero_body t).g_ARAM = t.g_ARAM ∧
    (ARAM_to_MRAM_zero_body t).g_dspState = t.g_dspState ∧
    (ARAM_to_MRAM_zero_body t).trace = t.trace ++ [Event.Write_U64 0 t.g_arDMA.MMAddr] := by
  unfold ARAM_to_MRAM_zero_body
  simp only [call_Write_U64, DSPSystem.emit, advance8, and_self]

/-- After `k` rounds of "ARAM -> MRAM" in bounds: `k` calls, the `i`-th of the
granule at `(ARAddr + 8 i) & mask` to `MMAddr + 8 i`. -/
theorem ARAM_to_MRAM_iterate (s : DSPSystem) (n : Nat) (hc : s.g_arDMA.Cnt.count = 8 * n)
    (hM : s.g_arDMA.MMAddr + 8 * n < 2 ^ 32) (hA : s.g_arDMA.ARAddr + 8 * n < 2 ^ 32) :
    ∀ k, k ≤ n →
      (ARAM_to_MRAM_body^[k] s).g_ARAM = s.g_ARAM ∧
      (ARAM_to_MRAM_body^[k] s).g_dspState = s.g_dspState ∧
      (ARAM_to_MRAM_body^[k] s).trace = s.trace ++ (List.range k).map (fun i =>
        Event.Write_U64_Swap
          (s.g_ARAM.load_u64 ((s.g_arDMA.ARAddr + 8 * i) &&& s.g_ARAM.mask))
          (s.g_arDMA.MMAddr + 8 * i)) := by
  intro k
  induction k with
  | zero =>
    intro _
    simp only [Function.iterate_zero, id_eq, List.range_zero, List.map_nil, List.append_nil,
      and_self]
  | succ k ih =>
    intro hk
    obtain ⟨h1, h2, h3⟩ := ih (by omega)
    obtain ⟨a1, a2, _, _⟩ := iterate_g_arDMA ARAM_to_MRAM_body ARAM_to_MRAM_body_g_arDMA s n hc
      (by omega) (by omega) k (by omega)
    obtain ⟨e1, e2, e3⟩ := ARAM_to_MRAM_body_effect (ARAM_to_MRAM_body^[k] s)
    rw [Function.iterate_succ_apply', e1, e2, e3, h1, h2, h3, a1, a2,
      Nat.mod_eq_of_lt (by omega), Nat.mod_eq_of_lt (by omega), List.range_succ, List.map_append,
      List.append_assoc]
    exact ⟨rfl, rfl, rfl⟩

/-- After `k` rounds of "ARAM -> MRAM" out of bounds: `k` calls `Write_U64(0, .)`,
the `i`-th to `MMAddr + 8 i`. -/
theorem ARAM_to_MRAM_zero_iterate (s : DSPSystem) (n : Nat)
    (hc : s.g_arDMA.Cnt.count = 8 * n)
    (hM : s.g_arDMA.MMAddr + 8 * n < 2 ^ 32) (hA : s.g_arDMA.ARAddr + 8 * n < 2 ^ 32) :
    ∀ k, k ≤ n →
      (ARAM_to_MRAM_zero_body^[k] s).g_ARAM = s.g_ARAM ∧
      (ARAM_to_MRAM_zero_body^[k] s).g_dspState = s.g_dspState ∧
      (ARAM_to_MRAM_zero_body^[k] s).trace = s.trace ++ (List.range k).map (fun i =>
        Event.Write_U64 0 (s.g_arDMA.MMAddr + 8 * i)) := by
  intro k
  induction k with
  | zero =>
    intro _
    simp only [Function.iterate_zero, id_eq, List.range_zero, List.map_nil, List.append_nil,
      and_self]
  | succ k ih =>
    intro hk
    obtain ⟨h1, h2, h3⟩ := ih (by omega)
    obtain ⟨a1, _, _, _⟩ := iterate_g_arDMA ARAM_to_MRAM_zero_body
      ARAM_to_MRAM_zero_body_g_arDMA s n hc (by omega) (by omega) k (by omega)
    obtain ⟨e1, e2, e3⟩ := ARAM_to_MRAM_zero_body_effect (ARAM_to_MRAM_zero_body^[k] s)
    rw [Function.iterate_succ_apply', e1, e2, e3, h1, h2, h3, a1,
      Nat.mod_eq_of_lt (by omega), List.range_succ, List.map_append, List.append_assoc]
    exact ⟨rfl, rfl, rfl⟩

/-- A store changes the content of the ARAM buffer only. -/
theorem store_u64_frame (a : ARAMInfo) (off v : Nat) :
    (a.store_u64 off v).size = a.size ∧ (a.store_u64 off v).mask = a.mask ∧
    (a.store_u64 off v).wii_mode = a.wii_mode :=
  ⟨rfl, rfl, rfl⟩

theorem store_u64_mask (a : ARAMInfo) (off v : Nat) : (a.store_u64 off v).mask = a.mask := rfl

theorem advance8_ram (t : DSPSystem) : (advance8 t).ram = t.ram := rfl

theorem advance8_trace (t : DSPSystem) : (advance8 t).trace = t.trace := rfl

theorem advance8_g_dspState (t : DSPSystem) : (advance8 t).g_dspState = t.g_dspState := rfl

theorem advance8_g_ARAM_Info (t : DSPSystem) : (advance8 t).g_ARAM_Info = t.g_ARAM_Info := rfl

theorem advance8_g_ARAM (t : DSPSystem) : (advance8 t).g_ARAM = t.g_ARAM := rfl

theorem MRAM_to_ARAM_body_ram (t : DSPSystem) : (MRAM_to_ARAM_body t).ram = t.ram := by
  unfold MRAM_to_ARAM_body
  simp only [advance8_ram]
  split_ifs <;> rfl

theorem MRAM_to_ARAM_body_trace (t : DSPSystem) : (MRAM_to_ARAM_body t).trace = t.trace := by
  unfold MRAM_to_ARAM_body
  simp only [advance8_trace]
  split_ifs <;> rfl

theorem MRAM_to_ARAM_body_g_dspState (t : DSPSystem) :
    (MRAM_to_ARAM_body t).g_dspState = t.g_dspState := by
  unfold MRAM_to_ARAM_body
  simp only [advance8_g_dspState]
  split_ifs <;> rfl

theorem MRAM_to_ARAM_body_g_ARAM_Info (t : DSPSystem) :
    (MRAM_to_ARAM_body t).g_ARAM_Info = t.g_ARAM_Info := by
  unfold MRAM_to_ARAM_body
  simp only [advance8_g_ARAM_Info]
  split_ifs <;> rfl

/-- One round of "MRAM -> ARAM" when `g_ARAM_Info.Hex & 0xf` is not 4: one store of
`swap64(Read_U64(MMAddr))` at `ARAddr & mask`. -/
theorem MRAM_to_ARAM_body_store (t : DSPSystem) (h4 : t.g_ARAM_Info &&& 0xf ≠ 4) :
    (MRAM_to_ARAM_body t).g_ARAM =
      t.g_ARAM.store_u64 (t.g_arDMA.ARAddr &&& t.g_ARAM.mask)
        (Common.swap64 (Memory.Read_U64 t.ram t.g_arDMA.MMAddr)) := by
  unfold MRAM_to_ARAM_body
  simp only [advance8_g_ARAM, if_neg h4, ite_self]

/-- One round of "MRAM -> ARAM" when `g_ARAM_Info.Hex & 0xf` is 4: the granule is
stored at `ARAddr & mask`, after a first store at `(ARAddr + 0x400000) & mask`
when `ARAddr < 0x400000`. -/
theorem MRAM_to_ARAM_body_store_mode4 (t : DSPSystem) (h4 : t.g_ARAM_Info &&& 0xf = 4) :
    (MRAM_to_ARAM_body t).g_ARAM =
      (if t.g_arDMA.ARAddr < 0x400000 then
          t.g_ARAM.store_u64 (((t.g_arDMA.ARAddr + 0x400000) % 2 ^ 32) &&& t.g_ARAM.mask)
            (Common.swap64 (Memory.Read_U64 t.ram t.g_arDMA.MMAddr))
        else t.g_ARAM).store_u64 (t.g_arDMA.ARAddr &&& t.g_ARAM.mask)
        (Common.swap64 (Memory.Read_U64 t.ram t.g_arDMA.MMAddr)) := by
  unfold MRAM_to_ARAM_body
  have h3 : ¬ t.g_ARAM_Info &&& 0xf = 3 := by omega
  by_cases hlt : t.g_arDMA.ARAddr < 0x400000
  · simp only [advance8_g_ARAM, if_neg h3, if_pos h4, if_pos hlt]
    rw [store_u64_mask]
  · simp only [advance8_g_ARAM, if_neg h3, if_pos h4, if_neg hlt]

/-- After `k` rounds of "MRAM -> ARAM" in a mode other than 4, the transfer staying
inside the ARAM buffer (`mask = size - 1`, `size` a power of two): the ARAM bytes
at `ARAddr .. ARAddr + 8 k` are the guest-memory bytes at `MMAddr ..`, in the
same order; every other ARAM byte is as before; no call is made and guest memory
is as before. -/
theorem MRAM_to_ARAM_iterate (s : DSPSystem) (n e : Nat) (hc : s.g_arDMA.Cnt.count = 8 * n)
    (h4 : s.g_ARAM_Info &&& 0xf ≠ 4)
    (hsize : s.g_ARAM.size = 2 ^ e) (hmask : s.g_ARAM.mask = 2 ^ e - 1)
    (hM : s.g_arDMA.MMAddr + 8 * n < 2 ^ 32) (hA : s.g_arDMA.ARAddr + 8 * n < 2 ^ 32)
    (hin : s.g_arDMA.ARAddr + 8 * n ≤ s.g_ARAM.size) :
    ∀ k, k ≤ n →
      (MRAM_to_ARAM_body^[k] s).ram = s.ram ∧
      (MRAM_to_ARAM_body^[k] s).trace = s.trace ∧
      (MRAM_to_ARAM_body^[k] s).g_dspState = s.g_dspState ∧
      (MRAM_to_ARAM_body^[k] s).g_ARAM_Info = s.g_ARAM_Info ∧
      (MRAM_to_ARAM_body^[k] s).g_ARAM.size = s.g_ARAM.size ∧
      (MRAM_to_ARAM_body^[k] s).g_ARAM.mask = s.g_ARAM.mask ∧
      (MRAM_to_ARAM_body^[k] s).g_ARAM.wii_mode = s.g_ARAM.wii_mode ∧
      ∀ x, (MRAM_to_ARAM_body^[k] s).g_ARAM.ptr x =
        if s.g_arDMA.ARAddr ≤ x ∧ x < s.g_arDMA.ARAddr + 8 * k then
          s.ram (s.g_arDMA.MMAddr + (x - s.g_arDMA.ARAddr)) % 256
        else s.g_ARAM.ptr x := by
  intro k
  induction k with
  | zero =>
    intro _
    refine ⟨rfl, rfl, rfl, rfl, rfl, rfl, rfl, fun x => ?_⟩
    rw [if_neg (by omega)]
    rfl
  | succ k ih =>
    intro hk
    obtain ⟨h1, h2, h3, h5, h6, h7, h8, h9⟩ := ih (by omega)
    obtain ⟨a1, a2, _, _⟩ := iterate_g_arDMA MRAM_to_ARAM_body MRAM_to_ARAM_body_g_arDMA s n hc
      (by omega) (by omega) k (by omega)
    have hst := MRAM_to_ARAM_body_store (MRAM_to_ARAM_body^[k] s) (by rw [h5]; exact h4)
    obtain ⟨g1, g2, g3⟩ := store_u64_frame (MRAM_to_ARAM_body^[k] s).g_ARAM
      ((MRAM_to_ARAM_body^[k] s).g_arDMA.ARAddr &&& (MRAM_to_ARAM_body^[k] s).g_ARAM.mask)
      (Common.swap64 (Memory.Read_U64 (MRAM_to_ARAM_body^[k] s).ram
        (MRAM_to_ARAM_body^[k] s).g_arDMA.MMAddr))
    rw [Function.iterate_succ_apply']
    refine ⟨(MRAM_to_ARAM_body_ram _).trans h1, (MRAM_to_ARAM_body_trace _).trans h2,
      (MRAM_to_ARAM_body_g_dspState _).trans h3, (MRAM_to_ARAM_body_g_ARAM_Info _).trans h5,
      ?_, ?_, ?_, fun x => ?_⟩
    · rw [hst, g1, h6]
    · rw [hst, g2, h7]
    · rw [hst, g3, h8]
    · have hoff : (s.g_arDMA.ARAddr + 8 * k) &&& (2 ^ e - 1) = s.g_arDMA.ARAddr + 8 * k :=
        Nat.and_pow_two_sub_one_of_lt_two_pow (by rw [← hsize]; omega)
      have hMk : (s.g_arDMA.MMAddr + 8 * k) % 2 ^ 32 = s.g_arDMA.MMAddr + 8 * k :=
        Nat.mod_eq_of_lt (by omega)
      have hAk : (s.g_arDMA.ARAddr + 8 * k) % 2 ^ 32 = s.g_arDMA.ARAddr + 8 * k :=
        Nat.mod_eq_of_lt (by omega)
      rw [hst, h1, a1, a2, h7, hmask, hMk, hAk, hoff]
      show (if s.g_arDMA.ARAddr + 8 * k ≤ x ∧ x < s.g_arDMA.ARAddr + 8 * k + 8 then
          Common.byteAt (Common.swap64 (Memory.Read_U64 s.ram (s.g_arDMA.MMAddr + 8 * k)))
            (x - (s.g_arDMA.ARAddr + 8 * k))
        else (MRAM_to_ARAM_body^[k] s).g_ARAM.ptr x) = _
      by_cases hx : s.g_arDMA.ARAddr + 8 * k ≤ x ∧ x < s.g_arDMA.ARAddr + 8 * k + 8
      · rw [if_pos hx, if_pos (by omega), byteAt_swap64_Read_U64 _ _ _ (by omega)]
        congr 2
        omega
      · rw [if_neg hx, h9 x]
        by_cases hy : s.g_arDMA.ARAddr ≤ x ∧ x < s.g_arDMA.ARAddr + 8 * k
        · rw [if_pos hy, if_pos (by omega)]
        · rw [if_neg hy, if_neg (by omega)]

/-! ## `Do_ARAM_DMA`, path by path -/

theorem and_0x3ffffff_lt (x : Nat) : x &&& 0x3ffffff < 2 ^ 26 := by
  rw [show (0x3ffffff : Nat) = 2 ^ 26 - 1 from rfl, Nat.and_pow_two_sub_one_eq_mod]
  exact Nat.mod_lt _ (by norm_num)

theorem count_lt (c : UARAMCount) : c.count < 2 ^ 31 :=
  Nat.mod_lt _ (by norm_num)

theorem GenerateDSPInterrupt_frame (type : Nat) (set : Bool) (s : DSPSystem) :
    (GenerateDSPInterrupt type set s).g_ARAM = s.g_ARAM ∧
    (GenerateDSPInterrupt type set s).ram = s.ram ∧
    (GenerateDSPInterrupt type set s).g_ARAM_Info = s.g_ARAM_Info := by
  unfold GenerateDSPInterrupt
  simp only [UpdateInterrupts_eq, DSPSystem.emit]
  split_ifs <;> exact ⟨rfl, rfl, rfl⟩

/-- The interrupt policy of `Do_ARAM_DMA` leaves the ARAM buffer, guest memory and
`g_ARAM_Info` alone. -/
theorem Do_ARAM_DMA_interrupt_frame_mem (s : DSPSystem) :
    (Do_ARAM_DMA_interrupt s).g_ARAM = s.g_ARAM ∧
    (Do_ARAM_DMA_interrupt s).ram = s.ram ∧
    (Do_ARAM_DMA_interrupt s).g_ARAM_Info = s.g_ARAM_Info := by
  obtain ⟨h1, h2, h3⟩ := GenerateDSPInterrupt_frame INT_ARAM true s
  unfold Do_ARAM_DMA_interrupt
  simp only [DSPSystem.emit]
  split_ifs
  · exact ⟨h1, h2, h3⟩
  · exact ⟨rfl, rfl, rfl⟩
  · exact ⟨rfl, rfl, rfl⟩

/-- Path "ARAM -> MRAM, in bounds": the transfer is the `n`-fold iterate of the
loop body on the state with masked addresses, for every sufficient fuel. -/
theorem transfer_aram_to_mram_in (s1 : DSPSystem) (n : Nat)
    (hc : s1.g_arDMA.Cnt.count = 8 * n) (hdir : s1.g_arDMA.Cnt.dir = 1)
    (hA : s1.g_arDMA.ARAddr &&& 0x3ffffff < s1.g_ARAM.size) :
    Do_ARAM_DMA_transfer n s1 = some (ARAM_to_MRAM_body^[n] (maskAddresses s1)) ∧
    ∀ fuel s'', Do_ARAM_DMA_transfer fuel s1 = some s'' →
      s'' = ARAM_to_MRAM_body^[n] (maskAddresses s1) := by
  have hd : s1.g_arDMA.Cnt.dir ≠ 0 := by omega
  have hA2 : (maskAddresses s1).g_arDMA.ARAddr < (maskAddresses s1).g_ARAM.size := hA
  unfold Do_ARAM_DMA_transfer
  simp only [if_pos hd, if_pos hA2]
  exact ⟨whileCount_iterate _ ARAM_to_MRAM_body_count n _ hc,
    fun fuel s'' h => whileCount_of_some _ ARAM_to_MRAM_body_count fuel n _ s'' hc h⟩

/-- Path "ARAM -> MRAM, out of bounds". -/
theorem transfer_aram_to_mram_out (s1 : DSPSystem) (n : Nat)
    (hc : s1.g_arDMA.Cnt.count = 8 * n) (hdir : s1.g_arDMA.Cnt.dir = 1)
    (hA : ¬ s1.g_arDMA.ARAddr &&& 0x3ffffff < s1.g_ARAM.size) :
    Do_ARAM_DMA_transfer n s1 = some (ARAM_to_MRAM_zero_body^[n] (maskAddresses s1)) ∧
    ∀ fuel s'', Do_ARAM_DMA_transfer fuel s1 = some s'' →
      s'' = ARAM_to_MRAM_zero_body^[n] (maskAddresses s1) := by
  have hd : s1.g_arDMA.Cnt.dir ≠ 0 := by omega
  have hA2 : ¬ (maskAddresses s1).g_arDMA.ARAddr < (maskAddresses s1).g_ARAM.size := hA
  unfold Do_ARAM_DMA_transfer
  simp only [if_pos hd, if_neg hA2]
  exact ⟨whileCount_iterate _ ARAM_to_MRAM_zero_body_count n _ hc,
    fun fuel s'' h => whileCount_of_some _ ARAM_to_MRAM_zero_body_count fuel n _ s'' hc h⟩

/-- Path "MRAM -> ARAM, in bounds". -/
theorem transfer_mram_to_aram_in (s1 : DSPSystem) (n : Nat)
    (hc : s1.g_arDMA.Cnt.count = 8 * n) (hdir : s1.g_arDMA.Cnt.dir = 0)
    (hA : s1.g_arDMA.ARAddr &&& 0x3ffffff < s1.g_ARAM.size) :
    Do_ARAM_DMA_transfer n s1 = some (MRAM_to_ARAM_body^[n] (maskAddresses s1)) ∧
    ∀ fuel s'', Do_ARAM_DMA_transfer fuel s1 = some s'' →
      s'' = MRAM_to_ARAM_body^[n] (maskAddresses s1) := by
  have hd : ¬ s1.g_arDMA.Cnt.dir ≠ 0 := by omega
  have hA2 : (maskAddresses s1).g_arDMA.ARAddr < (maskAddresses s1).g_ARAM.size := hA
  unfold Do_ARAM_DMA_transfer
  simp only [if_neg hd, if_pos hA2]
  exact ⟨whileCount_iterate _ MRAM_to_ARAM_body_count n _ hc,
    fun fuel s'' h => whileCount_of_some _ MRAM_to_ARAM_body_count fuel n _ s'' hc h⟩

/-- Path "MRAM -> ARAM, out of bounds": no loop; the addresses advance by the count
and the count is cleared, for every fuel and every count. -/
theorem transfer_mram_to_aram_out (s1 : DSPSystem) (fuel : Nat)
    (hdir : s1.g_arDMA.Cnt.dir = 0)
    (hA : ¬ s1.g_arDMA.ARAddr &&& 0x3ffffff < s1.g_ARAM.size) :
    Do_ARAM_DMA_transfer fuel s1 = some
      { maskAddresses s1 with g_arDMA :=
        { MMAddr := ((s1.g_arDMA.MMAddr &&& 0x3ffffff) + s1.g_arDMA.Cnt.count) % 2 ^ 32
          ARAddr := ((s1.g_arDMA.ARAddr &&& 0x3ffffff) + s1.g_arDMA.Cnt.count) % 2 ^ 32
          Cnt := s1.g_arDMA.Cnt.setCount 0 } } := by
  have hd : ¬ s1.g_arDMA.Cnt.dir ≠ 0 := by omega
  have hA2 : ¬ (maskAddresses s1).g_arDMA.ARAddr < (maskAddresses s1).g_ARAM.size := hA
  unfold Do_ARAM_DMA_transfer
  simp only [if_neg hd, if_neg hA2]
  rfl

/-! ## C17: ARAM -> MRAM, in bounds -/

/-- C17. For every count `c = 8 n` and every trigger state with direction bit 1
and `A0 = ARAddr & 0x3ffffff` below the ARAM size, with `M0 = MMAddr & 0x3ffffff`
and whatever `g_ARAM_Info` holds: `Do_ARAM_DMA` returns (with fuel `n`, and with
the same result for every fuel it returns with); after the calls of the interrupt
policy it makes exactly `n` calls, the `i`-th being `Write_U64_Swap` of the
host-order 64-bit value at offset `(A0 + 8 i) & mask` of the ARAM buffer to the
address `M0 + 8 i`, which puts byte `j` of that granule at address `M0 + 8 i + j`;
the ARAM buffer is unchanged; at the end `MMAddr = M0 + c`, `ARAddr = A0 + c`,
`count = 0` and the direction bit is as it was. -/
theorem Do_ARAM_DMA_aram_to_mram_in_bounds (s : DSPSystem) (n : Nat)
    (hc : s.g_arDMA.Cnt.count = 8 * n) (hdir : s.g_arDMA.Cnt.dir = 1)
    (hA : s.g_arDMA.ARAddr &&& 0x3ffffff < s.g_ARAM.size) :
    ∃ s', Do_ARAM_DMA n s = some s' ∧
      (∀ fuel s'', Do_ARAM_DMA fuel s = some s'' → s'' = s') ∧
      s'.trace = (Do_ARAM_DMA_interrupt s).trace ++ (List.range n).map (fun i =>
        Event.Write_U64_Swap
          (s.g_ARAM.load_u64 (((s.g_arDMA.ARAddr &&& 0x3ffffff) + 8 * i) &&& s.g_ARAM.mask))
          ((s.g_arDMA.MMAddr &&& 0x3ffffff) + 8 * i)) ∧
      (∀ (off addr j : Nat) (m : Memory.GuestMemory), j < 8 →
        Memory.Write_U64_Swap (s.g_ARAM.load_u64 off) addr m ((addr + j) % 2 ^ 32) =
          s.g_ARAM.ptr (off + j) % 256) ∧
      s'.g_ARAM = s.g_ARAM ∧
      s'.g_arDMA.MMAddr = (s.g_arDMA.MMAddr &&& 0x3ffffff) + 8 * n ∧
      s'.g_arDMA.ARAddr = (s.g_arDMA.ARAddr &&& 0x3ffffff) + 8 * n ∧
      s'.g_arDMA.Cnt.count = 0 ∧ s'.g_arDMA.Cnt.dir = 1 := by
  obtain ⟨_, hfr⟩ := Do_ARAM_DMA_interrupt_frame s
  obtain ⟨hg, _, _⟩ := Do_ARAM_DMA_interrupt_frame_mem s
  have hc1 : (Do_ARAM_DMA_interrupt s).g_arDMA.Cnt.count = 8 * n := by rw [hfr]; exact hc
  have hlt := count_lt s.g_arDMA.Cnt
  have hMlt := and_0x3ffffff_lt s.g_arDMA.MMAddr
  have hAlt := and_0x3ffffff_lt s.g_arDMA.ARAddr
  obtain ⟨ht1, ht2⟩ := transfer_aram_to_mram_in (Do_ARAM_DMA_interrupt s) n hc1
    (by rw [hfr]; exact hdir) (by rw [hfr, hg]; exact hA)
  have hM2 : (maskAddresses (Do_ARAM_DMA_interrupt s)).g_arDMA.MMAddr =
      s.g_arDMA.MMAddr &&& 0x3ffffff := by
    show (Do_ARAM_DMA_interrupt s).g_arDMA.MMAddr &&& 0x3ffffff = _
    rw [hfr]
  have hA2 : (maskAddresses (Do_ARAM_DMA_interrupt s)).g_arDMA.ARAddr =
      s.g_arDMA.ARAddr &&& 0x3ffffff := by
    show (Do_ARAM_DMA_interrupt s).g_arDMA.ARAddr &&& 0x3ffffff = _
    rw [hfr]
  have hC2 : (maskAddresses (Do_ARAM_DMA_interrupt s)).g_arDMA.Cnt = s.g_arDMA.Cnt := by
    show (Do_ARAM_DMA_interrupt s).g_arDMA.Cnt = _
    rw [hfr]
  have hG2 : (maskAddresses (Do_ARAM_DMA_interrupt s)).g_ARAM = s.g_ARAM := hg
  obtain ⟨i1, _, i3⟩ := ARAM_to_MRAM_iterate (maskAddresses (Do_ARAM_DMA_interrupt s)) n
    (by rw [hC2]; exact hc) (by rw [hM2]; omega) (by rw [hA2]; omega) n (le_refl n)
  obtain ⟨r1, r2, r3, r4⟩ := iterate_g_arDMA ARAM_to_MRAM_body ARAM_to_MRAM_body_g_arDMA
    (maskAddresses (Do_ARAM_DMA_interrupt s)) n (by rw [hC2]; exact hc)
    (by rw [hM2]; omega) (by rw [hA2]; omega) n (le_refl n)
  refine ⟨_, ht1, ht2, ?_, ?_, i1.trans hG2, ?_, ?_, ?_, ?_⟩
  · rw [i3, hM2, hA2, hG2]
    rfl
  · intro off addr j m hj
    rw [Write_U64_Swap_byte _ _ _ _ hj, byteAt_load_u64 _ _ _ hj]
  · rw [r1, hM2]
    exact Nat.mod_eq_of_lt (by omega)
  · rw [r2, hA2]
    exact Nat.mod_eq_of_lt (by omega)
  · rw [r3]
    omega
  · rw [r4, hC2]
    exact hdir

/-- Witness for C17: `c = 64` from ARAM offset `0x20` to main memory `0x100`, in
the GameCube initial state: 8 granules, both addresses advanced by 64. -/
theorem Do_ARAM_DMA_aram_to_mram_in_bounds_witness :
    ∃ s', Do_ARAM_DMA 8
        { Init false false (fun i => i % 251) (fun _ => 0) with
          g_arDMA := { MMAddr := 0x100, ARAddr := 0x20, Cnt := ⟨0x80000040⟩ } } = some s' ∧
      s'.g_arDMA.MMAddr = 0x100 + 64 ∧ s'.g_arDMA.ARAddr = 0x20 + 64 ∧
      s'.g_arDMA.Cnt.count = 0 := by
  obtain ⟨s', h1, _, _, _, _, h6, h7, h8, _⟩ := Do_ARAM_DMA_aram_to_mram_in_bounds
    { Init false false (fun i => i % 251) (fun _ => 0) with
      g_arDMA := { MMAddr := 0x100, ARAddr := 0x20, Cnt := ⟨0x80000040⟩ } } 8
    (by decide) (by decide) (by decide)
  exact ⟨s', h1, h6, h7, h8⟩

/-! ## C18: ARAM -> MRAM, out of bounds -/

/-- C18. For every count `c = 8 n` and every trigger state with direction bit 1
whose masked auxiliary address `A0 = ARAddr & 0x3ffffff` is at or beyond the ARAM
size, with `M0 = MMAddr & 0x3ffffff`: `Do_ARAM_DMA` returns (with fuel `n`, and
with the same result for every fuel it returns with); after the calls of the
interrupt policy it makes exactly `n` calls, the `i`-th being
`Write_U64(0, M0 + 8 i)`, which puts zero at the eight addresses from `M0 + 8 i`:
`c` bytes of zero; no value read from the ARAM buffer enters a call and the ARAM
buffer is unchanged; at the end `MMAddr = M0 + c`, `ARAddr = A0 + c` and
`count = 0`. -/
theorem Do_ARAM_DMA_aram_to_mram_out_of_bounds (s : DSPSystem) (n : Nat)
    (hc : s.g_arDMA.Cnt.count = 8 * n) (hdir : s.g_arDMA.Cnt.dir = 1)
    (hA : s.g_ARAM.size ≤ s.g_arDMA.ARAddr &&& 0x3ffffff) :
    ∃ s', Do_ARAM_DMA n s = some s' ∧
      (∀ fuel s'', Do_ARAM_DMA fuel s = some s'' → s'' = s') ∧
      s'.trace = (Do_ARAM_DMA_interrupt s).trace ++ (List.range n).map (fun i =>
        Event.Write_U64 0 ((s.g_arDMA.MMAddr &&& 0x3ffffff) + 8 * i)) ∧
      (∀ (addr j : Nat) (m : Memory.GuestMemory), j < 8 →
        Memory.Write_U64 0 addr m ((addr + j) % 2 ^ 32) = 0) ∧
      s'.g_ARAM = s.g_ARAM ∧
      s'.g_arDMA.MMAddr = (s.g_arDMA.MMAddr &&& 0x3ffffff) + 8 * n ∧
      s'.g_arDMA.ARAddr = (s.g_arDMA.ARAddr &&& 0x3ffffff) + 8 * n ∧
      s'.g_arDMA.Cnt.count = 0 ∧ s'.g_arDMA.Cnt.dir = 1 := by
  obtain ⟨_, hfr⟩ := Do_ARAM_DMA_interrupt_frame s
  obtain ⟨hg, _, _⟩ := Do_ARAM_DMA_interrupt_frame_mem s
  have hc1 : (Do_ARAM_DMA_interrupt s).g_arDMA.Cnt.count = 8 * n := by rw [hfr]; exact hc
  have hlt := count_lt s.g_arDMA.Cnt
  have hMlt := and_0x3ffffff_lt s.g_arDMA.MMAddr
  have hAlt := and_0x3ffffff_lt s.g_arDMA.ARAddr
  obtain ⟨ht1, ht2⟩ := transfer_aram_to_mram_out (Do_ARAM_DMA_interrupt s) n hc1
    (by rw [hfr]; exact hdir) (by rw [hfr, hg]; omega)
  have hM2 : (maskAddresses (Do_ARAM_DMA_interrupt s)).g_arDMA.MMAddr =
      s.g_arDMA.MMAddr &&& 0x3ffffff := by
    show (Do_ARAM_DMA_interrupt s).g_arDMA.MMAddr &&& 0x3ffffff = _
    rw [hfr]
  have hA2 : (maskAddresses (Do_ARAM_DMA_interrupt s)).g_arDMA.ARAddr =
      s.g_arDMA.ARAddr &&& 0x3ffffff := by
    show (Do_ARAM_DMA_interrupt s).g_arDMA.ARAddr &&& 0x3ffffff = _
    rw [hfr]
  have hC2 : (maskAddresses (Do_ARAM_DMA_interrupt s)).g_arDMA.Cnt = s.g_arDMA.Cnt := by
    show (Do_ARAM_DMA_interrupt s).g_arDMA.Cnt = _
    rw [hfr]
  have hG2 : (maskAddresses (Do_ARAM_DMA_interrupt s)).g_ARAM = s.g_ARAM := hg
  obtain ⟨i1, _, i3⟩ := ARAM_to_MRAM_zero_iterate (maskAddresses (Do_ARAM_DMA_interrupt s)) n
    (by rw [hC2]; exact hc) (by rw [hM2]; omega) (by rw [hA2]; omega) n (le_refl n)
  obtain ⟨r1, r2, r3, r4⟩ := iterate_g_arDMA ARAM_to_MRAM_zero_body
    ARAM_to_MRAM_zero_body_g_arDMA
    (maskAddresses (Do_ARAM_DMA_interrupt s)) n (by rw [hC2]; exact hc)
    (by rw [hM2]; omega) (by rw [hA2]; omega) n (le_refl n)
  refine ⟨_, ht1, ht2, ?_, ?_, i1.trans hG2, ?_, ?_, ?_, ?_⟩
  · rw [i3, hM2]
    rfl
  · intro addr j m hj
    exact Write_U64_zero_byte _ _ _ hj
  · rw [r1, hM2]
    exact Nat.mod_eq_of_lt (by omega)
  · rw [r2, hA2]
    exact Nat.mod_eq_of_lt (by omega)
  · rw [r3]
    omega
  · rw [r4, hC2]
    exact hdir

/-- Witness for C18: `c = 64` from ARAM address `0x1000000` (the GameCube ARAM
size) to main memory `0x100`. -/
theorem Do_ARAM_DMA_aram_to_mram_out_of_bounds_witness :
    ∃ s', Do_ARAM_DMA 8
        { Init false false (fun i => i % 251) (fun _ => 7) with
          g_arDMA := { MMAddr := 0x100, ARAddr := 0x1000000, Cnt := ⟨0x80000040⟩ } } =
        some s' ∧
      s'.g_arDMA.MMAddr = 0x100 + 64 ∧ s'.g_arDMA.ARAddr = 0x1000000 + 64 ∧
      s'.g_arDMA.Cnt.count = 0 := by
  obtain ⟨s', h1, _, _, _, _, h6, h7, h8, _⟩ := Do_ARAM_DMA_aram_to_mram_out_of_bounds
    { Init false false (fun i => i % 251) (fun _ => 7) with
      g_arDMA := { MMAddr := 0x100, ARAddr := 0x1000000, Cnt := ⟨0x80000040⟩ } } 8
    (by decide) (by decide) (by decide)
  exact ⟨s', h1, h6, h7, h8⟩

/-! ## C20: MRAM -> ARAM, out of bounds -/

/-- C20. For every trigger state with direction bit 0 whose masked auxiliary
address `ARAddr & 0x3ffffff` is at or beyond the ARAM size, with `c` the count at
trigger time, and for every fuel: `Do_ARAM_DMA` returns; the ARAM buffer and
guest memory are unchanged and no call is made after those of the interrupt
policy; at the end `MMAddr = (MMAddr & 0x3ffffff) + c`,
`ARAddr = (ARAddr & 0x3ffffff) + c` and `count = 0`. -/
theorem Do_ARAM_DMA_mram_to_aram_out_of_bounds (s : DSPSystem) (fuel : Nat)
    (hdir : s.g_arDMA.Cnt.dir = 0)
    (hA : s.g_ARAM.size ≤ s.g_arDMA.ARAddr &&& 0x3ffffff) :
    ∃ s', Do_ARAM_DMA fuel s = some s' ∧
      s'.g_ARAM = s.g_ARAM ∧ s'.ram = s.ram ∧
      s'.trace = (Do_ARAM_DMA_interrupt s).trace ∧
      s'.g_arDMA.MMAddr = (s.g_arDMA.MMAddr &&& 0x3ffffff) + s.g_arDMA.Cnt.count ∧
      s'.g_arDMA.ARAddr = (s.g_arDMA.ARAddr &&& 0x3ffffff) + s.g_arDMA.Cnt.count ∧
      s'.g_arDMA.Cnt.count = 0 ∧ s'.g_arDMA.Cnt.dir = 0 := by
  obtain ⟨_, hfr⟩ := Do_ARAM_DMA_interrupt_frame s
  obtain ⟨hg, hr, _⟩ := Do_ARAM_DMA_interrupt_frame_mem s
  have hlt := count_lt s.g_arDMA.Cnt
  have hMlt := and_0x3ffffff_lt s.g_arDMA.MMAddr
  have hAlt := and_0x3ffffff_lt s.g_arDMA.ARAddr
  have ht := transfer_mram_to_aram_out (Do_ARAM_DMA_interrupt s) fuel
    (by rw [hfr]; exact hdir) (by rw [hfr, hg]; omega)
  refine ⟨_, ht, hg, hr, rfl, ?_, ?_, ?_, ?_⟩
  · show (((Do_ARAM_DMA_interrupt s).g_arDMA.MMAddr &&& 0x3ffffff) +
      (Do_ARAM_DMA_interrupt s).g_arDMA.Cnt.count) % 2 ^ 32 = _
    rw [hfr]
    exact Nat.mod_eq_of_lt (by omega)
  · show (((Do_ARAM_DMA_interrupt s).g_arDMA.ARAddr &&& 0x3ffffff) +
      (Do_ARAM_DMA_interrupt s).g_arDMA.Cnt.count) % 2 ^ 32 = _
    rw [hfr]
    exact Nat.mod_eq_of_lt (by omega)
  · show ((Do_ARAM_DMA_interrupt s).g_arDMA.Cnt.setCount 0).count = 0
    rw [setCount_count]
    rfl
  · show ((Do_ARAM_DMA_interrupt s).g_arDMA.Cnt.setCount 0).dir = 0
    rw [setCount_dir, hfr]
    exact hdir

/-- Witness for C20: a main-to-auxiliary transfer of `0x1234` bytes (not a
multiple of 8) to ARAM address `0x2000000`, beyond the 16 MiB of GameCube ARAM. -/
theorem Do_ARAM_DMA_mram_to_aram_out_of_bounds_witness :
    ∃ s', Do_ARAM_DMA 0
        { Init false false (fun i => i % 251) (fun _ => 7) with
          g_arDMA := { MMAddr := 0x100, ARAddr := 0x2000000, Cnt := ⟨0x1234⟩ } } = some s' ∧
      s'.g_arDMA.MMAddr = 0x100 + 0x1234 ∧ s'.g_arDMA.ARAddr = 0x2000000 + 0x1234 ∧
      s'.g_arDMA.Cnt.count = 0 := by
  obtain ⟨s', h1, _, _, _, h5, h6, h7, _⟩ := Do_ARAM_DMA_mram_to_aram_out_of_bounds
    { Init false false (fun i => i % 251) (fun _ => 7) with
      g_arDMA := { MMAddr := 0x100, ARAddr := 0x2000000, Cnt := ⟨0x1234⟩ } } 0
    (by decide) (by decide)
  exact ⟨s', h1, h5, h6, h7⟩

/-! ## C19: MRAM -> ARAM, in bounds -/

/-- An 8-aligned address masked into a buffer of at least 8 bytes is 8-aligned. -/
theorem and_mask_mod_8 (x e : Nat) (hx : x % 8 = 0) (he : 3 ≤ e) :
    (x &&& (2 ^ e - 1)) % 8 = 0 := by
  rw [Nat.and_pow_two_sub_one_eq_mod,
    Nat.mod_mod_of_dvd x (show 8 ∣ 2 ^ e from Nat.pow_dvd_pow 2 he)]
  exact hx

/-- One round of "MRAM -> ARAM" in mode 4 with `ARAddr < 0x400000`, on an 8-aligned
address: the granule read at `MMAddr` is in the ARAM buffer both at
`ARAddr & mask` and at `(ARAddr + 0x400000) & mask`. -/
theorem MRAM_to_ARAM_body_mode4_granule (t : DSPSystem) (e j : Nat)
    (h4 : t.g_ARAM_Info &&& 0xf = 4) (hlt : t.g_arDMA.ARAddr < 0x400000)
    (hal : t.g_arDMA.ARAddr % 8 = 0) (hmask : t.g_ARAM.mask = 2 ^ e - 1) (he : 3 ≤ e)
    (hj : j < 8) :
    (MRAM_to_ARAM_body t).g_ARAM.ptr ((t.g_arDMA.ARAddr &&& t.g_ARAM.mask) + j) =
      t.ram ((t.g_arDMA.MMAddr + j) % 2 ^ 32) % 256 ∧
    (MRAM_to_ARAM_body t).g_ARAM.ptr
        (((t.g_arDMA.ARAddr + 0x400000) &&& t.g_ARAM.mask) + j) =
      t.ram ((t.g_arDMA.MMAddr + j) % 2 ^ 32) % 256 := by
  have hp := and_mask_mod_8 t.g_arDMA.ARAddr e hal he
  have hm := and_mask_mod_8 (t.g_arDMA.ARAddr + 0x400000) e (by omega) he
  have hwrap : (t.g_arDMA.ARAddr + 0x400000) % 2 ^ 32 = t.g_arDMA.ARAddr + 0x400000 :=
    Nat.mod_eq_of_lt (by omega)
  rw [MRAM_to_ARAM_body_store_mode4 t h4, if_pos hlt, hwrap, hmask]
  generalize (t.g_arDMA.ARAddr + 0x400000) &&& (2 ^ e - 1) = m at hm ⊢
  generalize t.g_arDMA.ARAddr &&& (2 ^ e - 1) = p at hp ⊢
  simp only [ARAMInfo.store_u64]
  have hb : ∀ d, d < 8 →
      Common.byteAt (Common.swap64 (Memory.Read_U64 t.ram t.g_arDMA.MMAddr)) d =
        t.ram ((t.g_arDMA.MMAddr + d) % 2 ^ 32) % 256 :=
    fun d hd => byteAt_swap64_Read_U64 _ _ _ hd
  constructor
  · have h1 : p ≤ p + j ∧ p + j < p + 8 := by omega
    have h2 : p + j - p = j := by omega
    rw [if_pos h1, h2, hb j hj]
  · by_cases h : p ≤ m + j ∧ m + j < p + 8
    · have h2 : m + j - p = j := by omega
      rw [if_pos h, h2, hb j hj]
    · have h1 : m ≤ m + j ∧ m + j < m + 8 := by omega
      have h2 : m + j - m = j := by omega
      rw [if_neg h, if_pos h1, h2, hb j hj]

/-- C19. For every count `c = 8 n` and every trigger state with direction bit 0,
`A0 = ARAddr & 0x3ffffff` below the ARAM size, `A0 + c` not beyond it,
`g_ARAM_Info.Hex & 0xf` other than 4, `M0 = MMAddr & 0x3ffffff`, the ARAM
descriptor having `mask = size - 1` with `size` a power of two: `Do_ARAM_DMA`
returns (with fuel `n`, and with the same result for every fuel it returns with);
afterwards the ARAM bytes at offsets `A0 .. A0 + c` are the guest-memory bytes at
`M0 .. M0 + c` in the same order, every other ARAM byte and the descriptor are as
before, guest memory is unchanged and no call is made after those of the
interrupt policy; `MMAddr = M0 + c`, `ARAddr = A0 + c`, `count = 0`. In mode 4, a
round of the loop on an 8-aligned `ARAddr < 0x400000` leaves the granule both at
`ARAddr & mask` and at `(ARAddr + 0x400000) & mask`. -/
theorem Do_ARAM_DMA_mram_to_aram_in_bounds (s : DSPSystem) (n e : Nat)
    (hc : s.g_arDMA.Cnt.count = 8 * n) (hdir : s.g_arDMA.Cnt.dir = 0)
    (hsize : s.g_ARAM.size = 2 ^ e) (hmask : s.g_ARAM.mask = 2 ^ e - 1)
    (hA : s.g_arDMA.ARAddr &&& 0x3ffffff < s.g_ARAM.size)
    (hin : (s.g_arDMA.ARAddr &&& 0x3ffffff) + 8 * n ≤ s.g_ARAM.size)
    (h4 : s.g_ARAM_Info &&& 0xf ≠ 4) :
    (∃ s', Do_ARAM_DMA n s = some s' ∧
      (∀ fuel s'', Do_ARAM_DMA fuel s = some s'' → s'' = s') ∧
      (∀ x, s'.g_ARAM.ptr x =
        if (s.g_arDMA.ARAddr &&& 0x3ffffff) ≤ x ∧ x < (s.g_arDMA.ARAddr &&& 0x3ffffff) + 8 * n
        then s.ram ((s.g_arDMA.MMAddr &&& 0x3ffffff) + (x - (s.g_arDMA.ARAddr &&& 0x3ffffff)))
          % 256
        else s.g_ARAM.ptr x) ∧
      s'.g_ARAM.size = s.g_ARAM.size ∧ s'.g_ARAM.mask = s.g_ARAM.mask ∧
      s'.g_ARAM.wii_mode = s.g_ARAM.wii_mode ∧
      s'.ram = s.ram ∧ s'.trace = (Do_ARAM_DMA_interrupt s).trace ∧
      s'.g_arDMA.MMAddr = (s.g_arDMA.MMAddr &&& 0x3ffffff) + 8 * n ∧
      s'.g_arDMA.ARAddr = (s.g_arDMA.ARAddr &&& 0x3ffffff) + 8 * n ∧
      s'.g_arDMA.Cnt.count = 0 ∧ s'.g_arDMA.Cnt.dir = 0) ∧
    (∀ (t : DSPSystem) (e1 j : Nat), t.g_ARAM_Info &&& 0xf = 4 →
      t.g_arDMA.ARAddr < 0x400000 → t.g_arDMA.ARAddr % 8 = 0 →
      t.g_ARAM.mask = 2 ^ e1 - 1 → 3 ≤ e1 → j < 8 →
      (MRAM_to_ARAM_body t).g_ARAM.ptr ((t.g_arDMA.ARAddr &&& t.g_ARAM.mask) + j) =
        t.ram ((t.g_arDMA.MMAddr + j) % 2 ^ 32) % 256 ∧
      (MRAM_to_ARAM_body t).g_ARAM.ptr
          (((t.g_arDMA.ARAddr + 0x400000) &&& t.g_ARAM.mask) + j) =
        t.ram ((t.g_arDMA.MMAddr + j) % 2 ^ 32) % 256) := by
  refine ⟨?_, fun t e1 j h4t hlt hal hm he hj =>
    MRAM_to_ARAM_body_mode4_granule t e1 j h4t hlt hal hm he hj⟩
  obtain ⟨_, hfr⟩ := Do_ARAM_DMA_interrupt_frame s
  obtain ⟨hg, hr, hi⟩ := Do_ARAM_DMA_interrupt_frame_mem s
  have hc1 : (Do_ARAM_DMA_interrupt s).g_arDMA.Cnt.count = 8 * n := by rw [hfr]; exact hc
  have hlt := count_lt s.g_arDMA.Cnt
  have hMlt := and_0x3ffffff_lt s.g_arDMA.MMAddr
  have hAlt := and_0x3ffffff_lt s.g_arDMA.ARAddr
  obtain ⟨ht1, ht2⟩ := transfer_mram_to_aram_in (Do_ARAM_DMA_interrupt s) n hc1
    (by rw [hfr]; exact hdir) (by rw [hfr, hg]; exact hA)
  have hM2 : (maskAddresses (Do_ARAM_DMA_interrupt s)).g_arDMA.MMAddr =
      s.g_arDMA.MMAddr &&& 0x3ffffff := by
    show (Do_ARAM_DMA_interrupt s).g_arDMA.MMAddr &&& 0x3ffffff = _
    rw [hfr]
  have hA2 : (maskAddresses (Do_ARAM_DMA_interrupt s)).g_arDMA.ARAddr =
      s.g_arDMA.ARAddr &&& 0x3ffffff := by
    show (Do_ARAM_DMA_interrupt s).g_arDMA.ARAddr &&& 0x3ffffff = _
    rw [hfr]
  have hC2 : (maskAddresses (Do_ARAM_DMA_interrupt s)).g_arDMA.Cnt = s.g_arDMA.Cnt := by
    show (Do_ARAM_DMA_interrupt s).g_arDMA.Cnt = _
    rw [hfr]
  have hG2 : (maskAddresses (Do_ARAM_DMA_interrupt s)).g_ARAM = s.g_ARAM := hg
  have hR2 : (maskAddresses (Do_ARAM_DMA_interrupt s)).ram = s.ram := hr
  have hI2 : (maskAddresses (Do_ARAM_DMA_interrupt s)).g_ARAM_Info = s.g_ARAM_Info := hi
  obtain ⟨i1, i2, _, _, i5, i6, i7, i8⟩ :=
    MRAM_to_ARAM_iterate (maskAddresses (Do_ARAM_DMA_interrupt s)) n e
      (by rw [hC2]; exact hc) (by rw [hI2]; exact h4) (by rw [hG2]; exact hsize)
      (by rw [hG2]; exact hmask) (by rw [hM2]; omega) (by rw [hA2]; omega)
      (by rw [hA2, hG2]; exact hin) n (le_refl n)
  obtain ⟨r1, r2, r3, r4⟩ := iterate_g_arDMA MRAM_to_ARAM_body MRAM_to_ARAM_body_g_arDMA
    (maskAddresses (Do_ARAM_DMA_interrupt s)) n (by rw [hC2]; exact hc)
    (by rw [hM2]; omega) (by rw [hA2]; omega) n (le_refl n)
  refine ⟨_, ht1, ht2, fun x => ?_, ?_, ?_, ?_, i1.trans hR2, i2, ?_, ?_, ?_, ?_⟩
  · rw [i8 x, hM2, hA2, hG2, hR2]
  · rw [i5, hG2]
  · rw [i6, hG2]
  · rw [i7, hG2]
  · rw [r1, hM2]
    exact Nat.mod_eq_of_lt (by omega)
  · rw [r2, hA2]
    exact Nat.mod_eq_of_lt (by omega)
  · rw [r3]
    omega
  · rw [r4, hC2]
    exact hdir

/-- Witness for C19: `c = 64` from main memory `0x100` to ARAM offset `0x20`, in
the GameCube initial state (ARAM of `2 ^ 24` bytes, mode bits 0). -/
theorem Do_ARAM_DMA_mram_to_aram_in_bounds_witness :
    ∃ s', Do_ARAM_DMA 8
        { Init false false (fun _ => 0) (fun i => i % 251) with
          g_arDMA := { MMAddr := 0x100, ARAddr := 0x20, Cnt := ⟨0x40⟩ } } = some s' ∧
      s'.g_ARAM.ptr 0x21 = 0x101 % 251 % 256 ∧
      s'.g_arDMA.MMAddr = 0x100 + 64 ∧ s'.g_arDMA.ARAddr = 0x20 + 64 ∧
      s'.g_arDMA.Cnt.count = 0 := by
  obtain ⟨⟨s', h1, _, h3, _, _, _, _, _, h9, h10, h11, _⟩, _⟩ :=
    Do_ARAM_DMA_mram_to_aram_in_bounds
      { Init false false (fun _ => 0) (fun i => i % 251) with
        g_arDMA := { MMAddr := 0x100, ARAddr := 0x20, Cnt := ⟨0x40⟩ } } 8 24
      (by decide) (by decide) (by decide) (by decide) (by decide) (by decide) (by decide)
  exact ⟨s', h1, (h3 0x21).trans (by decide), h9, h10, h11⟩

/-! ## The 32-byte transfer -/

/-- `GenerateDSPInterrupt(INT_ARAM)` with the default `_bSet = true`: the ARAM latch
is set, `DMAState` is cleared, and the line is recomputed. -/
theorem GenerateDSPInterrupt_INT_ARAM_true (s : DSPSystem) :
    GenerateDSPInterrupt INT_ARAM true s =
      UpdateInterrupts
        { s with g_dspState := { s.g_dspState with ARAM := true, DMAState := false } } :=
  rfl

/-- The interrupt policy of `Do_ARAM_DMA` on a count of 32. -/
theorem Do_ARAM_DMA_interrupt_32 (s : DSPSystem) (hc : s.g_arDMA.Cnt.count = 32) :
    (Do_ARAM_DMA_interrupt s).g_dspState =
      { s.g_dspState with ARAM := true, DMAState := false } ∧
    (Do_ARAM_DMA_interrupt s).trace = s.trace ++
      [Event.SetInterrupt_INT_CAUSE_DSP
        ((s.g_dspState.AID && s.g_dspState.AID_mask) || s.g_dspState.ARAM_mask ||
         (s.g_dspState.DSP && s.g_dspState.DSP_mask)),
       Event.ForceExceptionCheck 100] := by
  unfold Do_ARAM_DMA_interrupt
  rw [if_pos hc, GenerateDSPInterrupt_INT_ARAM_true, UpdateInterrupts_eq]
  simp only [DSPSystem.emit, Bool.true_and, List.append_assoc, List.singleton_append,
    and_self]

/-- Rounds of "MRAM -> ARAM" make no call and leave the control register alone,
whatever the mode. -/
theorem MRAM_to_ARAM_iterate_frame (s : DSPSystem) (k : Nat) :
    (MRAM_to_ARAM_body^[k] s).trace = s.trace ∧
    (MRAM_to_ARAM_body^[k] s).g_dspState = s.g_dspState := by
  induction k with
  | zero => exact ⟨rfl, rfl⟩
  | succ k ih =>
    rw [Function.iterate_succ_apply', MRAM_to_ARAM_body_trace, MRAM_to_ARAM_body_g_dspState]
    exact ih

theorem dir_cases (c : UARAMCount) : c.dir = 0 ∨ c.dir = 1 := by
  have : c.dir < 2 := Nat.mod_lt _ (by norm_num)
  omega

/-- C16. For every state with `Cnt.count = 32`, either direction: the interrupt
policy of `Do_ARAM_DMA` sets the ARAM latch and clears `DMAState` in the control
register at once, calls `SetInterrupt` with the recomputed line and then
`ForceExceptionCheck(100)`; `Do_ARAM_DMA` returns (with fuel 4, and with the same
result for every fuel it returns with); the control register is the same at the
end; every call after those two is a memory write of the transfer (so none is
`ScheduleEvent_Threadsafe`); both masked addresses are advanced by 32 and the
count ends at 0. -/
theorem Do_ARAM_DMA_count_32 (s : DSPSystem) (hc : s.g_arDMA.Cnt.count = 32) :
    (Do_ARAM_DMA_interrupt s).g_dspState =
      { s.g_dspState with ARAM := true, DMAState := false } ∧
    ∃ s', Do_ARAM_DMA 4 s = some s' ∧
      (∀ fuel s'', Do_ARAM_DMA fuel s = some s'' → s'' = s') ∧
      s'.g_dspState = { s.g_dspState with ARAM := true, DMAState := false } ∧
      (∃ evs, s'.trace = s.trace ++
          [Event.SetInterrupt_INT_CAUSE_DSP
            ((s.g_dspState.AID && s.g_dspState.AID_mask) || s.g_dspState.ARAM_mask ||
             (s.g_dspState.DSP && s.g_dspState.DSP_mask)),
           Event.ForceExceptionCheck 100] ++ evs ∧
        (∀ ev ∈ evs, (∃ v a, ev = Event.Write_U64_Swap v a) ∨ ∃ a, ev = Event.Write_U64 0 a) ∧
        evs.length = 4 * s.g_arDMA.Cnt.dir) ∧
      s'.g_arDMA.MMAddr = (s.g_arDMA.MMAddr &&& 0x3ffffff) + 32 ∧
      s'.g_arDMA.ARAddr = (s.g_arDMA.ARAddr &&& 0x3ffffff) + 32 ∧
      s'.g_arDMA.Cnt.count = 0 ∧ s'.g_arDMA.Cnt.dir = s.g_arDMA.Cnt.dir := by
  obtain ⟨hD, hT⟩ := Do_ARAM_DMA_interrupt_32 s hc
  refine ⟨hD, ?_⟩
  obtain ⟨_, hfr⟩ := Do_ARAM_DMA_interrupt_frame s
  obtain ⟨hg, _, _⟩ := Do_ARAM_DMA_interrupt_frame_mem s
  have hc4 : s.g_arDMA.Cnt.count = 8 * 4 := hc
  have hc1 : (Do_ARAM_DMA_interrupt s).g_arDMA.Cnt.count = 8 * 4 := by rw [hfr]; exact hc
  have hMlt := and_0x3ffffff_lt s.g_arDMA.MMAddr
  have hAlt := and_0x3ffffff_lt s.g_arDMA.ARAddr
  have hM2 : (maskAddresses (Do_ARAM_DMA_interrupt s)).g_arDMA.MMAddr =
      s.g_arDMA.MMAddr &&& 0x3ffffff := by
    show (Do_ARAM_DMA_interrupt s).g_arDMA.MMAddr &&& 0x3ffffff = _
    rw [hfr]
  have hA2 : (maskAddresses (Do_ARAM_DMA_interrupt s)).g_arDMA.ARAddr =
      s.g_arDMA.ARAddr &&& 0x3ffffff := by
    show (Do_ARAM_DMA_interrupt s).g_arDMA.ARAddr &&& 0x3ffffff = _
    rw [hfr]
  have hC2 : (maskAddresses (Do_ARAM_DMA_interrupt s)).g_arDMA.Cnt = s.g_arDMA.Cnt := by
    show (Do_ARAM_DMA_interrupt s).g_arDMA.Cnt = _
    rw [hfr]
  have hD2 : (maskAddresses (Do_ARAM_DMA_interrupt s)).g_dspState =
      { s.g_dspState with ARAM := true, DMAState := false } := hD
  have hT2 : (maskAddresses (Do_ARAM_DMA_interrupt s)).trace = s.trace ++
      [Event.SetInterrupt_INT_CAUSE_DSP
        ((s.g_dspState.AID && s.g_dspState.AID_mask) || s.g_dspState.ARAM_mask ||
         (s.g_dspState.DSP && s.g_dspState.DSP_mask)),
       Event.ForceExceptionCheck 100] := hT
  have hcm : (maskAddresses (Do_ARAM_DMA_interrupt s)).g_arDMA.Cnt.count = 8 * 4 := by
    rw [hC2]; exact hc
  rcases dir_cases s.g_arDMA.Cnt with hdir | hdir
  · -- MRAM -> ARAM
    by_cases hA : s.g_arDMA.ARAddr &&& 0x3ffffff < s.g_ARAM.size
    · obtain ⟨ht1, ht2⟩ := transfer_mram_to_aram_in (Do_ARAM_DMA_interrupt s) 4 hc1
        (by rw [hfr]; exact hdir) (by rw [hfr, hg]; exact hA)
      obtain ⟨f1, f2⟩ := MRAM_to_ARAM_iterate_frame (maskAddresses (Do_ARAM_DMA_interrupt s)) 4
      obtain ⟨r1, r2, r3, r4⟩ := iterate_g_arDMA MRAM_to_ARAM_body MRAM_to_ARAM_body_g_arDMA
        (maskAddresses (Do_ARAM_DMA_interrupt s)) 4 hcm
        (by rw [hM2]; omega) (by rw [hA2]; omega) 4 (le_refl 4)
      refine ⟨_, ht1, ht2, f2.trans hD2, ⟨[], ?_, ?_, ?_⟩, ?_, ?_, ?_, ?_⟩
      · rw [f1, hT2, List.append_nil]
      · intro ev hev
        cases hev
      · rw [hdir]
        rfl
      · rw [r1, hM2]
        exact Nat.mod_eq_of_lt (by omega)
      · rw [r2, hA2]
        exact Nat.mod_eq_of_lt (by omega)
      · rw [r3]
      · rw [r4, hC2]
    · have ht := fun fuel => transfer_mram_to_aram_out (Do_ARAM_DMA_interrupt s) fuel
        (by rw [hfr]; exact hdir) (by rw [hfr, hg]; exact hA)
      refine ⟨_, ht 4, fun fuel s'' h => ?_, hD2, ⟨[], ?_, ?_, ?_⟩, ?_, ?_, ?_, ?_⟩
      · have h2 : Do_ARAM_DMA_transfer fuel (Do_ARAM_DMA_interrupt s) = some s'' := h
        rw [ht fuel] at h2
        exact (Option.some.inj h2).symm
      · rw [List.append_nil]
        exact hT2
      · intro ev hev
        cases hev
      · rw [hdir]
        rfl
      · show (((Do_ARAM_DMA_interrupt s).g_arDMA.MMAddr &&& 0x3ffffff) +
            (Do_ARAM_DMA_interrupt s).g_arDMA.Cnt.count) % 2 ^ 32 = _
        rw [hfr, hc]
        exact Nat.mod_eq_of_lt (by omega)
      · show (((Do_ARAM_DMA_interrupt s).g_arDMA.ARAddr &&& 0x3ffffff) +
            (Do_ARAM_DMA_interrupt s).g_arDMA.Cnt.count) % 2 ^ 32 = _
        rw [hfr, hc]
        exact Nat.mod_eq_of_lt (by omega)
      · exact setCount_count _ _
      · show ((Do_ARAM_DMA_interrupt s).g_arDMA.Cnt.setCount 0).dir = _
        rw [setCount_dir, hfr]
  · -- ARAM -> MRAM
    by_cases hA : s.g_arDMA.ARAddr &&& 0x3ffffff < s.g_ARAM.size
    · obtain ⟨ht1, ht2⟩ := transfer_aram_to_mram_in (Do_ARAM_DMA_interrupt s) 4 hc1
        (by rw [hfr]; exact hdir) (by rw [hfr, hg]; exact hA)
      obtain ⟨_, f2, f3⟩ := ARAM_to_MRAM_iterate (maskAddresses (Do_ARAM_DMA_interrupt s)) 4 hcm
        (by rw [hM2]; omega) (by rw [hA2]; omega) 4 (le_refl 4)
      obtain ⟨r1, r2, r3, r4⟩ := iterate_g_arDMA ARAM_to_MRAM_body ARAM_to_MRAM_body_g_arDMA
        (maskAddresses (Do_ARAM_DMA_interrupt s)) 4 hcm
        (by rw [hM2]; omega) (by rw [hA2]; omega) 4 (le_refl 4)
      refine ⟨_, ht1, ht2, f2.trans hD2, ?_, ?_, ?_, ?_, ?_⟩
      · rw [f3, hT2, hdir]
        refine ⟨_, rfl, fun ev hev => ?_, by rw [List.length_map, List.length_range]⟩
        obtain ⟨i, _, rfl⟩ := List.mem_map.mp hev
        exact Or.inl ⟨_, _, rfl⟩
      · rw [r1, hM2]
        exact Nat.mod_eq_of_lt (by omega)
      · rw [r2, hA2]
        exact Nat.mod_eq_of_lt (by omega)
      · rw [r3]
      · rw [r4, hC2]
    · obtain ⟨ht1, ht2⟩ := transfer_aram_to_mram_out (Do_ARAM_DMA_interrupt s) 4 hc1
        (by rw [hfr]; exact hdir) (by rw [hfr, hg]; exact hA)
      obtain ⟨_, f2, f3⟩ := ARAM_to_MRAM_zero_iterate (maskAddresses (Do_ARAM_DMA_interrupt s)) 4
        hcm (by rw [hM2]; omega) (by rw [hA2]; omega) 4 (le_refl 4)
      obtain ⟨r1, r2, r3, r4⟩ := iterate_g_arDMA ARAM_to_MRAM_zero_body
        ARAM_to_MRAM_zero_body_g_arDMA
        (maskAddresses (Do_ARAM_DMA_interrupt s)) 4 hcm
        (by rw [hM2]; omega) (by rw [hA2]; omega) 4 (le_refl 4)
      refine ⟨_, ht1, ht2, f2.trans hD2, ?_, ?_, ?_, ?_, ?_⟩
      · rw [f3, hT2, hdir]
        refine ⟨_, rfl, fun ev hev => ?_, by rw [List.length_map, List.length_range]⟩
        obtain ⟨i, _, rfl⟩ := List.mem_map.mp hev
        exact Or.inr ⟨_, rfl⟩
      · rw [r1, hM2]
        exact Nat.mod_eq_of_lt (by omega)
      · rw [r2, hA2]
        exact Nat.mod_eq_of_lt (by omega)
      · rw [r3]
      · rw [r4, hC2]

/-- Witness for C16: 32 bytes from ARAM offset `0x20` to main memory `0x100`, all
three mask bits clear, in the GameCube initial state. -/
theorem Do_ARAM_DMA_count_32_witness :
    ∃ s', Do_ARAM_DMA 4
        { Init false false (fun i => i % 251) (fun _ => 0) with
          g_arDMA := { MMAddr := 0x100, ARAddr := 0x20, Cnt := ⟨0x80000020⟩ } } = some s' ∧
      s'.g_dspState.ARAM = true ∧ s'.g_dspState.DMAState = false ∧
      s'.g_arDMA.MMAddr = 0x100 + 32 ∧ s'.g_arDMA.ARAddr = 0x20 + 32 ∧
      s'.g_arDMA.Cnt.count = 0 := by
  obtain ⟨_, s', h1, _, h3, _, h5, h6, h7, _⟩ :=
    Do_ARAM_DMA_count_32
      { Init false false (fun i => i % 251) (fun _ => 0) with
        g_arDMA := { MMAddr := 0x100, ARAddr := 0x20, Cnt := ⟨0x80000020⟩ } } (by decide)
  exact ⟨s', h1, by rw [h3], by rw [h3], h5, h6, h7⟩

/-! ## The interrupt policy for sizes other than 32 -/

/-- A call of the transfer: a write to main memory. -/
theorem transfer_events_append (evs : List Event) (e : Event)
    (h : ∀ ev ∈ evs, (∃ v a, ev = Event.Write_U64_Swap v a) ∨ ∃ a, ev = Event.Write_U64 0 a)
    (he : (∃ v a, e = Event.Write_U64_Swap v a) ∨ ∃ a, e = Event.Write_U64 0 a) :
    ∀ ev ∈ evs ++ [e],
      (∃ v a, ev = Event.Write_U64_Swap v a) ∨ ∃ a, ev = Event.Write_U64 0 a := by
  intro ev hev
  rcases List.mem_append.mp hev with h1 | h1
  · exact h ev h1
  · rw [List.mem_singleton.mp h1]
    exact he

/-- Whatever the count and the fuel: a transfer that returns has left the control
register alone and has made only calls that write to main memory. -/
theorem Do_ARAM_DMA_transfer_calls (fuel : Nat) (s1 s' : DSPSystem)
    (h : Do_ARAM_DMA_transfer fuel s1 = some s') :
    s'.g_dspState = s1.g_dspState ∧
    ∃ evs, s'.trace = s1.trace ++ evs ∧
      ∀ ev ∈ evs, (∃ v a, ev = Event.Write_U64_Swap v a) ∨ ∃ a, ev = Event.Write_U64 0 a := by
  have h0 : (maskAddresses s1).g_dspState = s1.g_dspState ∧
      ∃ evs, (maskAddresses s1).trace = s1.trace ++ evs ∧
        ∀ ev ∈ evs, (∃ v a, ev = Event.Write_U64_Swap v a) ∨ ∃ a, ev = Event.Write_U64 0 a :=
    ⟨rfl, [], (List.append_nil _).symm, fun ev hev => by cases hev⟩
  have key : ∀ body : DSPSystem → DSPSystem,
      (∀ t, (t.g_dspState = s1.g_dspState ∧ ∃ evs, t.trace = s1.trace ++ evs ∧
          ∀ ev ∈ evs, (∃ v a, ev = Event.Write_U64_Swap v a) ∨ ∃ a, ev = Event.Write_U64 0 a) →
        ((body t).g_dspState = s1.g_dspState ∧ ∃ evs, (body t).trace = s1.trace ++ evs ∧
          ∀ ev ∈ evs, (∃ v a, ev = Event.Write_U64_Swap v a) ∨ ∃ a, ev = Event.Write_U64 0 a)) →
      whileCount body fuel (maskAddresses s1) = some s' →
      s'.g_dspState = s1.g_dspState ∧ ∃ evs, s'.trace = s1.trace ++ evs ∧
        ∀ ev ∈ evs, (∃ v a, ev = Event.Write_U64_Swap v a) ∨ ∃ a, ev = Event.Write_U64 0 a :=
    fun body hbody hw =>
      (whileCount_some body
        (fun t => t.g_dspState = s1.g_dspState ∧ ∃ evs, t.trace = s1.trace ++ evs ∧
          ∀ ev ∈ evs, (∃ v a, ev = Event.Write_U64_Swap v a) ∨ ∃ a, ev = Event.Write_U64 0 a)
        hbody fuel (maskAddresses s1) s' h0 hw).1
  unfold Do_ARAM_DMA_transfer at h
  simp only [] at h
  split_ifs at h
  · refine key ARAM_to_MRAM_body ?_ h
    rintro t ⟨ht1, evs, ht2, ht3⟩
    obtain ⟨_, e2, e3⟩ := ARAM_to_MRAM_body_effect t
    refine ⟨e2.trans ht1, ?_⟩
    rw [e3, ht2, List.append_assoc]
    exact ⟨_, rfl, transfer_events_append evs _ ht3 (Or.inl ⟨_, _, rfl⟩)⟩
  · refine key ARAM_to_MRAM_zero_body ?_ h
    rintro t ⟨ht1, evs, ht2, ht3⟩
    obtain ⟨_, e2, e3⟩ := ARAM_to_MRAM_zero_body_effect t
    refine ⟨e2.trans ht1, ?_⟩
    rw [e3, ht2, List.append_assoc]
    exact ⟨_, rfl, transfer_events_append evs _ ht3 (Or.inr ⟨_, rfl⟩)⟩
  · refine key MRAM_to_ARAM_body ?_ h
    rintro t ⟨ht1, evs, ht2, ht3⟩
    exact ⟨(MRAM_to_ARAM_body_g_dspState t).trans ht1, evs,
      (MRAM_to_ARAM_body_trace t).trans ht2, ht3⟩
  · cases h
    exact h0

/-- The interrupt policy of `Do_ARAM_DMA` on a count other than 32. -/
theorem Do_ARAM_DMA_interrupt_other (s : DSPSystem) (hc : s.g_arDMA.Cnt.count ≠ 32) :
    (Do_ARAM_DMA_interrupt s).g_dspState = { s.g_dspState with DMAState := true } ∧
    (Do_ARAM_DMA_interrupt s).trace = s.trace ++
      (Event.ScheduleEvent_Threadsafe 0 (INT_ARAM ||| (1 <<< 16)) ::
        if 2048 < s.g_arDMA.Cnt.count ∧ s.g_arDMA.Cnt.count ≤ 6144
        then [Event.ForceExceptionCheck 100] else []) := by
  unfold Do_ARAM_DMA_interrupt
  rw [if_neg hc]
  simp only [DSPSystem.emit, gt_iff_lt]
  split_ifs
  · exact ⟨rfl, by rw [List.append_assoc]; rfl⟩
  · exact ⟨rfl, rfl⟩

/-- C21. For every trigger state with `Cnt.count` other than 32 (0 included): the
interrupt policy of `Do_ARAM_DMA` sets `DMAState` and changes nothing else of the
control register (the ARAM latch keeps its value); it makes the call
`ScheduleEvent_Threadsafe(0, et_GenerateDSPInterrupt, INT_ARAM | (1 << 16))`
once, followed by `ForceExceptionCheck(100)` exactly when
`2048 < count <= 6144` for the count at trigger time. Whenever `Do_ARAM_DMA`
returns (it does with fuel `n` on a count of `8 n`), the control register is
still that one and every further call is a write of the transfer to main memory:
no call of `SetInterrupt` and no second scheduled event is made. -/
theorem Do_ARAM_DMA_interrupt_policy (s : DSPSystem) (hc : s.g_arDMA.Cnt.count ≠ 32) :
    (Do_ARAM_DMA_interrupt s).g_dspState = { s.g_dspState with DMAState := true } ∧
    (Do_ARAM_DMA_interrupt s).g_dspState.ARAM = s.g_dspState.ARAM ∧
    (Do_ARAM_DMA_interrupt s).trace = s.trace ++
      (Event.ScheduleEvent_Threadsafe 0 (INT_ARAM ||| (1 <<< 16)) ::
        if 2048 < s.g_arDMA.Cnt.count ∧ s.g_arDMA.Cnt.count ≤ 6144
        then [Event.ForceExceptionCheck 100] else []) ∧
    (Event.ForceExceptionCheck 100 ∈ (Do_ARAM_DMA_interrupt s).trace.drop s.trace.length ↔
      2048 < s.g_arDMA.Cnt.count ∧ s.g_arDMA.Cnt.count ≤ 6144) ∧
    (∀ fuel s', Do_ARAM_DMA fuel s = some s' →
      s'.g_dspState = { s.g_dspState with DMAState := true } ∧
      ∃ evs, s'.trace = s.trace ++
          (Event.ScheduleEvent_Threadsafe 0 (INT_ARAM ||| (1 <<< 16)) ::
            if 2048 < s.g_arDMA.Cnt.count ∧ s.g_arDMA.Cnt.count ≤ 6144
            then [Event.ForceExceptionCheck 100] else []) ++ evs ∧
        (∀ ev ∈ evs, (∃ v a, ev = Event.Write_U64_Swap v a) ∨ ∃ a, ev = Event.Write_U64 0 a) ∧
        (∀ b, Event.SetInterrupt_INT_CAUSE_DSP b ∉ s'.trace.drop s.trace.length) ∧
        (s'.trace.drop s.trace.length).count
          (Event.ScheduleEvent_Threadsafe 0 (INT_ARAM ||| (1 <<< 16))) = 1) ∧
    (∀ n, s.g_arDMA.Cnt.count = 8 * n → ∃ s', Do_ARAM_DMA n s = some s') := by
  obtain ⟨hD, hT⟩ := Do_ARAM_DMA_interrupt_other s hc
  refine ⟨hD, by rw [hD], hT, ?_, ?_, fun n hn => Do_ARAM_DMA_terminates n s hn⟩
  · rw [hT, List.drop_left]
    split_ifs with hb
    · simp [hb]
    · simp [hb]
  · intro fuel s' h
    obtain ⟨h1, evs, h2, h3⟩ := Do_ARAM_DMA_transfer_calls fuel _ s' h
    refine ⟨h1.trans hD, evs, by rw [h2, hT], h3, ?_, ?_⟩
    · intro b hmem
      rw [h2, hT, List.append_assoc, List.drop_left] at hmem
      rcases List.mem_append.mp hmem with hm | hm
      · split_ifs at hm <;> simp at hm
      · rcases h3 _ hm with ⟨v, a, hv⟩ | ⟨a, hv⟩ <;> cases hv
    · rw [h2, hT, List.append_assoc, List.drop_left, List.count_append]
      have hz : evs.count (Event.ScheduleEvent_Threadsafe 0 (INT_ARAM ||| (1 <<< 16))) = 0 := by
        rw [List.count_eq_zero]
        intro hm
        rcases h3 _ hm with ⟨v, a, hv⟩ | ⟨a, hv⟩ <;> cases hv
      rw [hz]
      split_ifs <;> decide

/-- Witness for C21: a count of `0x1000` (in the band), ARAM to main memory, in
the GameCube initial state. -/
theorem Do_ARAM_DMA_interrupt_policy_witness :
    (Do_ARAM_DMA_interrupt
        { Init false false (fun i => i % 251) (fun _ => 0) with
          g_arDMA := { MMAddr := 0x100, ARAddr := 0x20, Cnt := ⟨0x80001000⟩ } }).trace =
      [Event.ScheduleEvent_Threadsafe 0 0x10001, Event.ForceExceptionCheck 100] :=
  (Do_ARAM_DMA_interrupt_policy
      { Init false false (fun i => i % 251) (fun _ => 0) with
        g_arDMA := { MMAddr := 0x100, ARAddr := 0x20, Cnt := ⟨0x80001000⟩ } }
      (by decide)).2.2.1.trans (by decide)

/-! ## The count-low write drains -/

/-- The loop bodies keep `count mod 8`: 8 divides the `2 ^ 31` of the bit-field. -/
theorem count_mod_8_of_body (body : DSPSystem → DSPSystem)
    (hbody : ∀ s, (body s).g_arDMA.Cnt.count = (s.g_arDMA.Cnt.count + 2 ^ 31 - 8) % 2 ^ 31)
    (t : DSPSystem) : (body t).g_arDMA.Cnt.count % 8 = t.g_arDMA.Cnt.count % 8 := by
  have hlt := count_lt t.g_arDMA.Cnt
  rw [hbody]
  omega

theorem advance8_dir (t : DSPSystem) : (advance8 t).g_arDMA.Cnt.dir = t.g_arDMA.Cnt.dir :=
  setCount_dir _ _

/-- A transfer that returns, whatever the count and the fuel, leaves the
direction bit alone. -/
theorem Do_ARAM_DMA_transfer_dir (fuel : Nat) (s1 s' : DSPSystem)
    (h : Do_ARAM_DMA_transfer fuel s1 = some s') :
    s'.g_arDMA.Cnt.dir = s1.g_arDMA.Cnt.dir := by
  have h0 : (maskAddresses s1).g_arDMA.Cnt.dir = s1.g_arDMA.Cnt.dir := rfl
  have key : ∀ body : DSPSystem → DSPSystem,
      (∀ t, (body t).g_arDMA = (advance8 t).g_arDMA) →
      whileCount body fuel (maskAddresses s1) = some s' →
      s'.g_arDMA.Cnt.dir = s1.g_arDMA.Cnt.dir :=
    fun body hbody hw =>
      (whileCount_some body (fun t => t.g_arDMA.Cnt.dir = s1.g_arDMA.Cnt.dir)
        (fun t ht => by
          show (body t).g_arDMA.Cnt.dir = s1.g_arDMA.Cnt.dir
          rw [hbody t, advance8_dir]
          exact ht) fuel (maskAddresses s1) s' h0 hw).1
  unfold Do_ARAM_DMA_transfer at h
  simp only [] at h
  split_ifs at h
  · exact key _ ARAM_to_MRAM_body_g_arDMA h
  · exact key _ ARAM_to_MRAM_zero_body_g_arDMA h
  · exact key _ MRAM_to_ARAM_body_g_arDMA h
  · cases h
    exact setCount_dir _ _

/-- On a count of `8 n` the transfer returns with fuel `n`, and every fuel with
which it returns gives that same state. -/
theorem Do_ARAM_DMA_transfer_unique (s1 : DSPSystem) (n : Nat)
    (hc : s1.g_arDMA.Cnt.count = 8 * n) :
    ∃ s', Do_ARAM_DMA_transfer n s1 = some s' ∧
      ∀ fuel s'', Do_ARAM_DMA_transfer fuel s1 = some s'' → s'' = s' := by
  rcases dir_cases s1.g_arDMA.Cnt with hdir | hdir
  · by_cases hA : s1.g_arDMA.ARAddr &&& 0x3ffffff < s1.g_ARAM.size
    · exact ⟨_, transfer_mram_to_aram_in s1 n hc hdir hA⟩
    · refine ⟨_, transfer_mram_to_aram_out s1 n hdir hA, fun fuel s'' h => ?_⟩
      rw [transfer_mram_to_aram_out s1 fuel hdir hA] at h
      exact (Option.some.inj h).symm
  · by_cases hA : s1.g_arDMA.ARAddr &&& 0x3ffffff < s1.g_ARAM.size
    · exact ⟨_, transfer_aram_to_mram_in s1 n hc hdir hA⟩
    · exact ⟨_, transfer_aram_to_mram_out s1 n hc hdir hA⟩

/-- On a count of `8 n`: `Do_ARAM_DMA` returns with fuel `n`, with the same state
for every fuel it returns with, the count 0 and the direction bit as it was. -/
theorem Do_ARAM_DMA_drains (t : DSPSystem) (n : Nat) (hc : t.g_arDMA.Cnt.count = 8 * n) :
    ∃ s', Do_ARAM_DMA n t = some s' ∧
      (∀ fuel s'', Do_ARAM_DMA fuel t = some s'' → s'' = s') ∧
      s'.g_arDMA.Cnt.count = 0 ∧ s'.g_arDMA.Cnt.dir = t.g_arDMA.Cnt.dir := by
  obtain ⟨_, hfr⟩ := Do_ARAM_DMA_interrupt_frame t
  obtain ⟨s', h1, h2⟩ := Do_ARAM_DMA_transfer_unique (Do_ARAM_DMA_interrupt t) n
    (by rw [hfr]; exact hc)
  refine ⟨s', h1, h2, (Do_ARAM_DMA_some n t s' h1).2, ?_⟩
  rw [Do_ARAM_DMA_transfer_dir n _ s' h1, hfr]

/-- The count-low write keeps bit 31 of `Cnt.Hex`. -/
theorem count_low_write_dir (H val : Nat) :
    ((H &&& 0xFFFF0000) ||| ((val % 2 ^ 16) &&& 0xFFE0)) / 2 ^ 31 % 2 = H / 2 ^ 31 % 2 := by
  rw [← Nat.toNat_testBit, ← Nat.toNat_testBit, Nat.testBit_or, Nat.testBit_and,
    Nat.testBit_and]
  have h1 : Nat.testBit 0xFFFF0000 31 = true := by decide
  have h2 : Nat.testBit 0xFFE0 31 = false := by decide
  rw [h1, h2, Bool.and_true, Bool.and_false, Bool.or_false]

/-- C22. For every prior state and every written value `val` (its 16 bits): the
`AR_DMA_CNT_L` write handler sets `Cnt.Hex` to
`(Cnt.Hex & 0xFFFF0000) | (val & 0xFFE0)`, a multiple of 8 (of 32), and runs
`Do_ARAM_DMA`, which returns (with fuel `count / 8`, and with the same state for
every fuel it returns with) with `Cnt.count = 0` and the direction bit of the
prior `Cnt.Hex`. More generally, on every count `8 n`, `Do_ARAM_DMA` returns with
fuel `n`, `count = 0` and the direction bit unchanged; and each of the three loop
bodies leaves `count mod 8` unchanged. -/
theorem AR_DMA_CNT_L_write_drains (val : Nat) (s : DSPSystem) :
    (∀ fuel, AR_DMA_CNT_L_write fuel val s =
      Do_ARAM_DMA fuel { s with g_arDMA := { s.g_arDMA with
        Cnt := ⟨(s.g_arDMA.Cnt.Hex &&& 0xFFFF0000) ||| ((val % 2 ^ 16) &&& 0xFFE0)⟩ } }) ∧
    ((s.g_arDMA.Cnt.Hex &&& 0xFFFF0000) ||| ((val % 2 ^ 16) &&& 0xFFE0)) % 32 = 0 ∧
    (UARAMCount.mk
      ((s.g_arDMA.Cnt.Hex &&& 0xFFFF0000) ||| ((val % 2 ^ 16) &&& 0xFFE0))).count % 8 = 0 ∧
    (∃ s', AR_DMA_CNT_L_write
        ((UARAMCount.mk
          ((s.g_arDMA.Cnt.Hex &&& 0xFFFF0000) ||| ((val % 2 ^ 16) &&& 0xFFE0))).count / 8)
        val s = some s' ∧
      (∀ fuel s'', AR_DMA_CNT_L_write fuel val s = some s'' → s'' = s') ∧
      s'.g_arDMA.Cnt.count = 0 ∧ s'.g_arDMA.Cnt.dir = s.g_arDMA.Cnt.dir) ∧
    (∀ (t : DSPSystem) (n : Nat), t.g_arDMA.Cnt.count = 8 * n →
      ∃ s', Do_ARAM_DMA n t = some s' ∧
        (∀ fuel s'', Do_ARAM_DMA fuel t = some s'' → s'' = s') ∧
        s'.g_arDMA.Cnt.count = 0 ∧ s'.g_arDMA.Cnt.dir = t.g_arDMA.Cnt.dir) ∧
    (∀ t : DSPSystem,
      (ARAM_to_MRAM_body t).g_arDMA.Cnt.count % 8 = t.g_arDMA.Cnt.count % 8 ∧
      (ARAM_to_MRAM_zero_body t).g_arDMA.Cnt.count % 8 = t.g_arDMA.Cnt.count % 8 ∧
      (MRAM_to_ARAM_body t).g_arDMA.Cnt.count % 8 = t.g_arDMA.Cnt.count % 8) := by
  have h32 := count_low_write_mod_32 s.g_arDMA.Cnt.Hex val
  have h8 : (UARAMCount.mk
      ((s.g_arDMA.Cnt.Hex &&& 0xFFFF0000) ||| ((val % 2 ^ 16) &&& 0xFFE0))).count % 8 = 0 := by
    simp only [UARAMCount.count]
    omega
  refine ⟨fun _ => rfl, h32, h8, ?_, Do_ARAM_DMA_drains, fun t =>
    ⟨count_mod_8_of_body _ ARAM_to_MRAM_body_count t,
     count_mod_8_of_body _ ARAM_to_MRAM_zero_body_count t,
     count_mod_8_of_body _ MRAM_to_ARAM_body_count t⟩⟩
  obtain ⟨s', h1, h2, h3, h4⟩ := Do_ARAM_DMA_drains
    { s with g_arDMA := { s.g_arDMA with
      Cnt := ⟨(s.g_arDMA.Cnt.Hex &&& 0xFFFF0000) ||| ((val % 2 ^ 16) &&& 0xFFE0)⟩ } }
    ((UARAMCount.mk
      ((s.g_arDMA.Cnt.Hex &&& 0xFFFF0000) ||| ((val % 2 ^ 16) &&& 0xFFE0))).count / 8)
    (by show (UARAMCount.mk _).count = _; omega)
  refine ⟨s', h1, h2, h3, h4.trans ?_⟩
  exact count_low_write_dir s.g_arDMA.Cnt.Hex val

/-! ## The deferred interrupt event -/

/-- The wrapper decodes the `userdata` word `type | (set << 16)` of a 16-bit
`type`. -/
theorem GenerateDSPInterrupt_Wrapper_decode (type : Nat) (set : Bool) (s : DSPSystem)
    (ht : type < 2 ^ 16) :
    GenerateDSPInterrupt_Wrapper (type ||| (set.toNat <<< 16)) s =
      GenerateDSPInterrupt type set s := by
  have h1 : (type ||| (set.toNat <<< 16)) &&& 0xFFFF = type := by
    rw [show (0xFFFF : Nat) = 2 ^ 16 - 1 from rfl, Nat.and_pow_two_sub_one_eq_mod]
    apply Nat.eq_of_testBit_eq
    intro i
    rw [Nat.testBit_mod_two_pow, Nat.testBit_or, Nat.testBit_shiftLeft]
    by_cases hi : i < 16
    · have : ¬ i ≥ 16 := by omega
      simp [hi, this]
    · have h2 : type.testBit i = false :=
        Nat.testBit_lt_two_pow (lt_of_lt_of_le ht (Nat.pow_le_pow_right (by norm_num) (by omega)))
      simp [hi, h2]
  have h2 : decide (((type ||| (set.toNat <<< 16)) >>> 16) &&& 1 ≠ 0) = set := by
    have h3 : ((type ||| (set.toNat <<< 16)) >>> 16) &&& 1 = set.toNat := by
      rw [Nat.and_one_is_mod, Nat.shiftRight_eq_div_pow, ← Nat.toNat_testBit, Nat.testBit_or,
        Nat.testBit_shiftLeft, Nat.testBit_lt_two_pow ht]
      cases set <;> rfl
    rw [h3]
    cases set <;> rfl
  unfold GenerateDSPInterrupt_Wrapper
  rw [h1, h2]

/-- C25. For every type `t` among `INT_DSP`, `INT_ARAM`, `INT_AID`, every boolean
`set` and every state: the wrapper applied to the userdata `t | (set << 16)` is
`GenerateDSPInterrupt(t, set)`; that userdata is the one
`GenerateDSPInterruptFromDSPEmu(t, set)` posts, and `INT_ARAM | (1 << 16)` is the
one `Do_ARAM_DMA` posts on a count other than 32. Delivering the latter sets the
ARAM latch, clears `DMAState`, changes no other field of the control register and
calls `SetInterrupt` with the recomputed line. A control-register write leaves
`DMAState` as it was, whatever is written and whatever the DSP emulator answers. -/
theorem deferred_interrupt_round_trip (set : Bool) (s : DSPSystem) :
    GenerateDSPInterrupt_Wrapper (INT_DSP ||| (set.toNat <<< 16)) s =
      GenerateDSPInterrupt INT_DSP set s ∧
    GenerateDSPInterrupt_Wrapper (INT_ARAM ||| (set.toNat <<< 16)) s =
      GenerateDSPInterrupt INT_ARAM set s ∧
    GenerateDSPInterrupt_Wrapper (INT_AID ||| (set.toNat <<< 16)) s =
      GenerateDSPInterrupt INT_AID set s ∧
    (∀ t, (GenerateDSPInterruptFromDSPEmu t set s).trace = s.trace ++
      [Event.ScheduleEvent_Threadsafe 0 (t ||| (set.toNat <<< 16)),
       Event.ForceExceptionCheck 100]) ∧
    (s.g_arDMA.Cnt.count ≠ 32 →
      Event.ScheduleEvent_Threadsafe 0 (INT_ARAM ||| (true.toNat <<< 16)) ∈
        (Do_ARAM_DMA_interrupt s).trace.drop s.trace.length) ∧
    (GenerateDSPInterrupt_Wrapper (INT_ARAM ||| (true.toNat <<< 16)) s).g_dspState =
      { s.g_dspState with ARAM := true, DMAState := false } ∧
    (GenerateDSPInterrupt_Wrapper (INT_ARAM ||| (true.toNat <<< 16)) s).trace = s.trace ++
      [Event.SetInterrupt_INT_CAUSE_DSP
        ((s.g_dspState.AID && s.g_dspState.AID_mask) || s.g_dspState.ARAM_mask ||
         (s.g_dspState.DSP && s.g_dspState.DSP_mask))] ∧
    (∀ dspWrite val,
      (DSP_CONTROL_write dspWrite val s).g_dspState.DMAState = s.g_dspState.DMAState) := by
  refine ⟨GenerateDSPInterrupt_Wrapper_decode _ _ _ (by decide),
    GenerateDSPInterrupt_Wrapper_decode _ _ _ (by decide),
    GenerateDSPInterrupt_Wrapper_decode _ _ _ (by decide), ?_, ?_, ?_, ?_, ?_⟩
  · intro t
    simp only [GenerateDSPInterruptFromDSPEmu, DSPSystem.emit, List.append_assoc,
      List.singleton_append]
  · intro hc
    rw [(Do_ARAM_DMA_interrupt_other s hc).2, List.drop_left]
    exact List.mem_cons_self _ _
  · rw [GenerateDSPInterrupt_Wrapper_decode _ _ _ (by decide),
      GenerateDSPInterrupt_INT_ARAM_true, UpdateInterrupts_g_dspState]
  · rw [GenerateDSPInterrupt_Wrapper_decode _ _ _ (by decide),
      GenerateDSPInterrupt_INT_ARAM_true, UpdateInterrupts_eq]
    simp only [DSPSystem.emit, Bool.true_and]
  · intro dspWrite val
    rw [DSP_CONTROL_write_g_dspState]

/-! ## The ARAM offsets of a transfer -/

/-- The round of "ARAM -> MRAM" reads where `ARAM_to_MRAM_body_offsets` says. -/
theorem ARAM_to_MRAM_body_trace_offsets (t : DSPSystem) :
    (ARAM_to_MRAM_body t).trace = t.trace ++ (ARAM_to_MRAM_body_offsets t).map
      (fun o => Event.Write_U64_Swap (t.g_ARAM.load_u64 o) t.g_arDMA.MMAddr) := by
  rw [(ARAM_to_MRAM_body_effect t).2.2]
  unfold ARAM_to_MRAM_body_offsets
  simp only [ite_self, List.map_cons, List.map_nil]

/-- The round of "MRAM -> ARAM" stores where `MRAM_to_ARAM_body_offsets` says, in
that order. -/
theorem MRAM_to_ARAM_body_g_ARAM_offsets (t : DSPSystem) :
    (MRAM_to_ARAM_body t).g_ARAM = (MRAM_to_ARAM_body_offsets t).foldl
      (fun a o => a.store_u64 o (Common.swap64 (Memory.Read_U64 t.ram t.g_arDMA.MMAddr)))
      t.g_ARAM := by
  by_cases h4 : t.g_ARAM_Info &&& 0xf = 4
  · have h3 : ¬ t.g_ARAM_Info &&& 0xf = 3 := by omega
    rw [MRAM_to_ARAM_body_store_mode4 t h4]
    unfold MRAM_to_ARAM_body_offsets
    rw [if_neg h3, if_pos h4]
    by_cases hlt : t.g_arDMA.ARAddr < 0x400000
    · rw [if_pos hlt, if_pos hlt]
      rfl
    · rw [if_neg hlt, if_neg hlt]
      rfl
  · rw [MRAM_to_ARAM_body_store t h4]
    unfold MRAM_to_ARAM_body_offsets
    rw [if_neg h4]
    simp only [ite_self, List.foldl_cons, List.foldl_nil]

theorem foldl_store_u64_frame (v : Nat) (l : List Nat) :
    ∀ a : ARAMInfo, (l.foldl (fun a o => a.store_u64 o v) a).mask = a.mask ∧
      (l.foldl (fun a o => a.store_u64 o v) a).size = a.size := by
  induction l with
  | nil => exact fun a => ⟨rfl, rfl⟩
  | cons o l ih =>
    intro a
    rw [List.foldl_cons]
    exact ih (a.store_u64 o v)

theorem MRAM_to_ARAM_body_mask (t : DSPSystem) :
    (MRAM_to_ARAM_body t).g_ARAM.mask = t.g_ARAM.mask ∧
    (MRAM_to_ARAM_body t).g_ARAM.size = t.g_ARAM.size := by
  rw [MRAM_to_ARAM_body_g_ARAM_offsets]
  exact foldl_store_u64_frame _ _ _

/-- A loop of `8 n` bytes has its offsets listed with fuel `n`. -/
theorem whileCount_offsets_terminates (offsets : DSPSystem → List Nat)
    (body : DSPSystem → DSPSystem)
    (hbody : ∀ s, (body s).g_arDMA.Cnt.count = (s.g_arDMA.Cnt.count + 2 ^ 31 - 8) % 2 ^ 31) :
    ∀ (n : Nat) (s : DSPSystem), s.g_arDMA.Cnt.count = 8 * n →
      ∃ l, whileCount_offsets offsets body n s = some l := by
  intro n
  induction n with
  | zero =>
    intro s h
    exact ⟨[], by simp only [whileCount_offsets]; rw [if_pos (by omega)]⟩
  | succ n ih =>
    intro s h
    have hlt := count_lt s.g_arDMA.Cnt
    obtain ⟨l, hl⟩ := ih (body s) (by rw [hbody]; omega)
    refine ⟨offsets s ++ l, ?_⟩
    simp only [whileCount_offsets]
    rw [if_neg (by omega), hl]
    rfl

/-- Every offset a loop touches has a property that every round's offsets have,
under an invariant of the loop. -/
theorem whileCount_offsets_all (offsets : DSPSystem → List Nat)
    (body : DSPSystem → DSPSystem) (P : DSPSystem → Prop) (Q : Nat → Prop)
    (hbody : ∀ t, P t → P (body t)) (hoffs : ∀ t, P t → ∀ o ∈ offsets t, Q o) :
    ∀ (fuel : Nat) (s : DSPSystem) (l : List Nat), P s →
      whileCount_offsets offsets body fuel s = some l → ∀ o ∈ l, Q o := by
  intro fuel
  induction fuel with
  | zero =>
    intro s l _ h o ho
    simp only [whileCount_offsets] at h
    split_ifs at h
    cases h
    cases ho
  | succ fuel ih =>
    intro s l hP h o ho
    simp only [whileCount_offsets] at h
    split_ifs at h
    · cases h
      cases ho
    · obtain ⟨l1, h1, h2⟩ := Option.map_eq_some'.mp h
      rw [← h2] at ho
      rcases List.mem_append.mp ho with ho | ho
      · exact hoffs s hP o ho
      · exact ih (body s) l1 (hbody s hP) h1 o ho

/-- Round `k` of a loop of `n` rounds contributes its offsets. -/
theorem whileCount_offsets_round (offsets : DSPSystem → List Nat)
    (body : DSPSystem → DSPSystem)
    (hbody : ∀ s, (body s).g_arDMA.Cnt.count = (s.g_arDMA.Cnt.count + 2 ^ 31 - 8) % 2 ^ 31) :
    ∀ (n : Nat) (s : DSPSystem) (l : List Nat), s.g_arDMA.Cnt.count = 8 * n →
      whileCount_offsets offsets body n s = some l →
      ∀ k, k < n → ∀ o ∈ offsets (body^[k] s), o ∈ l := by
  intro n
  induction n with
  | zero =>
    intro s l _ _ k hk
    omega
  | succ n ih =>
    intro s l hc h k hk o ho
    have hlt := count_lt s.g_arDMA.Cnt
    simp only [whileCount_offsets] at h
    rw [if_neg (by omega)] at h
    obtain ⟨l1, h1, h2⟩ := Option.map_eq_some'.mp h
    rw [← h2]
    cases k with
    | zero => exact List.mem_append_left _ ho
    | succ k =>
      rw [Function.iterate_succ_apply] at ho
      exact List.mem_append_right _
        (ih (body s) l1 (by rw [hbody]; omega) h1 k (by omega) o ho)

/-- An 8-aligned address masked into a buffer of `2 ^ e ≥ 8` bytes leaves room for
8 bytes. -/
theorem aligned_offset_in_bounds (x e : Nat) (hx : x % 8 = 0) (he : 3 ≤ e) :
    (x &&& (2 ^ e - 1)) + 8 ≤ 2 ^ e := by
  have h1 := and_mask_mod_8 x e hx he
  have h2 : x &&& (2 ^ e - 1) < 2 ^ e := by
    rw [Nat.and_pow_two_sub_one_eq_mod]
    exact Nat.mod_lt _ (by positivity)
  obtain ⟨c, hc⟩ : 2 ^ 3 ∣ 2 ^ e := Nat.pow_dvd_pow 2 he
  generalize x &&& (2 ^ e - 1) = o at h1 h2 ⊢
  generalize 2 ^ e = m at hc h2 ⊢
  omega

theorem iterate_invariant (body : DSPSystem → DSPSystem) (P : DSPSystem → Prop)
    (h : ∀ t, P t → P (body t)) (s : DSPSystem) (hs : P s) : ∀ k, P (body^[k] s) := by
  intro k
  induction k with
  | zero => exact hs
  | succ k ih =>
    rw [Function.iterate_succ_apply']
    exact h _ ih

theorem ARAM_to_MRAM_body_offsets_mem (t : DSPSystem) :
    t.g_arDMA.ARAddr &&& t.g_ARAM.mask ∈ ARAM_to_MRAM_body_offsets t := by
  unfold ARAM_to_MRAM_body_offsets
  simp only [ite_self, List.mem_singleton]

theorem MRAM_to_ARAM_body_offsets_mem (t : DSPSystem) :
    t.g_arDMA.ARAddr &&& t.g_ARAM.mask ∈ MRAM_to_ARAM_body_offsets t := by
  unfold MRAM_to_ARAM_body_offsets
  split_ifs <;> simp

/-- The offsets of one round are in bounds on an 8-aligned `ARAddr` and a mask
`2 ^ e - 1`, `e ≥ 3`. -/
theorem body_offsets_in_bounds (t : DSPSystem) (e : Nat) (he : 3 ≤ e)
    (hal : t.g_arDMA.ARAddr % 8 = 0) (hmask : t.g_ARAM.mask = 2 ^ e - 1) :
    (∀ o ∈ ARAM_to_MRAM_body_offsets t, o + 8 ≤ 2 ^ e) ∧
    (∀ o ∈ MRAM_to_ARAM_body_offsets t, o + 8 ≤ 2 ^ e) := by
  have h1 := aligned_offset_in_bounds t.g_arDMA.ARAddr e hal he
  have h2 := aligned_offset_in_bounds ((t.g_arDMA.ARAddr + 0x400000) % 2 ^ 32) e (by omega) he
  constructor
  · intro o ho
    unfold ARAM_to_MRAM_body_offsets at ho
    simp only [ite_self, hmask] at ho
    rw [List.mem_singleton.mp ho]
    exact h1
  · intro o ho
    unfold MRAM_to_ARAM_body_offsets at ho
    rw [hmask] at ho
    split_ifs at ho
    · rw [List.mem_singleton.mp ho]
      exact h1
    · rcases List.mem_append.mp ho with ho | ho
      · rw [List.mem_singleton.mp ho]
        exact h2
      · rw [List.mem_singleton.mp ho]
        exact h1
    · rcases List.mem_append.mp ho with ho | ho
      · cases ho
      · rw [List.mem_singleton.mp ho]
        exact h1
    · rw [List.mem_singleton.mp ho]
      exact h1

/-- The invariant of the loops: `ARAddr` stays 8-aligned, the mask and the mode
bits stay. -/
theorem loop_invariant (e info : Nat) :
    (∀ t : DSPSystem,
      (t.g_arDMA.ARAddr % 8 = 0 ∧ t.g_ARAM.mask = 2 ^ e - 1 ∧ t.g_ARAM_Info = info) →
      ((ARAM_to_MRAM_body t).g_arDMA.ARAddr % 8 = 0 ∧
        (ARAM_to_MRAM_body t).g_ARAM.mask = 2 ^ e - 1 ∧
        (ARAM_to_MRAM_body t).g_ARAM_Info = info)) ∧
    (∀ t : DSPSystem,
      (t.g_arDMA.ARAddr % 8 = 0 ∧ t.g_ARAM.mask = 2 ^ e - 1 ∧ t.g_ARAM_Info = info) →
      ((MRAM_to_ARAM_body t).g_arDMA.ARAddr % 8 = 0 ∧
        (MRAM_to_ARAM_body t).g_ARAM.mask = 2 ^ e - 1 ∧
        (MRAM_to_ARAM_body t).g_ARAM_Info = info)) := by
  have ha : ∀ t : DSPSystem, t.g_arDMA.ARAddr % 8 = 0 →
      (advance8 t).g_arDMA.ARAddr % 8 = 0 := by
    intro t ht
    show (t.g_arDMA.ARAddr + 8) % 2 ^ 32 % 8 = 0
    omega
  constructor
  · rintro t ⟨h1, h2, h3⟩
    refine ⟨by rw [ARAM_to_MRAM_body_g_arDMA]; exact ha t h1,
      by rw [(ARAM_to_MRAM_body_effect t).1]; exact h2, ?_⟩
    unfold ARAM_to_MRAM_body
    simp only [advance8_g_ARAM_Info, ite_self]
    exact h3
  · rintro t ⟨h1, h2, h3⟩
    exact ⟨by rw [MRAM_to_ARAM_body_g_arDMA]; exact ha t h1,
      by rw [(MRAM_to_ARAM_body_mask t).1]; exact h2,
      by rw [MRAM_to_ARAM_body_g_ARAM_Info]; exact h3⟩

theorem MRAM_to_ARAM_body_offsets_mirror_mem (t : DSPSystem) (h4 : t.g_ARAM_Info &&& 0xf = 4)
    (hlt : t.g_arDMA.ARAddr < 0x400000) :
    ((t.g_arDMA.ARAddr + 0x400000) % 2 ^ 32) &&& t.g_ARAM.mask ∈
      MRAM_to_ARAM_body_offsets t := by
  have h3 : ¬ t.g_ARAM_Info &&& 0xf = 3 := by omega
  unfold MRAM_to_ARAM_body_offsets
  rw [if_neg h3, if_pos h4, if_pos hlt]
  exact List.mem_append_left _ (List.mem_singleton.mpr rfl)

theorem transfer_offsets_aram_to_mram_in (s1 : DSPSystem) (fuel : Nat)
    (hdir : s1.g_arDMA.Cnt.dir = 1)
    (hA : s1.g_arDMA.ARAddr &&& 0x3ffffff < s1.g_ARAM.size) :
    Do_ARAM_DMA_transfer_offsets fuel s1 =
      whileCount_offsets ARAM_to_MRAM_body_offsets ARAM_to_MRAM_body fuel
        (maskAddresses s1) := by
  have hd : s1.g_arDMA.Cnt.dir ≠ 0 := by omega
  have hA2 : (maskAddresses s1).g_arDMA.ARAddr < (maskAddresses s1).g_ARAM.size := hA
  unfold Do_ARAM_DMA_transfer_offsets
  simp only [if_pos hd, if_pos hA2]

theorem transfer_offsets_mram_to_aram_in (s1 : DSPSystem) (fuel : Nat)
    (hdir : s1.g_arDMA.Cnt.dir = 0)
    (hA : s1.g_arDMA.ARAddr &&& 0x3ffffff < s1.g_ARAM.size) :
    Do_ARAM_DMA_transfer_offsets fuel s1 =
      whileCount_offsets MRAM_to_ARAM_body_offsets MRAM_to_ARAM_body fuel
        (maskAddresses s1) := by
  have hd : ¬ s1.g_arDMA.Cnt.dir ≠ 0 := by omega
  have hA2 : (maskAddresses s1).g_arDMA.ARAddr < (maskAddresses s1).g_ARAM.size := hA
  unfold Do_ARAM_DMA_transfer_offsets
  simp only [if_neg hd, if_pos hA2]

/-- C24. For every trigger state with `ARAddr` a multiple of 8, the count `8 n`,
the ARAM size `2 ^ e` with `e ≥ 3` and `mask = size - 1`: the list of the ARAM
offsets touched by `Do_ARAM_DMA` is produced (with fuel `n`); every offset `o` in
it, whatever the direction, the mode bits and the fuel, has `o + 8 ≤ size`, the
mode-4 mirror store at `(ARAddr + 0x400000) & mask` included; and when the masked
start `A0 = ARAddr & 0x3ffffff` is below the size, round `k` touches
`(A0 + 8 k) mod size` (offset 0 when `A0 + 8 k` is the size: the transfer wraps,
the bounds test being made once before the loop), and in mode 4, direction 0,
for `A0 + 8 k < 0x400000`, also `(A0 + 8 k + 0x400000) mod size`. -/
theorem Do_ARAM_DMA_accesses_in_bounds (s : DSPSystem) (n e : Nat)
    (hal : s.g_arDMA.ARAddr % 8 = 0) (hc : s.g_arDMA.Cnt.count = 8 * n)
    (hsize : s.g_ARAM.size = 2 ^ e) (he : 3 ≤ e) (hmask : s.g_ARAM.mask = 2 ^ e - 1) :
    (∃ l, Do_ARAM_DMA_offsets n s = some l) ∧
    (∀ fuel l, Do_ARAM_DMA_offsets fuel s = some l → ∀ o ∈ l, o + 8 ≤ s.g_ARAM.size) ∧
    (s.g_arDMA.ARAddr &&& 0x3ffffff < s.g_ARAM.size →
      ∀ l, Do_ARAM_DMA_offsets n s = some l → ∀ k, k < n →
        ((s.g_arDMA.ARAddr &&& 0x3ffffff) + 8 * k) % s.g_ARAM.size ∈ l ∧
        (s.g_arDMA.Cnt.dir = 0 → s.g_ARAM_Info &&& 0xf = 4 →
          (s.g_arDMA.ARAddr &&& 0x3ffffff) + 8 * k < 0x400000 →
          ((s.g_arDMA.ARAddr &&& 0x3ffffff) + 8 * k + 0x400000) % s.g_ARAM.size ∈ l)) := by
  obtain ⟨_, hfr⟩ := Do_ARAM_DMA_interrupt_frame s
  obtain ⟨hg, _, hi⟩ := Do_ARAM_DMA_interrupt_frame_mem s
  have hAlt := and_0x3ffffff_lt s.g_arDMA.ARAddr
  have hMlt := and_0x3ffffff_lt s.g_arDMA.MMAddr
  have hlt := count_lt s.g_arDMA.Cnt
  have hM2 : (maskAddresses (Do_ARAM_DMA_interrupt s)).g_arDMA.MMAddr =
      s.g_arDMA.MMAddr &&& 0x3ffffff := by
    show (Do_ARAM_DMA_interrupt s).g_arDMA.MMAddr &&& 0x3ffffff = _
    rw [hfr]
  have hA2 : (maskAddresses (Do_ARAM_DMA_interrupt s)).g_arDMA.ARAddr =
      s.g_arDMA.ARAddr &&& 0x3ffffff := by
    show (Do_ARAM_DMA_interrupt s).g_arDMA.ARAddr &&& 0x3ffffff = _
    rw [hfr]
  have hC2 : (maskAddresses (Do_ARAM_DMA_interrupt s)).g_arDMA.Cnt = s.g_arDMA.Cnt := by
    show (Do_ARAM_DMA_interrupt s).g_arDMA.Cnt = _
    rw [hfr]
  have hG2 : (maskAddresses (Do_ARAM_DMA_interrupt s)).g_ARAM = s.g_ARAM := hg
  have hI2 : (maskAddresses (Do_ARAM_DMA_interrupt s)).g_ARAM_Info = s.g_ARAM_Info := hi
  have hcm : (maskAddresses (Do_ARAM_DMA_interrupt s)).g_arDMA.Cnt.count = 8 * n := by
    rw [hC2]; exact hc
  have hA0 : (s.g_arDMA.ARAddr &&& 0x3ffffff) % 8 = 0 := by
    rw [show (0x3ffffff : Nat) = 2 ^ 26 - 1 from rfl, Nat.and_pow_two_sub_one_eq_mod]
    omega
  have hP : (maskAddresses (Do_ARAM_DMA_interrupt s)).g_arDMA.ARAddr % 8 = 0 ∧
      (maskAddresses (Do_ARAM_DMA_interrupt s)).g_ARAM.mask = 2 ^ e - 1 ∧
      (maskAddresses (Do_ARAM_DMA_interrupt s)).g_ARAM_Info = s.g_ARAM_Info :=
    ⟨by rw [hA2]; exact hA0, by rw [hG2]; exact hmask, hI2⟩
  obtain ⟨inv1, inv2⟩ := loop_invariant e s.g_ARAM_Info
  refine ⟨?_, ?_, ?_⟩
  · unfold Do_ARAM_DMA_offsets Do_ARAM_DMA_transfer_offsets
    simp only []
    split_ifs
    · exact whileCount_offsets_terminates _ _ ARAM_to_MRAM_body_count n _ hcm
    · exact whileCount_offsets_terminates _ _ ARAM_to_MRAM_zero_body_count n _ hcm
    · exact whileCount_offsets_terminates _ _ MRAM_to_ARAM_body_count n _ hcm
    · exact ⟨[], rfl⟩
  · intro fuel l h
    rw [hsize]
    unfold Do_ARAM_DMA_offsets Do_ARAM_DMA_transfer_offsets at h
    simp only [] at h
    split_ifs at h
    · exact whileCount_offsets_all ARAM_to_MRAM_body_offsets ARAM_to_MRAM_body
        (fun t => t.g_arDMA.ARAddr % 8 = 0 ∧ t.g_ARAM.mask = 2 ^ e - 1 ∧
          t.g_ARAM_Info = s.g_ARAM_Info)
        (fun o => o + 8 ≤ 2 ^ e) inv1
        (fun t ht => (body_offsets_in_bounds t e he ht.1 ht.2.1).1) fuel _ l hP h
    · exact whileCount_offsets_all (fun _ => []) ARAM_to_MRAM_zero_body (fun _ => True)
        (fun o => o + 8 ≤ 2 ^ e) (fun _ _ => trivial)
        (fun _ _ o ho => by cases ho) fuel _ l trivial h
    · exact whileCount_offsets_all MRAM_to_ARAM_body_offsets MRAM_to_ARAM_body
        (fun t => t.g_arDMA.ARAddr % 8 = 0 ∧ t.g_ARAM.mask = 2 ^ e - 1 ∧
          t.g_ARAM_Info = s.g_ARAM_Info)
        (fun o => o + 8 ≤ 2 ^ e) inv2
        (fun t ht => (body_offsets_in_bounds t e he ht.1 ht.2.1).2) fuel _ l hP h
    · cases h
      intro o ho
      cases ho
  · intro hA l h k hk
    have hA1 : (Do_ARAM_DMA_interrupt s).g_arDMA.ARAddr &&& 0x3ffffff <
        (Do_ARAM_DMA_interrupt s).g_ARAM.size := by
      rw [hfr, hg]; exact hA
    have hmod : ∀ x, x &&& (2 ^ e - 1) = x % s.g_ARAM.size := by
      intro x
      rw [hsize, Nat.and_pow_two_sub_one_eq_mod]
    rcases dir_cases s.g_arDMA.Cnt with hdir | hdir
    · have h1 : whileCount_offsets MRAM_to_ARAM_body_offsets MRAM_to_ARAM_body n
          (maskAddresses (Do_ARAM_DMA_interrupt s)) = some l := by
        rw [← transfer_offsets_mram_to_aram_in (Do_ARAM_DMA_interrupt s) n
          (by rw [hfr]; exact hdir) hA1]
        exact h
      have hr := whileCount_offsets_round _ _ MRAM_to_ARAM_body_count n _ l hcm h1 k hk
      obtain ⟨j1, j2, j3⟩ := iterate_invariant MRAM_to_ARAM_body _ inv2 _ hP k
      obtain ⟨_, r2, _, _⟩ := iterate_g_arDMA MRAM_to_ARAM_body MRAM_to_ARAM_body_g_arDMA
        (maskAddresses (Do_ARAM_DMA_interrupt s)) n hcm
        (by rw [hM2]; omega) (by rw [hA2]; omega) k (by omega)
      rw [hA2, Nat.mod_eq_of_lt (by omega)] at r2
      refine ⟨?_, fun _ h4 hlow => ?_⟩
      · have hm := hr _ (MRAM_to_ARAM_body_offsets_mem _)
        rw [r2, j2, hmod] at hm
        exact hm
      · have hm := hr _ (MRAM_to_ARAM_body_offsets_mirror_mem _ (by rw [j3]; exact h4)
          (by rw [r2]; exact hlow))
        have hw : ((s.g_arDMA.ARAddr &&& 0x3ffffff) + 8 * k + 0x400000) % 2 ^ 32 =
            (s.g_arDMA.ARAddr &&& 0x3ffffff) + 8 * k + 0x400000 :=
          Nat.mod_eq_of_lt (by omega)
        rw [r2, hw, j2, hmod] at hm
        exact hm
    · have h1 : whileCount_offsets ARAM_to_MRAM_body_offsets ARAM_to_MRAM_body n
          (maskAddresses (Do_ARAM_DMA_interrupt s)) = some l := by
        rw [← transfer_offsets_aram_to_mram_in (Do_ARAM_DMA_interrupt s) n
          (by rw [hfr]; exact hdir) hA1]
        exact h
      have hr := whileCount_offsets_round _ _ ARAM_to_MRAM_body_count n _ l hcm h1 k hk
      obtain ⟨j1, j2, j3⟩ := iterate_invariant ARAM_to_MRAM_body _ inv1 _ hP k
      obtain ⟨_, r2, _, _⟩ := iterate_g_arDMA ARAM_to_MRAM_body ARAM_to_MRAM_body_g_arDMA
        (maskAddresses (Do_ARAM_DMA_interrupt s)) n hcm
        (by rw [hM2]; omega) (by rw [hA2]; omega) k (by omega)
      rw [hA2, Nat.mod_eq_of_lt (by omega)] at r2
      refine ⟨?_, fun h0 => by omega⟩
      have hm := hr _ (ARAM_to_MRAM_body_offsets_mem _)
      rw [r2, j2, hmod] at hm
      exact hm

/-- Witness for C24: 64 bytes to an ARAM of 32 bytes, from offset 16, mode 4:
offsets 16 and 24, then the wrap to 0, all with their mirror. -/
theorem Do_ARAM_DMA_accesses_in_bounds_witness :
    Do_ARAM_DMA_offsets 8
        { Init false false (fun _ => 0) (fun _ => 0) with
          g_ARAM := { wii_mode := false, size := 32, mask := 31, ptr := fun _ => 0 }
          g_ARAM_Info := 4
          g_arDMA := { MMAddr := 0x100, ARAddr := 16, Cnt := ⟨64⟩ } } =
      some [16, 16, 24, 24, 0, 0, 8, 8, 16, 16, 24, 24, 0, 0, 8, 8] ∧
    ∀ o ∈ [16, 16, 24, 24, 0, 0, 8, 8, 16, 16, 24, 24, 0, 0, 8, 8], o + 8 ≤ 32 :=
  ⟨by decide,
   (Do_ARAM_DMA_accesses_in_bounds
      { Init false false (fun _ => 0) (fun _ => 0) with
        g_ARAM := { wii_mode := false, size := 32, mask := 31, ptr := fun _ => 0 }
        g_ARAM_Info := 4
        g_arDMA := { MMAddr := 0x100, ARAddr := 16, Cnt := ⟨64⟩ } } 8 5
      (by decide) (by decide) (by decide) (by decide) (by decide)).2.1 8 _ (by decide)⟩

/-! ## Snapshot: bytes and back -/

theorem ofBytes_toBytes_2 (v : Nat) (h : v < 2 ^ 16) : ofBytes (toBytes 2 v) = v := by
  simp only [toBytes, ofBytes]
  omega

theorem ofBytes_toBytes_4 (v : Nat) (h : v < 2 ^ 32) : ofBytes (toBytes 4 v) = v := by
  simp only [toBytes, ofBytes]
  omega

theorem int_ofBytes_toBytes (i : Int) (h1 : -2 ^ 31 ≤ i) (h2 : i < 2 ^ 31) :
    int_ofBytes (int_toBytes i) = i := by
  have hx : ((i % 2 ^ 32).toNat : Int) = i % 2 ^ 32 :=
    Int.toNat_of_nonneg (Int.emod_nonneg _ (by norm_num))
  have hlt : (i % 2 ^ 32).toNat < 2 ^ 32 := by omega
  unfold int_ofBytes int_toBytes
  rw [ofBytes_toBytes_4 _ hlt]
  split_ifs <;> omega

theorem UDSPControl_Hex_lt (c : UDSPControl) : c.Hex < 2 ^ 16 := by
  have b1 := Bool_toNat_le_one c.DSPReset
  have b2 := Bool_toNat_le_one c.DSPAssertInt
  have b3 := Bool_toNat_le_one c.DSPHalt
  have b4 := Bool_toNat_le_one c.AID
  have b5 := Bool_toNat_le_one c.AID_mask
  have b6 := Bool_toNat_le_one c.ARAM
  have b7 := Bool_toNat_le_one c.ARAM_mask
  have b8 := Bool_toNat_le_one c.DSP
  have b9 := Bool_toNat_le_one c.DSP_mask
  have b10 := Bool_toNat_le_one c.DMAState
  have b11 := Bool_toNat_le_one c.unk3
  have b12 := Bool_toNat_le_one c.DSPInit
  unfold UDSPControl.Hex
  omega

theorem testBit_of_div_mod (x k : Nat) (b : Bool) (h : x / 2 ^ k % 2 = b.toNat) :
    x.testBit k = b := by
  rw [Nat.testBit_to_div_mod, h]
  cases b <;> rfl

/-- Reading the bit-fields of the `Hex` of a control register gives the register
back. -/
theorem UDSPControl_ofHex_Hex (c : UDSPControl) (hp : c.pad < 16) :
    UDSPControl.ofHex c.Hex = c := by
  have b1 := Bool_toNat_le_one c.DSPReset
  have b2 := Bool_toNat_le_one c.DSPAssertInt
  have b3 := Bool_toNat_le_one c.DSPHalt
  have b4 := Bool_toNat_le_one c.AID
  have b5 := Bool_toNat_le_one c.AID_mask
  have b6 := Bool_toNat_le_one c.ARAM
  have b7 := Bool_toNat_le_one c.ARAM_mask
  have b8 := Bool_toNat_le_one c.DSP
  have b9 := Bool_toNat_le_one c.DSP_mask
  have b10 := Bool_toNat_le_one c.DMAState
  have b11 := Bool_toNat_le_one c.unk3
  have b12 := Bool_toNat_le_one c.DSPInit
  have hH : c.Hex = c.DSPReset.toNat + 2 * c.DSPAssertInt.toNat + 4 * c.DSPHalt.toNat +
      8 * c.AID.toNat + 16 * c.AID_mask.toNat + 32 * c.ARAM.toNat + 64 * c.ARAM_mask.toNat +
      128 * c.DSP.toNat + 256 * c.DSP_mask.toNat + 512 * c.DMAState.toNat +
      1024 * c.unk3.toNat + 2048 * c.DSPInit.toNat + 4096 * (c.pad % 16) := rfl
  have e0 := testBit_of_div_mod c.Hex 0 c.DSPReset (by omega)
  have e1 := testBit_of_div_mod c.Hex 1 c.DSPAssertInt (by omega)
  have e2 := testBit_of_div_mod c.Hex 2 c.DSPHalt (by omega)
  have e3 := testBit_of_div_mod c.Hex 3 c.AID (by omega)
  have e4 := testBit_of_div_mod c.Hex 4 c.AID_mask (by omega)
  have e5 := testBit_of_div_mod c.Hex 5 c.ARAM (by omega)
  have e6 := testBit_of_div_mod c.Hex 6 c.ARAM_mask (by omega)
  have e7 := testBit_of_div_mod c.Hex 7 c.DSP (by omega)
  have e8 := testBit_of_div_mod c.Hex 8 c.DSP_mask (by omega)
  have e9 := testBit_of_div_mod c.Hex 9 c.DMAState (by omega)
  have e10 := testBit_of_div_mod c.Hex 10 c.unk3 (by omega)
  have e11 := testBit_of_div_mod c.Hex 11 c.DSPInit (by omega)
  have e12 : c.Hex / 2 ^ 12 % 16 = c.pad := by omega
  unfold UDSPControl.ofHex
  rw [e0, e1, e2, e3, e4, e5, e6, e7, e8, e9, e10, e11, e12]

theorem UDSPControl_ofBytes_toBytes (c : UDSPControl) (hp : c.pad < 16) :
    UDSPControl.ofBytes c.toBytes = c := by
  unfold UDSPControl.ofBytes UDSPControl.toBytes
  rw [ofBytes_toBytes_2 _ (UDSPControl_Hex_lt c), UDSPControl_ofHex_Hex c hp]

theorem AudioDMA_ofBytes_toBytes (a : AudioDMA) (h1 : a.SourceAddress < 2 ^ 32)
    (h2 : a.ReadAddress < 2 ^ 32) (h3 : a.AudioDMAControl.Hex < 2 ^ 16)
    (h4 : -2 ^ 31 ≤ a.BlocksLeft) (h5 : a.BlocksLeft < 2 ^ 31) :
    AudioDMA.ofBytes a.toBytes = a := by
  have e1 : (a.toBytes).take 4 = toBytes 4 a.SourceAddress := rfl
  have e2 : ((a.toBytes).drop 4).take 4 = toBytes 4 a.ReadAddress := rfl
  have e3 : ((a.toBytes).drop 8).take 2 = toBytes 2 a.AudioDMAControl.Hex := rfl
  have e4 : ((a.toBytes).drop 12).take 4 = int_toBytes a.BlocksLeft := rfl
  unfold AudioDMA.ofBytes
  rw [e1, e2, e3, e4, ofBytes_toBytes_4 _ h1, ofBytes_toBytes_4 _ h2, ofBytes_toBytes_2 _ h3,
    int_ofBytes_toBytes _ h4 h5]

theorem ARAM_DMA_ofBytes_toBytes (d : ARAM_DMA) (h1 : d.MMAddr < 2 ^ 32)
    (h2 : d.ARAddr < 2 ^ 32) (h3 : d.Cnt.Hex < 2 ^ 32) :
    ARAM_DMA.ofBytes d.toBytes = d := by
  have e1 : (d.toBytes).take 4 = toBytes 4 d.MMAddr := rfl
  have e2 : ((d.toBytes).drop 4).take 4 = toBytes 4 d.ARAddr := rfl
  have e3 : ((d.toBytes).drop 8).take 4 = toBytes 4 d.Cnt.Hex := rfl
  unfold ARAM_DMA.ofBytes
  rw [e1, e2, e3, ofBytes_toBytes_4 _ h1, ofBytes_toBytes_4 _ h2, ofBytes_toBytes_4 _ h3]

theorem ARAM_toBytes_length (size : Nat) (ptr : Nat → Nat) :
    (ARAM_toBytes size ptr).length = size := by
  unfold ARAM_toBytes
  rw [List.length_map, List.length_range]

theorem ARAM_ofBytes_toBytes (size : Nat) (ptr0 ptr : Nat → Nat) (i : Nat) (hi : i < size) :
    ARAM_ofBytes size ptr0 (ARAM_toBytes size ptr) i = ptr i % 256 := by
  unfold ARAM_ofBytes ARAM_toBytes
  rw [if_pos hi, List.getD_eq_getElem?_getD, List.getElem?_map, List.getElem?_range hi]
  rfl

/-- Persisting appends the bytes of the object. -/
theorem DoVoid_write {α : Type} (b : α → List Nat) (o : List Nat → α) (st : List Nat)
    (x : α) :
    PointerWrap.DoVoid b o ⟨Mode.MODE_WRITE, st⟩ x = (x, ⟨Mode.MODE_WRITE, st ++ b x⟩) := rfl

/-- Restoring from a stream that starts with the bytes of `y` gives what is read
from those bytes, and leaves the rest of the stream. -/
theorem DoVoid_read {α : Type} (b : α → List Nat) (o : List Nat → α) (x y : α)
    (R : List Nat) (hlen : (b x).length = (b y).length) :
    PointerWrap.DoVoid b o ⟨Mode.MODE_READ, b y ++ R⟩ x = (o (b y), ⟨Mode.MODE_READ, R⟩) := by
  simp only [PointerWrap.DoVoid]
  rw [hlen, List.take_left, List.drop_left]

/-! ## Snapshot: `DoState` -/

/-- Persisting: the stream is, in this order, the ARAM bytes (native mode only),
the control register, the Audio-DMA state, the ARAM-DMA state, `g_ARAM_Info`,
`g_AR_MODE`, `g_AR_REFRESH`, `dsp_slice`, and what the DSP emulator persists. -/
theorem DoState_write_stream (emu : List Nat) (s : DSPSystem) :
    (DoState emu ⟨Mode.MODE_WRITE, []⟩ s).1.stream =
      (if s.g_ARAM.wii_mode then [] else ARAM_toBytes s.g_ARAM.size s.g_ARAM.ptr) ++
      (s.g_dspState.toBytes ++ (s.g_audioDMA.toBytes ++ (s.g_arDMA.toBytes ++
      (toBytes 2 s.g_ARAM_Info ++ (toBytes 2 s.g_AR_MODE ++ (toBytes 2 s.g_AR_REFRESH ++
      (int_toBytes s.dsp_slice ++ emu))))))) := by
  unfold DoState
  cases h : s.g_ARAM.wii_mode
  · simp only [Bool.false_eq_true, not_false_eq_true, if_true, if_false, DoVoid_write,
      List.nil_append, List.append_assoc]
  · simp only [not_true_eq_false, if_false, if_true, DoVoid_write, List.nil_append,
      List.append_assoc]

/-- Restoring from a stream laid out as `DoState` persists it. -/
theorem DoState_read (emu0 : List Nat) (t : DSPSystem) (ptr : Nat → Nat) (c : UDSPControl)
    (a : AudioDMA) (d : ARAM_DMA) (info mode refresh : Nat) (slice : Int) (R : List Nat) :
    (DoState emu0 ⟨Mode.MODE_READ,
        (if t.g_ARAM.wii_mode then [] else ARAM_toBytes t.g_ARAM.size ptr) ++
        (c.toBytes ++ (a.toBytes ++ (d.toBytes ++
        (toBytes 2 info ++ (toBytes 2 mode ++ (toBytes 2 refresh ++
        (int_toBytes slice ++ R)))))))⟩ t).2 =
      { t with
        g_ARAM := { t.g_ARAM with
          ptr := if t.g_ARAM.wii_mode then t.g_ARAM.ptr
            else ARAM_ofBytes t.g_ARAM.size t.g_ARAM.ptr (ARAM_toBytes t.g_ARAM.size ptr) }
        g_dspState := UDSPControl.ofBytes c.toBytes
        g_audioDMA := AudioDMA.ofBytes a.toBytes
        g_arDMA := ARAM_DMA.ofBytes d.toBytes
        g_ARAM_Info := ofBytes (toBytes 2 info)
        g_AR_MODE := ofBytes (toBytes 2 mode)
        g_AR_REFRESH := ofBytes (toBytes 2 refresh)
        dsp_slice := int_ofBytes (int_toBytes slice) } := by
  have r0 : ∀ (x y : Nat → Nat) (S : List Nat),
      PointerWrap.DoVoid (ARAM_toBytes t.g_ARAM.size) (ARAM_ofBytes t.g_ARAM.size t.g_ARAM.ptr)
        ⟨Mode.MODE_READ, ARAM_toBytes t.g_ARAM.size y ++ S⟩ x =
      (ARAM_ofBytes t.g_ARAM.size t.g_ARAM.ptr (ARAM_toBytes t.g_ARAM.size y),
        ⟨Mode.MODE_READ, S⟩) :=
    fun x y S => DoVoid_read _ _ x y S
      (by rw [ARAM_toBytes_length, ARAM_toBytes_length])
  have r1 : ∀ (x y : UDSPControl) (S : List Nat),
      PointerWrap.DoVoid UDSPControl.toBytes UDSPControl.ofBytes
        ⟨Mode.MODE_READ, y.toBytes ++ S⟩ x =
      (UDSPControl.ofBytes y.toBytes, ⟨Mode.MODE_READ, S⟩) :=
    fun x y S => DoVoid_read _ _ x y S rfl
  have r2 : ∀ (x y : AudioDMA) (S : List Nat),
      PointerWrap.DoVoid AudioDMA.toBytes AudioDMA.ofBytes
        ⟨Mode.MODE_READ, y.toBytes ++ S⟩ x =
      (AudioDMA.ofBytes y.toBytes, ⟨Mode.MODE_READ, S⟩) :=
    fun x y S => DoVoid_read _ _ x y S rfl
  have r3 : ∀ (x y : ARAM_DMA) (S : List Nat),
      PointerWrap.DoVoid ARAM_DMA.toBytes ARAM_DMA.ofBytes
        ⟨Mode.MODE_READ, y.toBytes ++ S⟩ x =
      (ARAM_DMA.ofBytes y.toBytes, ⟨Mode.MODE_READ, S⟩) :=
    fun x y S => DoVoid_read _ _ x y S rfl
  have r4 : ∀ (x y : Nat) (S : List Nat),
      PointerWrap.DoVoid (toBytes 2) ofBytes ⟨Mode.MODE_READ, toBytes 2 y ++ S⟩ x =
      (ofBytes (toBytes 2 y), ⟨Mode.MODE_READ, S⟩) :=
    fun x y S => DoVoid_read _ _ x y S rfl
  have r7 : ∀ (x y : Int) (S : List Nat),
      PointerWrap.DoVoid int_toBytes int_ofBytes ⟨Mode.MODE_READ, int_toBytes y ++ S⟩ x =
      (int_ofBytes (int_toBytes y), ⟨Mode.MODE_READ, S⟩) :=
    fun x y S => DoVoid_read _ _ x y S rfl
  unfold DoState
  cases h : t.g_ARAM.wii_mode
  · simp only [Bool.false_eq_true, not_false_eq_true, if_true, if_false, r0, r1, r2, r3, r4,
      r7]
  · simp only [not_true_eq_false, if_false, if_true, List.nil_append, r1, r2, r3, r4, r7]

/-- C23. For every state `s` whose saved globals lie in their C types, every
state `t` of the same ARAM ownership mode and ARAM size (a fresh instance of that
mode) and whatever the DSP emulator persists and restores: `DoState` in write
mode produces the stream made, in this order, of the ARAM bytes (native mode
only), the control register, the Audio-DMA state, the ARAM-DMA state,
`g_ARAM_Info`, `g_AR_MODE`, `g_AR_REFRESH`, `dsp_slice` and the emulator's part,
and leaves the state as it was; `DoState` in read mode over that stream turns `t`
into `t` with `g_dspState`, `g_audioDMA`, `g_arDMA`, `g_ARAM_Info`, `g_AR_MODE`,
`g_AR_REFRESH` and `dsp_slice` of `s`, and in native mode with the `size` bytes of
the ARAM buffer of `s`. In Wii mode the buffer is not touched and the stream
holds the 40 bytes of the other fields and the emulator's part only. -/
theorem DoState_round_trip (s t : DSPSystem) (emu emu0 : List Nat) (hs : s.WellTyped)
    (hmode : t.g_ARAM.wii_mode = s.g_ARAM.wii_mode) (hsize : t.g_ARAM.size = s.g_ARAM.size) :
    (DoState emu ⟨Mode.MODE_WRITE, []⟩ s).1.stream =
      (if s.g_ARAM.wii_mode then [] else ARAM_toBytes s.g_ARAM.size s.g_ARAM.ptr) ++
      (s.g_dspState.toBytes ++ (s.g_audioDMA.toBytes ++ (s.g_arDMA.toBytes ++
      (toBytes 2 s.g_ARAM_Info ++ (toBytes 2 s.g_AR_MODE ++ (toBytes 2 s.g_AR_REFRESH ++
      (int_toBytes s.dsp_slice ++ emu))))))) ∧
    (DoState emu ⟨Mode.MODE_WRITE, []⟩ s).2 = s ∧
    (DoState emu0 ⟨Mode.MODE_READ, (DoState emu ⟨Mode.MODE_WRITE, []⟩ s).1.stream⟩ t).2 =
      { t with
        g_ARAM := { t.g_ARAM with
          ptr := if s.g_ARAM.wii_mode then t.g_ARAM.ptr
            else fun i => if i < s.g_ARAM.size then s.g_ARAM.ptr i else t.g_ARAM.ptr i }
        g_dspState := s.g_dspState
        g_audioDMA := s.g_audioDMA
        g_arDMA := s.g_arDMA
        g_ARAM_Info := s.g_ARAM_Info
        g_AR_MODE := s.g_AR_MODE
        g_AR_REFRESH := s.g_AR_REFRESH
        dsp_slice := s.dsp_slice } ∧
    (s.g_ARAM.wii_mode = true →
      (DoState emu ⟨Mode.MODE_WRITE, []⟩ s).1.stream.length = 40 + emu.length) := by
  obtain ⟨h1, h2, h3, h4, h5, h6, h7, h8, h9, h10, h11, h12, h13, h14, h15⟩ := hs
  have hst := DoState_write_stream emu s
  refine ⟨hst, ?_, ?_, ?_⟩
  · unfold DoState
    cases h : s.g_ARAM.wii_mode
    · simp only [Bool.false_eq_true, not_false_eq_true, if_true, if_false, DoVoid_write]
    · simp only [not_true_eq_false, if_false, if_true, DoVoid_write]
  · have hptr : ARAM_ofBytes t.g_ARAM.size t.g_ARAM.ptr
        (ARAM_toBytes t.g_ARAM.size s.g_ARAM.ptr) =
        fun i => if i < s.g_ARAM.size then s.g_ARAM.ptr i else t.g_ARAM.ptr i := by
      funext i
      by_cases hi : i < s.g_ARAM.size
      · rw [ARAM_ofBytes_toBytes _ _ _ _ (by rw [hsize]; exact hi), if_pos hi]
        exact Nat.mod_eq_of_lt (h15 i hi)
      · unfold ARAM_ofBytes
        rw [if_neg (by rw [hsize]; exact hi), if_neg hi]
    rw [hst, ← hmode, ← hsize, DoState_read, UDSPControl_ofBytes_toBytes _ h1,
      AudioDMA_ofBytes_toBytes _ h2 h3 h4 h5 h6, ARAM_DMA_ofBytes_toBytes _ h7 h8 h9,
      ofBytes_toBytes_2 _ h10, ofBytes_toBytes_2 _ h11, ofBytes_toBytes_2 _ h12,
      int_ofBytes_toBytes _ h13 h14, hptr, hsize]
  · intro hw
    have l1 : (s.g_dspState.toBytes).length = 2 := rfl
    have l2 : (s.g_audioDMA.toBytes).length = 16 := rfl
    have l3 : (s.g_arDMA.toBytes).length = 12 := rfl
    have l4 : ∀ v, (toBytes 2 v).length = 2 := fun _ => rfl
    have l5 : (int_toBytes s.dsp_slice).length = 4 := rfl
    rw [hst, hw, if_pos rfl]
    simp only [List.nil_append, List.length_append, l1, l2, l3, l4, l5]
    omega

/-- Witness for C23: an armed Audio DMA mid-transfer, mixed masks and latches, a
4-byte native ARAM; restored into a fresh state of the same mode and size. -/
theorem DoState_round_trip_witness :
    (DoState [0, 0] ⟨Mode.MODE_READ,
      (DoState [9, 9] ⟨Mode.MODE_WRITE, []⟩
        { Init false false (fun _ => 0) (fun _ => 0) with
          g_ARAM := { wii_mode := false, size := 4, mask := 3,
                      ptr := fun i => (7 * i + 3) % 256 }
          g_dspState := UDSPControl.ofHex 0x0A5C
          g_audioDMA := { SourceAddress := 0x1000, ReadAddress := 0x1040,
                          AudioDMAControl := ⟨0x8005⟩, BlocksLeft := 3 }
          g_arDMA := { MMAddr := 0x100, ARAddr := 0x20, Cnt := ⟨0x80000040⟩ }
          g_ARAM_Info := 4, g_AR_MODE := 1, g_AR_REFRESH := 156,
          dsp_slice := -5 }).1.stream⟩
      { Init false false (fun _ => 0) (fun _ => 0) with
        g_ARAM := { wii_mode := false, size := 4, mask := 3,
                    ptr := fun _ => 0 } }).2.g_audioDMA =
      { SourceAddress := 0x1000, ReadAddress := 0x1040,
        AudioDMAControl := ⟨0x8005⟩, BlocksLeft := 3 } := by
  rw [(DoState_round_trip
    { Init false false (fun _ => 0) (fun _ => 0) with
      g_ARAM := { wii_mode := false, size := 4, mask := 3,
                  ptr := fun i => (7 * i + 3) % 256 }
      g_dspState := UDSPControl.ofHex 0x0A5C
      g_audioDMA := { SourceAddress := 0x1000, ReadAddress := 0x1040,
                      AudioDMAControl := ⟨0x8005⟩, BlocksLeft := 3 }
      g_arDMA := { MMAddr := 0x100, ARAddr := 0x20, Cnt := ⟨0x80000040⟩ }
      g_ARAM_Info := 4, g_AR_MODE := 1, g_AR_REFRESH := 156,
      dsp_slice := -5 }
    { Init false false (fun _ => 0) (fun _ => 0) with
      g_ARAM := { wii_mode := false, size := 4, mask := 3,
                  ptr := fun _ => 0 } }
    [9, 9] [0, 0] (by decide) (by decide) (by decide)).2.2.1]

end DSP
